import Mathlib

/-!
# runn: runner resolution, step validation and book composition

A shallow embedding of `book.go` and `option.go`.

* Go maps `map[string]T` are `GoMap T`: an association list without repeated
  keys.  `range` loops become folds over the entries.
* Go `error` values are represented by their message (`Error := String`);
  `nil` is `none`.
* Functions that mutate `*book` in place and return an `error` become functions
  returning the error together with the book as it is left behind.
* Calls into the world outside these files (runner constructors, YAML, the
  filesystem, the search path) go through an `Env` record.  The calls the
  properties talk about are recorded, in call order, in a `Log`.
-/

namespace Runn

/-! ## Strings -/

/-- Go `error`, represented by its message. -/
abbrev Error := String

/-- Go `[]byte`, also used for the YAML serialisation of a declaration. -/
abbrev Bytes := String

/-- Go `time.Duration` (nanoseconds). -/
abbrev Duration := Int

/-- Go `strings.HasPrefix(s, p)`. -/
def HasPrefix (s p : String) : Bool := p.data.isPrefixOf s.data

/-- Go `strings.TrimPrefix(s, p)`. -/
def TrimPrefix (s p : String) : String :=
  if HasPrefix s p then ⟨s.data.drop p.data.length⟩ else s

/-! ## Go maps -/

/-- Go `map[string]α`: entries with pairwise different keys. -/
structure GoMap (α : Type) where
  entries : List (String × α)
  nodup : (entries.map Prod.fst).Nodup

namespace GoMap

variable {α : Type}

/-- The empty map `map[string]α{}`. -/
def empty : GoMap α := ⟨[], List.nodup_nil⟩

/-- Keys of the map, `for k := range m`. -/
def keys (m : GoMap α) : List String := m.entries.map Prod.fst

/-- Go `len(m)`. -/
def len (m : GoMap α) : Nat := m.entries.length

/-- Go `v, ok := m[k]`. -/
def get? (m : GoMap α) (k : String) : Option α :=
  (m.entries.find? (fun e => e.1 == k)).map Prod.snd

/-- Go `_, ok := m[k]`. -/
def contains (m : GoMap α) (k : String) : Bool := (m.get? k).isSome

/-- Go `delete(m, k)`. -/
def delete (m : GoMap α) (k : String) : GoMap α :=
  ⟨m.entries.filter (fun e => e.1 != k),
    ((List.filter_sublist m.entries).map Prod.fst).nodup m.nodup⟩

/-- Go `m[k] = v`. -/
def set (m : GoMap α) (k : String) (v : α) : GoMap α :=
  ⟨(k, v) :: m.entries.filter (fun e => e.1 != k),
    by
      rw [List.map_cons, List.nodup_cons]
      refine ⟨?_, ((List.filter_sublist m.entries).map Prod.fst).nodup m.nodup⟩
      intro h
      rcases List.mem_map.1 h with ⟨e, he, hk⟩
      have h2 := (List.mem_filter.1 he).2
      simp [hk] at h2⟩

/-- The loop `for k, v := range src { dst[k] = v }`. -/
def overwriteFrom (dst src : GoMap α) : GoMap α :=
  src.entries.foldl (fun m kv => m.set kv.1 kv.2) dst

/-- The loop `for k, v := range src { if _, ok := dst[k]; !ok { dst[k] = v } }`. -/
def fillFrom (dst src : GoMap α) : GoMap α :=
  src.entries.foldl (fun m kv => if m.contains kv.1 then m else m.set kv.1 kv.2) dst

end GoMap

/-! ## Dynamic values -/

/-- Go `interface{}` as produced by the runbook decoder. -/
inductive Value where
  | null : Value
  | bool (b : Bool) : Value
  | int (n : Int) : Value
  | str (s : String) : Value
  | seq (xs : List Value) : Value
  | map (kv : List (String × Value)) : Value

/-! ## Reserved keys -/

/-- Modelled from the spec: the constant `includeRunnerKey` is declared outside
the given sources; the spec lists the reserved step-runner keywords `include`,
`test`, `dump`, `exec`, `bind`. -/
def includeRunnerKey : String := "include"

/-- Modelled from the spec: the constant `testRunnerKey` (keyword `test`). -/
def testRunnerKey : String := "test"

/-- Modelled from the spec: the constant `dumpRunnerKey` (keyword `dump`). -/
def dumpRunnerKey : String := "dump"

/-- Modelled from the spec: the constant `execRunnerKey` (keyword `exec`). -/
def execRunnerKey : String := "exec"

/-- Modelled from the spec: the constant `bindRunnerKey` (keyword `bind`). -/
def bindRunnerKey : String := "bind"

/-- Modelled from the spec: the constant `ifSectionKey` (section keyword `if`). -/
def ifSectionKey : String := "if"

/-- Modelled from the spec: the constant `descSectionKey` (section keyword `desc`). -/
def descSectionKey : String := "desc"

/-- Modelled from the spec: the constant `loopSectionKey` (section keyword `loop`). -/
def loopSectionKey : String := "loop"

/-- Go `validateRunnerKey` (book.go). -/
def validateRunnerKey (k : String) : Option Error :=
  if k = includeRunnerKey ∨ k = testRunnerKey ∨ k = dumpRunnerKey ∨ k = execRunnerKey
      ∨ k = bindRunnerKey then
    some ("runner name '" ++ k ++ "' is reserved for built-in runner")
  else if k = ifSectionKey ∨ k = descSectionKey ∨ k = loopSectionKey then
    some ("runner name '" ++ k ++ "' is reserved for built-in section")
  else
    none

/-- The loop body of `validateStepKeys`: auxiliary keys `continue`, every other
key increments `custom`. -/
def countCustom (custom : Nat) (kv : String × Value) : Nat :=
  if kv.1 = testRunnerKey ∨ kv.1 = dumpRunnerKey ∨ kv.1 = bindRunnerKey
      ∨ kv.1 = ifSectionKey ∨ kv.1 = descSectionKey ∨ kv.1 = loopSectionKey then
    custom
  else
    custom + 1

/-- Go `validateStepKeys` (book.go). -/
def validateStepKeys (s : GoMap Value) : Option Error :=
  if s.len = 0 then
    some "step must specify at least one runner"
  else
    let custom := s.entries.foldl countCustom 0
    if custom > 1 then
      some "runners that cannot be running at the same time are specified"
    else
      none

/-! ## Runner handles and configurations -/

/-- An object owned by code outside these files (a client, a connection, a
validator, a writer), identified by a number. -/
abbrev Handle := Nat

/-- Modelled from the spec: the struct `httpRunnerConfig` is declared outside the
given sources; the spec lists the HTTP schema fields `endpoint`,
`notFollowRedirect`, `openApi3DocLocation`, `multipartBoundary`. -/
structure httpRunnerConfig where
  Endpoint : String
  OpenApi3DocLocation : String
  NotFollowRedirect : Bool
  MultipartBoundary : String

/-- Modelled from the spec: the struct `grpcRunnerConfig` is declared outside the
given sources; the spec lists the gRPC schema fields `addr`, `tls`,
`cacert`/`cert`/`key` (bytes or path), `skipVerify`.  The lower-case fields are the
in-memory bytes (`nil` is `none`), the upper-case ones the paths. -/
structure grpcRunnerConfig where
  Addr : String
  TLS : Option Bool
  cacert : Option Bytes
  cert : Option Bytes
  key : Option Bytes
  CACert : String
  Cert : String
  Key : String
  SkipVerify : Bool

/-- Modelled from the spec: the struct `sshRunnerConfig` is declared outside the
given sources; the spec lists the SSH schema fields `host`/`hostname`, `sshConfig`,
`user`, `port`, `identityFile`, `keepSession`. -/
structure sshRunnerConfig where
  Host : String
  Hostname : String
  SSHConfig : String
  User : String
  Port : Int
  IdentityFile : String
  KeepSession : Bool

/-- Modelled from the spec: the struct `shellRunnerConfig` is declared outside the
given sources; the spec lists the Shell schema fields `shell`, `keepProcess`. -/
structure shellRunnerConfig where
  Shell : String
  KeepProcess : Bool

/-- Modelled from the spec: the struct `httpRunner` is declared outside the given
sources; these are the fields the given sources read or write.  The field
`notFollowRedirect` stands for `client.CheckRedirect = notFollowRedirectFn`. -/
structure httpRunner where
  name : String
  endpoint : String
  client : Handle
  notFollowRedirect : Bool
  validator : Option Handle
  multipartBoundary : String

/-- Modelled from the spec: the struct `dbRunner` is declared outside the given
sources. -/
structure dbRunner where
  name : String
  client : Handle

/-- Modelled from the spec: the struct `grpcRunner` is declared outside the given
sources; these are the fields the given sources read or write. -/
structure grpcRunner where
  name : String
  target : String
  cc : Option Handle
  tls : Option Bool
  cacert : Option Bytes
  cert : Option Bytes
  key : Option Bytes
  skipVerify : Bool

/-- Modelled from the spec: the struct `cdpRunner` is declared outside the given
sources. -/
structure cdpRunner where
  name : String
  remote : String

/-- Modelled from the spec: the struct `sshRunner` is declared outside the given
sources; these are the fields the given sources read or write. -/
structure sshRunner where
  name : String
  client : Handle
  keepSession : Bool
  session : Option Handle

/-- Go `exec.Cmd` as far as shell.go uses it: the program, its arguments, the
content of `Stdin` when a reader is attached, and `Process`, which is `nil` until
the process has been started. -/
structure execCmd where
  Path : String
  Args : List String
  Stdin : Option String
  Process : Option Handle

/-- Go `shellRunner` (shell.go), without the back pointer to the operator. -/
structure shellRunner where
  name : String
  shell : String
  cmd : Option execCmd
  stdin : Option Handle
  stdout : Option Handle
  stderr : Option Handle
  keepProcess : Bool

/-- The options handed to `sshc.NewClient`. -/
inductive SshOption where
  | ClearConfigPath : SshOption
  | ConfigPath (p : String) : SshOption
  | Hostname (h : String) : SshOption
  | User (u : String) : SshOption
  | Port (n : Int) : SshOption
  | IdentityFile (p : String) : SshOption

/-! ## The book -/

/-- Go `book` (book.go). -/
structure book where
  desc : String
  runners : GoMap Value
  vars : GoMap Value
  rawSteps : List (GoMap Value)
  debug : Bool
  ifCond : String
  skipTest : Bool
  funcs : GoMap Handle
  stepKeys : List String
  path : String
  httpRunners : GoMap httpRunner
  dbRunners : GoMap dbRunner
  grpcRunners : GoMap grpcRunner
  cdpRunners : GoMap cdpRunner
  sshRunners : GoMap sshRunner
  shellRunners : GoMap shellRunner
  profile : Bool
  intervalStr : String
  interval : Duration
  loop : Option Handle
  useMap : Bool
  t : Option Handle
  included : Bool
  failFast : Bool
  skipIncluded : Bool
  grpcNoTLS : Bool
  runMatch : Option String
  runSample : Int
  runShardIndex : Int
  runShardN : Int
  runShuffle : Bool
  runShuffleSeed : Int
  runParallel : Bool
  runParallelMax : Int
  runRandom : Int
  runnerErrs : GoMap Error
  beforeFuncs : List Handle
  afterFuncs : List Handle
  capturers : List Handle
  stdout : Handle
  stderr : Handle

/-- Go `noDesc`. -/
def noDesc : String := "[No Description]"

/-- Go `newBook` (book.go); `os.Stdout` and `os.Stderr` are the handles 1 and 2. -/
def newBook : book :=
  { desc := "", runners := GoMap.empty, vars := GoMap.empty, rawSteps := [],
    debug := false, ifCond := "", skipTest := false, funcs := GoMap.empty,
    stepKeys := [], path := "", httpRunners := GoMap.empty, dbRunners := GoMap.empty,
    grpcRunners := GoMap.empty, cdpRunners := GoMap.empty, sshRunners := GoMap.empty,
    shellRunners := GoMap.empty, profile := false, intervalStr := "", interval := 0,
    loop := none, useMap := false, t := none, included := false, failFast := false,
    skipIncluded := false, grpcNoTLS := false, runMatch := none, runSample := 0,
    runShardIndex := 0, runShardN := 0, runShuffle := false, runShuffleSeed := 0,
    runParallel := false, runParallelMax := 0, runRandom := 0,
    runnerErrs := GoMap.empty, beforeFuncs := [], afterFuncs := [], capturers := [],
    stdout := 1, stderr := 2 }

/-! ## The environment and the call log -/

/-- The functions the given sources call and do not define. A Go `(T, error)`
result is `Except Error T`; a decoder returns `none` when `yaml.Unmarshal` fails. -/
structure Env where
  newHTTPRunner : String → String → Except Error httpRunner
  newGrpcRunner : String → String → Except Error grpcRunner
  newCDPRunner : String → String → Except Error cdpRunner
  newSSHRunner : String → String → Except Error sshRunner
  newDBRunner : String → String → Except Error dbRunner
  yamlMarshal : List (String × Value) → Except Error Bytes
  unmarshalHTTP : Bytes → Option httpRunnerConfig
  unmarshalGRPC : Bytes → Option grpcRunnerConfig
  unmarshalSSH : Bytes → Option sshRunnerConfig
  unmarshalShell : Bytes → Option shellRunnerConfig
  getwd : Except Error String
  dir : String → String
  join : String → String → String
  newHttpValidator : httpRunnerConfig → Except Error Handle
  readFile : String → Except Error Bytes
  sshNewClient : String → List SshOption → Except Error Handle
  startSession : sshRunner → Except Error sshRunner
  lookPath : String → Except Error String
  osOpen : String → Except Error Handle
  closeFile : Handle → Option Error
  ParseRunbook : Handle → Except Error Handle
  toBook : Handle → Except Error book
  jsonMarshal : GoMap Value → Except Error Bytes
  jsonUnmarshal : Bytes → Except Error (GoMap Value)
  parseDuration : String → Except Error Duration
  evaluateSchema : Value → String → Except Error Value
  sprintStep : GoMap Value → String

/-- A call made by the modelled code, with the arguments it was given. -/
inductive Call where
  | newHTTPRunner (name endpoint : String) : Call
  | newGrpcRunner (name addr : String) : Call
  | newCDPRunner (name remote : String) : Call
  | newSSHRunner (name addr : String) : Call
  | newDBRunner (name dsn : String) : Call
  | parseHTTPRunnerWithDetailed (name : String) : Call
  | parseGRPCRunnerWithDetailed (name : String) : Call
  | parseSSHRunnerWithDetailed (name : String) : Call
  | parseShellRunnerWithDetailed (name : String) : Call
  | readFile (path : String) : Call
  | lookPath (file : String) : Call
  | osOpen (path : String) : Call
deriving DecidableEq

/-- The calls made so far, oldest first. -/
abbrev Log := List Call

/-- Result of a detector: Go `(bool, error)`, the book and the log afterwards. -/
abbrev Detect := (Bool × Option Error) × book × Log

/-! ## Runner detection (book.go) -/

/-- Go `book.generateOperatorRoot`. -/
def generateOperatorRoot (env : Env) (bk : book) : Except Error String :=
  if bk.path ≠ "" then
    .ok (env.dir bk.path)
  else
    match env.getwd with
    | .error err => .error err
    | .ok wd => .ok wd

/-- The OpenAPI document location as `parseHTTPRunnerWithDetailed` resolves it: a
location that is not empty, not an `https://` or `http://` URL and not absolute
is joined to `root`. -/
def resolveOpenApi3DocLocation (env : Env) (root : String) (c : httpRunnerConfig) :
    httpRunnerConfig :=
  if c.OpenApi3DocLocation ≠ "" ∧ !HasPrefix c.OpenApi3DocLocation "https://"
      ∧ !HasPrefix c.OpenApi3DocLocation "http://"
      ∧ !HasPrefix c.OpenApi3DocLocation "/" then
    { c with OpenApi3DocLocation := env.join root c.OpenApi3DocLocation }
  else c

/-- Go `book.parseHTTPRunnerWithDetailed`. -/
def parseHTTPRunnerWithDetailed (env : Env) (name : String) (b : Bytes) (bk : book)
    (log : Log) : Detect :=
  let log := log ++ [Call.parseHTTPRunnerWithDetailed name]
  match env.unmarshalHTTP b with
  | none => ((false, none), bk, log)
  | some c =>
    if c.Endpoint = "" then ((false, none), bk, log)
    else
      match generateOperatorRoot env bk with
      | .error err => ((false, some err), bk, log)
      | .ok root =>
        let log := log ++ [Call.newHTTPRunner name c.Endpoint]
        match env.newHTTPRunner name c.Endpoint with
        | .error err => ((false, some err), bk, log)
        | .ok r =>
          let r := if c.NotFollowRedirect then { r with notFollowRedirect := true } else r
          match env.newHttpValidator (resolveOpenApi3DocLocation env root c) with
          | .error err => ((false, some err), bk, log)
          | .ok hv =>
            let r := { r with validator := some hv }
            ((true, none), { bk with httpRunners := bk.httpRunners.set name r }, log)

/-- One of the three TLS items of `parseGRPCRunnerWithDetailed`: the in-memory
bytes when not `nil`, else the file at the path if it starts with `/`, else the
file at the path joined to `root`. Returns the bytes or the read error, and the
calls made. -/
def grpcTLSItem (env : Env) (root : String) (mem : Option Bytes) (path : String) :
    Except Error Bytes × List Call :=
  match mem with
  | some bs => (.ok bs, [])
  | none =>
    if HasPrefix path "/" then
      (env.readFile path, [Call.readFile path])
    else
      (env.readFile (env.join root path), [Call.readFile (env.join root path)])

/-- Go `book.parseGRPCRunnerWithDetailed`. -/
def parseGRPCRunnerWithDetailed (env : Env) (name : String) (b : Bytes) (bk : book)
    (log : Log) : Detect :=
  let log := log ++ [Call.parseGRPCRunnerWithDetailed name]
  match env.unmarshalGRPC b with
  | none => ((false, none), bk, log)
  | some c =>
    if c.Addr = "" then ((false, none), bk, log)
    else
      match generateOperatorRoot env bk with
      | .error err => ((false, some err), bk, log)
      | .ok root =>
        let log := log ++ [Call.newGrpcRunner name c.Addr]
        match env.newGrpcRunner name c.Addr with
        | .error err => ((false, some err), bk, log)
        | .ok r =>
          let r := { r with tls := c.TLS }
          match grpcTLSItem env root c.cacert c.CACert with
          | (.error err, calls) => ((false, some err), bk, log ++ calls)
          | (.ok cacert, calls) =>
            let log := log ++ calls
            let r := { r with cacert := some cacert }
            match grpcTLSItem env root c.cert c.Cert with
            | (.error err, calls) => ((false, some err), bk, log ++ calls)
            | (.ok cert, calls) =>
              let log := log ++ calls
              let r := { r with cert := some cert }
              match grpcTLSItem env root c.key c.Key with
              | (.error err, calls) => ((false, some err), bk, log ++ calls)
              | (.ok key, calls) =>
                let log := log ++ calls
                let r := { r with key := some key, skipVerify := c.SkipVerify }
                ((true, none), { bk with grpcRunners := bk.grpcRunners.set name r }, log)

/-- The `sshc` options assembled by `parseSSHRunnerWithDetailed`. -/
def sshOptions (env : Env) (root : String) (c : sshRunnerConfig) : List SshOption :=
  let opts : List SshOption := []
  let opts :=
    if c.SSHConfig ≠ "" then
      let p := if !HasPrefix c.SSHConfig "/" then env.join root c.SSHConfig else c.SSHConfig
      opts ++ [SshOption.ClearConfigPath, SshOption.ConfigPath p]
    else opts
  let opts := if c.Hostname ≠ "" then opts ++ [SshOption.Hostname c.Hostname] else opts
  let opts := if c.User ≠ "" then opts ++ [SshOption.User c.User] else opts
  let opts := if c.Port ≠ 0 then opts ++ [SshOption.Port c.Port] else opts
  if c.IdentityFile ≠ "" then
    let p :=
      if !HasPrefix c.IdentityFile "/" then env.join root c.IdentityFile else c.IdentityFile
    opts ++ [SshOption.IdentityFile p]
  else opts

/-- The host handed to `sshc.NewClient`: `host`, or `hostname` when `host` is
empty. -/
def sshHost (c : sshRunnerConfig) : String :=
  if c.Host = "" then c.Hostname else c.Host

/-- The statement `if r.keepSession { if err := r.startSession(); ... }`: the
runner as `startSession` leaves it, or its error; the runner itself when no
session is kept. -/
def startSessionIfKept (env : Env) (r : sshRunner) : Except Error sshRunner :=
  if r.keepSession then env.startSession r else .ok r

/-- Go `book.parseSSHRunnerWithDetailed`. -/
def parseSSHRunnerWithDetailed (env : Env) (name : String) (b : Bytes) (bk : book)
    (log : Log) : Detect :=
  let log := log ++ [Call.parseSSHRunnerWithDetailed name]
  match env.unmarshalSSH b with
  | none => ((false, none), bk, log)
  | some c =>
    if c.Host = "" ∧ c.Hostname = "" then ((false, none), bk, log)
    else
      match generateOperatorRoot env bk with
      | .error err => ((false, some err), bk, log)
      | .ok root =>
        match env.sshNewClient (sshHost c) (sshOptions env root c) with
        | .error err => ((false, some err), bk, log)
        | .ok client =>
          let r : sshRunner :=
            { name := name, client := client, keepSession := c.KeepSession, session := none }
          match startSessionIfKept env r with
          | .error err => ((false, some err), bk, log)
          | .ok r => ((true, none), { bk with sshRunners := bk.sshRunners.set name r }, log)

/-- Go `book.parseShellRunnerWithDetailed`. -/
def parseShellRunnerWithDetailed (env : Env) (name : String) (b : Bytes) (bk : book)
    (log : Log) : Detect :=
  let log := log ++ [Call.parseShellRunnerWithDetailed name]
  match env.unmarshalShell b with
  | none => ((false, none), bk, log)
  | some c =>
    let log := log ++ [Call.lookPath c.Shell]
    match env.lookPath c.Shell with
    | .error err => ((false, some err), bk, log)
    | .ok shell =>
      let r : shellRunner :=
        { name := name, shell := shell, cmd := none, stdin := none, stdout := none,
          stderr := none, keepProcess := c.KeepProcess }
      ((true, none), { bk with shellRunners := bk.shellRunners.set name r }, log)

/-- The `case string:` branch of `book.parseRunner`, after the deferred error of
`k` has been deleted. -/
def parseRunnerString (env : Env) (k vv : String) (bk : book) (log : Log) :
    Option Error × book × Log :=
  if HasPrefix vv "https://" || HasPrefix vv "http://" then
    match env.newHTTPRunner k vv with
    | .error err => (some err, bk, log ++ [Call.newHTTPRunner k vv])
    | .ok hc =>
      (none, { bk with httpRunners := bk.httpRunners.set k hc },
        log ++ [Call.newHTTPRunner k vv])
  else if HasPrefix vv "grpc://" then
    let addr := TrimPrefix vv "grpc://"
    match env.newGrpcRunner k addr with
    | .error err => (some err, bk, log ++ [Call.newGrpcRunner k addr])
    | .ok gc =>
      (none, { bk with grpcRunners := bk.grpcRunners.set k gc },
        log ++ [Call.newGrpcRunner k addr])
  else if HasPrefix vv "cdp://" || HasPrefix vv "chrome://" then
    let remote := TrimPrefix (TrimPrefix vv "cdp://") "chrome://"
    match env.newCDPRunner k remote with
    | .error err => (some err, bk, log ++ [Call.newCDPRunner k remote])
    | .ok cc =>
      (none, { bk with cdpRunners := bk.cdpRunners.set k cc },
        log ++ [Call.newCDPRunner k remote])
  else if HasPrefix vv "ssh://" then
    let addr := TrimPrefix vv "ssh://"
    match env.newSSHRunner k addr with
    | .error err => (some err, bk, log ++ [Call.newSSHRunner k addr])
    | .ok sc =>
      (none, { bk with sshRunners := bk.sshRunners.set k sc },
        log ++ [Call.newSSHRunner k addr])
  else
    match env.newDBRunner k vv with
    | .error err => (some err, bk, log ++ [Call.newDBRunner k vv])
    | .ok dc =>
      (none, { bk with dbRunners := bk.dbRunners.set k dc },
        log ++ [Call.newDBRunner k vv])

/-- The `case map[string]interface{}:` branch of `book.parseRunner`, after the
deferred error of `k` has been deleted: each detector runs only while `detect` is
still false, an error of a detector is returned at once. -/
def parseRunnerMap (env : Env) (k : String) (vv : List (String × Value)) (bk : book)
    (log : Log) : Option Error × book × Log :=
  match env.yamlMarshal vv with
  | .error err => (some err, bk, log)
  | .ok tmp =>
    match parseHTTPRunnerWithDetailed env k tmp bk log with
    | ((_, some err), bk, log) => (some err, bk, log)
    | ((true, none), bk, log) => (none, bk, log)
    | ((false, none), bk, log) =>
      match parseGRPCRunnerWithDetailed env k tmp bk log with
      | ((_, some err), bk, log) => (some err, bk, log)
      | ((true, none), bk, log) => (none, bk, log)
      | ((false, none), bk, log) =>
        match parseSSHRunnerWithDetailed env k tmp bk log with
        | ((_, some err), bk, log) => (some err, bk, log)
        | ((true, none), bk, log) => (none, bk, log)
        | ((false, none), bk, log) =>
          match parseShellRunnerWithDetailed env k tmp bk log with
          | ((_, some err), bk, log) => (some err, bk, log)
          | ((true, none), bk, log) => (none, bk, log)
          | ((false, none), bk, log) => (some ("cannot detect runner: " ++ tmp), bk, log)

/-- Go `book.parseRunner`: the type switch has the two cases `string` and
`map[string]interface{}` and no default. -/
def parseRunner (env : Env) (k : String) (v : Value) (bk : book) (log : Log) :
    Option Error × book × Log :=
  let bk := { bk with runnerErrs := bk.runnerErrs.delete k }
  match v with
  | .str vv => parseRunnerString env k vv bk log
  | .map vv => parseRunnerMap env k vv bk log
  | _ => (none, bk, log)

/-- The body of the loop of `book.parseRunners` for one entry of `bk.runners`. -/
def parseRunnersStep (env : Env) (st : book × Log) (kv : String × Value) : book × Log :=
  match parseRunner env kv.1 kv.2 st.1 st.2 with
  | (some err, bk, log) => ({ bk with runnerErrs := bk.runnerErrs.set kv.1 err }, log)
  | (none, bk, log) => (bk, log)

/-- Go `book.parseRunners`. -/
def parseRunners (env : Env) (bk : book) (log : Log) : Option Error × book × Log :=
  let st := bk.runners.entries.foldl (parseRunnersStep env) (bk, log)
  (none, st.1, st.2)

/-- The loop of `book.parseVars` over the entries still to visit. -/
def parseVarsLoop (env : Env) : List (String × Value) → book → Option Error × book
  | [], bk => (none, bk)
  | (k, v) :: rest, bk =>
    match generateOperatorRoot env bk with
    | .error err => (some err, bk)
    | .ok root =>
      match env.evaluateSchema v root with
      | .error err => (some err, bk)
      | .ok ev => parseVarsLoop env rest { bk with vars := bk.vars.set k ev }

/-- Go `book.parseVars`. -/
def parseVars (env : Env) (bk : book) : Option Error × book :=
  parseVarsLoop env bk.vars.entries bk

/-! ## Loading (book.go) -/

/-- The loop over `bk.rawSteps` in `parseBook`, from index `i` on. -/
def validateSteps (env : Env) : Nat → List (GoMap Value) → Option Error
  | _, [] => none
  | i, s :: rest =>
    match validateStepKeys s with
    | some err =>
      some ("invalid steps[" ++ toString i ++ "]. " ++ err ++ ": " ++ env.sprintStep s)
    | none => validateSteps env (i + 1) rest

/-- Go `parseBook`. -/
def parseBook (env : Env) (f : Handle) : Except Error book :=
  match env.ParseRunbook f with
  | .error err => .error err
  | .ok rb =>
    match env.toBook rb with
    | .error err => .error err
    | .ok bk =>
      match env.jsonMarshal bk.vars with
      | .error err => .error ("invalid vars: " ++ err)
      | .ok b =>
        match env.jsonUnmarshal b with
        | .error err => .error ("invalid vars: " ++ err)
        | .ok vars =>
          let bk := { bk with vars := vars }
          let bk := if bk.desc = "" then { bk with desc := noDesc } else bk
          let parsed : Except Error book :=
            if bk.intervalStr ≠ "" then
              match env.parseDuration bk.intervalStr with
              | .error err => .error ("invalid interval: " ++ err)
              | .ok d => .ok { bk with interval := d }
            else .ok bk
          match parsed with
          | .error err => .error err
          | .ok bk =>
            match bk.runners.entries.findSome? (fun kv => validateRunnerKey kv.1) with
            | some err => .error err
            | none =>
              match validateSteps env 0 bk.rawSteps with
              | some err => .error err
              | none => .ok bk

/-- Go `LoadBook`. -/
def LoadBook (env : Env) (path : String) (log : Log) : Except Error book × Log :=
  let log := log ++ [Call.osOpen path]
  match env.osOpen path with
  | .error err => (.error ("failed to load runbook " ++ path ++ ": " ++ err), log)
  | .ok f =>
    match parseBook env f with
    | .error err => (.error ("failed to load runbook " ++ path ++ ": " ++ err), log)
    | .ok bk =>
      let bk := { bk with path := path }
      match parseRunners env bk log with
      | (some err, _, log) => (.error err, log)
      | (none, bk, log) =>
        match parseVars env bk with
        | (some err, _) => (.error err, log)
        | (none, bk) =>
          match env.closeFile f with
          | some err => (.error ("failed to load runbook " ++ path ++ ": " ++ err), log)
          | none => (.ok bk, log)

/-! ## Options (option.go) -/

/-- Go `Book`: load a runbook into the destination. -/
def Book (env : Env) (path : String) (bk : book) (log : Log) : Option Error × book × Log :=
  match LoadBook env path log with
  | (.error err, log) => (some err, bk, log)
  | (.ok loaded, log) =>
    let bk := { bk with path := loaded.path, desc := loaded.desc, ifCond := loaded.ifCond,
                        useMap := loaded.useMap }
    let bk := { bk with runners := bk.runners.overwriteFrom loaded.runners }
    let bk := { bk with httpRunners := bk.httpRunners.overwriteFrom loaded.httpRunners }
    let bk := { bk with dbRunners := bk.dbRunners.overwriteFrom loaded.dbRunners }
    let bk := { bk with grpcRunners := bk.grpcRunners.overwriteFrom loaded.grpcRunners }
    let bk := { bk with cdpRunners := bk.cdpRunners.overwriteFrom loaded.cdpRunners }
    let bk := { bk with sshRunners := bk.sshRunners.overwriteFrom loaded.sshRunners }
    let bk := { bk with shellRunners := bk.shellRunners.overwriteFrom loaded.shellRunners }
    let bk := { bk with vars := bk.vars.overwriteFrom loaded.vars }
    let bk := { bk with runnerErrs := loaded.runnerErrs, rawSteps := loaded.rawSteps,
                        stepKeys := loaded.stepKeys }
    let bk := if !bk.debug then { bk with debug := loaded.debug } else bk
    let bk := if !bk.skipTest then { bk with skipTest := loaded.skipTest } else bk
    let bk := { bk with loop := loaded.loop, grpcNoTLS := loaded.grpcNoTLS }
    let bk := if loaded.intervalStr ≠ "" then { bk with interval := loaded.interval } else bk
    (none, bk, log)

/-- Go `Overlay`: overlay values on a runbook. -/
def Overlay (env : Env) (path : String) (bk : book) (log : Log) :
    Option Error × book × Log :=
  if bk.rawSteps.length = 0 then
    (some "overlays are unusable without its base runbook", bk, log)
  else
    match LoadBook env path log with
    | (.error err, log) => (some err, bk, log)
    | (.ok loaded, log) =>
      let bk := { bk with desc := loaded.desc, ifCond := loaded.ifCond }
      if loaded.rawSteps.length > 0 ∧ bk.useMap ≠ loaded.useMap then
        (some "only runbooks of the same type can be layered", bk, log)
      else
        let bk := { bk with runners := bk.runners.overwriteFrom loaded.runners }
        let bk := { bk with httpRunners := bk.httpRunners.overwriteFrom loaded.httpRunners }
        let bk := { bk with dbRunners := bk.dbRunners.overwriteFrom loaded.dbRunners }
        let bk := { bk with grpcRunners := bk.grpcRunners.overwriteFrom loaded.grpcRunners }
        let bk := { bk with cdpRunners := bk.cdpRunners.overwriteFrom loaded.cdpRunners }
        let bk := { bk with sshRunners := bk.sshRunners.overwriteFrom loaded.sshRunners }
        let bk := { bk with shellRunners := bk.shellRunners.overwriteFrom loaded.shellRunners }
        let bk := { bk with vars := bk.vars.overwriteFrom loaded.vars }
        let bk := { bk with runnerErrs := bk.runnerErrs.overwriteFrom loaded.runnerErrs }
        let bk := { bk with rawSteps := bk.rawSteps ++ loaded.rawSteps,
                            stepKeys := bk.stepKeys ++ loaded.stepKeys }
        let bk := { bk with debug := loaded.debug, skipTest := loaded.skipTest,
                            loop := loaded.loop, grpcNoTLS := loaded.grpcNoTLS,
                            interval := loaded.interval }
        (none, bk, log)

/-- Go `Underlay`: lay values under the runbook. -/
def Underlay (env : Env) (path : String) (bk : book) (log : Log) :
    Option Error × book × Log :=
  if bk.rawSteps.length = 0 then
    (some "underlays are unusable without its base runbook", bk, log)
  else
    match LoadBook env path log with
    | (.error err, log) => (some err, bk, log)
    | (.ok loaded, log) =>
      let bk := if bk.desc = "" then { bk with desc := loaded.desc } else bk
      let bk := if bk.ifCond = "" then { bk with ifCond := loaded.ifCond } else bk
      if loaded.rawSteps.length > 0 ∧ bk.useMap ≠ loaded.useMap then
        (some "only runbooks of the same type can be layered", bk, log)
      else
        let bk := { bk with runners := bk.runners.fillFrom loaded.runners }
        let bk := { bk with httpRunners := bk.httpRunners.fillFrom loaded.httpRunners }
        let bk := { bk with dbRunners := bk.dbRunners.fillFrom loaded.dbRunners }
        let bk := { bk with grpcRunners := bk.grpcRunners.fillFrom loaded.grpcRunners }
        let bk := { bk with cdpRunners := bk.cdpRunners.fillFrom loaded.cdpRunners }
        let bk := { bk with sshRunners := bk.sshRunners.fillFrom loaded.sshRunners }
        let bk := { bk with shellRunners := bk.shellRunners.fillFrom loaded.shellRunners }
        let bk := { bk with vars := bk.vars.fillFrom loaded.vars }
        let bk := { bk with runnerErrs := bk.runnerErrs.overwriteFrom loaded.runnerErrs }
        let bk := { bk with rawSteps := loaded.rawSteps ++ bk.rawSteps,
                            stepKeys := loaded.stepKeys ++ bk.stepKeys }
        let bk := if bk.intervalStr = "" then { bk with interval := loaded.interval } else bk
        let bk := { bk with stdout := loaded.stdout, stderr := loaded.stderr }
        (none, bk, log)

/-- Go `httpRunnerOption`: a function that fills in an `httpRunnerConfig` or fails. -/
abbrev httpRunnerOption := httpRunnerConfig → Except Error httpRunnerConfig

/-- The loop `for _, opt := range opts { if err := opt(c); err != nil ... }`. -/
def applyHTTPRunnerOptions : List httpRunnerOption → httpRunnerConfig
    → Except Error httpRunnerConfig
  | [], c => .ok c
  | opt :: rest, c =>
    match opt c with
    | .error err => .error err
    | .ok c => applyHTTPRunnerOptions rest c

/-- Go `Runner`: set a runner to the runbook. -/
def Runner (env : Env) (name dsn : String) (opts : List httpRunnerOption) (bk : book)
    (log : Log) : Option Error × book × Log :=
  let bk := { bk with runnerErrs := bk.runnerErrs.delete name }
  if opts.length = 0 then
    match validateRunnerKey name with
    | some err => (some err, bk, log)
    | none =>
      match parseRunner env name (Value.str dsn) bk log with
      | (some err, bk, log) => (none, { bk with runnerErrs := bk.runnerErrs.set name err }, log)
      | (none, bk, log) => (none, bk, log)
  else
    let c0 : httpRunnerConfig :=
      { Endpoint := "", OpenApi3DocLocation := "", NotFollowRedirect := false,
        MultipartBoundary := "" }
    match applyHTTPRunnerOptions opts c0 with
    | .error err => (none, { bk with runnerErrs := bk.runnerErrs.set name err }, log)
    | .ok c =>
      let log := log ++ [Call.newHTTPRunner name dsn]
      match env.newHTTPRunner name dsn with
      | .error err => (none, { bk with runnerErrs := bk.runnerErrs.set name err }, log)
      | .ok r =>
        let r := if c.NotFollowRedirect then { r with notFollowRedirect := true } else r
        let r := { r with multipartBoundary := c.MultipartBoundary }
        if c.OpenApi3DocLocation ≠ "" then
          match env.newHttpValidator c with
          | .error err => (none, { bk with runnerErrs := bk.runnerErrs.set name err }, log)
          | .ok v =>
            let r := { r with validator := some v }
            (none, { bk with httpRunners := bk.httpRunners.set name r }, log)
        else
          (none, { bk with httpRunners := bk.httpRunners.set name r }, log)

/-! ## Vocabulary of the properties -/

/-- The closed set of runner variants. -/
inductive RunnerVariant where
  | HTTP : RunnerVariant
  | Database : RunnerVariant
  | GRPC : RunnerVariant
  | BrowserControl : RunnerVariant
  | SSH : RunnerVariant
  | Shell : RunnerVariant
deriving DecidableEq

/-- Whether name `k` is a key of the resolved runner map of variant `var`. -/
def registered (bk : book) (var : RunnerVariant) (k : String) : Bool :=
  match var with
  | .HTTP => bk.httpRunners.contains k
  | .Database => bk.dbRunners.contains k
  | .GRPC => bk.grpcRunners.contains k
  | .BrowserControl => bk.cdpRunners.contains k
  | .SSH => bk.sshRunners.contains k
  | .Shell => bk.shellRunners.contains k

/-- The book with the resolved runner map of variant `var` emptied: two books
that agree after this differ at most in that one map. -/
def clearVariant (bk : book) (var : RunnerVariant) : book :=
  match var with
  | .HTTP => { bk with httpRunners := GoMap.empty }
  | .Database => { bk with dbRunners := GoMap.empty }
  | .GRPC => { bk with grpcRunners := GoMap.empty }
  | .BrowserControl => { bk with cdpRunners := GoMap.empty }
  | .SSH => { bk with sshRunners := GoMap.empty }
  | .Shell => { bk with shellRunners := GoMap.empty }

/-- The bare-string dispatch in the words of the spec: `https://` or `http://`
gives HTTP; else `grpc://` gives gRPC; else `cdp://` or `chrome://` gives
Browser-Control; else `ssh://` gives SSH; anything else gives Database. -/
def schemeVariant (v : String) : RunnerVariant :=
  if HasPrefix v "https://" ∨ HasPrefix v "http://" then RunnerVariant.HTTP
  else if HasPrefix v "grpc://" then RunnerVariant.GRPC
  else if HasPrefix v "cdp://" ∨ HasPrefix v "chrome://" then RunnerVariant.BrowserControl
  else if HasPrefix v "ssh://" then RunnerVariant.SSH
  else RunnerVariant.Database

/-- The variant a logged constructor call builds; `none` for every other call. -/
def Call.constructs : Call → Option RunnerVariant
  | .newHTTPRunner _ _ => some RunnerVariant.HTTP
  | .newGrpcRunner _ _ => some RunnerVariant.GRPC
  | .newCDPRunner _ _ => some RunnerVariant.BrowserControl
  | .newSSHRunner _ _ => some RunnerVariant.SSH
  | .newDBRunner _ _ => some RunnerVariant.Database
  | _ => none

/-- The variant whose structured-schema detector a logged call enters; `none`
for every other call. -/
def Call.detects : Call → Option RunnerVariant
  | .parseHTTPRunnerWithDetailed _ => some RunnerVariant.HTTP
  | .parseGRPCRunnerWithDetailed _ => some RunnerVariant.GRPC
  | .parseSSHRunnerWithDetailed _ => some RunnerVariant.SSH
  | .parseShellRunnerWithDetailed _ => some RunnerVariant.Shell
  | _ => none

/-- The variants whose structured-schema detectors were entered, in call order. -/
def detectorsOf (log : Log) : List RunnerVariant := log.filterMap Call.detects

/-- Whether a `(T, error)` result has a nil error. -/
def isOk {α : Type} : Except Error α → Bool
  | .ok _ => true
  | .error _ => false

/-- Whether the constructor of a logged constructor call returns without error
in `env`; false for every other call. -/
def Call.succeeds (env : Env) : Call → Bool
  | .newHTTPRunner n e => isOk (env.newHTTPRunner n e)
  | .newGrpcRunner n a => isOk (env.newGrpcRunner n a)
  | .newCDPRunner n r => isOk (env.newCDPRunner n r)
  | .newSSHRunner n a => isOk (env.newSSHRunner n a)
  | .newDBRunner n d => isOk (env.newDBRunner n d)
  | _ => false

/-! ## A concrete world for the examples -/

/-- A zero-valued `httpRunnerConfig` with the given endpoint. -/
def demoHTTPConfig (endpoint : String) : httpRunnerConfig :=
  { Endpoint := endpoint, OpenApi3DocLocation := "", NotFollowRedirect := false,
    MultipartBoundary := "" }

/-- A zero-valued `grpcRunnerConfig` with the given address. -/
def demoGRPCConfig (addr : String) : grpcRunnerConfig :=
  { Addr := addr, TLS := none, cacert := none, cert := none, key := none, CACert := "",
    Cert := "", Key := "", SkipVerify := false }

/-- Serialisation used by `demoEnv`: one line `key: value` per entry, a string
value printed as it is and any other value as `[]`. -/
def demoMarshal (vv : List (String × Value)) : Bytes :=
  String.join (vv.map (fun kv =>
    kv.1 ++ ": " ++ (match kv.2 with | Value.str s => s | _ => "[]") ++ "\n"))

/-- The runbook that `demoEnv` finds at `overlay.yml`: one runner `req` given as
an HTTP URL and one step. -/
def demoLayer : book :=
  { newBook with
    desc := "layer"
    runners := GoMap.empty.set "req" (Value.str "https://example.com")
    rawSteps := [GoMap.empty.set "req" Value.null]
    stepKeys := ["0"] }

/-- A world in which every constructor succeeds, the decoders ignore unknown
fields, find `endpoint` and `addr` only in the document
`endpoint: https://example.com`, `addr: localhost:50051`, the shell decoder
rejects the document `shell: []` and finds the shell `nosuchshell` in the
document `shell: nosuchshell`, no file can be read, the executable names
`nosuchshell` and the empty name do not resolve, and the only runbook file is
`overlay.yml`. -/
def demoEnv : Env :=
  { newHTTPRunner := fun name endpoint =>
      .ok { name := name, endpoint := endpoint, client := 0, notFollowRedirect := false,
            validator := none, multipartBoundary := "" }
    newGrpcRunner := fun name addr =>
      .ok { name := name, target := addr, cc := none, tls := none, cacert := none,
            cert := none, key := none, skipVerify := false }
    newCDPRunner := fun name remote => .ok { name := name, remote := remote }
    newSSHRunner := fun name _ =>
      .ok { name := name, client := 0, keepSession := false, session := none }
    newDBRunner := fun name _ => .ok { name := name, client := 0 }
    yamlMarshal := fun vv => .ok (demoMarshal vv)
    unmarshalHTTP := fun b =>
      some (demoHTTPConfig
        (if b = "endpoint: https://example.com\naddr: localhost:50051\n"
          then "https://example.com" else ""))
    unmarshalGRPC := fun b =>
      some (demoGRPCConfig
        (if b = "endpoint: https://example.com\naddr: localhost:50051\n"
          then "localhost:50051" else ""))
    unmarshalSSH := fun _ =>
      some { Host := "", Hostname := "", SSHConfig := "", User := "", Port := 0,
             IdentityFile := "", KeepSession := false }
    unmarshalShell := fun b =>
      if b = "shell: []\n" then none
      else some { Shell := if b = "shell: nosuchshell\n" then "nosuchshell" else "",
                  KeepProcess := false }
    getwd := .ok "/work"
    dir := fun _ => "/work"
    join := fun a b => a ++ "/" ++ b
    newHttpValidator := fun _ => .ok 0
    readFile := fun p => .error ("open " ++ p ++ ": no such file or directory")
    sshNewClient := fun _ _ => .ok 0
    startSession := fun r => .ok r
    lookPath := fun file =>
      if file = "" ∨ file = "nosuchshell" then
        .error ("exec: " ++ file ++ ": executable file not found in $PATH")
      else .ok ("/bin/" ++ file)
    osOpen := fun p =>
      if p = "overlay.yml" then .ok 3
      else .error ("open " ++ p ++ ": no such file or directory")
    closeFile := fun _ => none
    ParseRunbook := fun f => .ok f
    toBook := fun _ => .ok demoLayer
    jsonMarshal := fun _ => .ok ""
    jsonUnmarshal := fun _ => .ok GoMap.empty
    parseDuration := fun _ => .ok 0
    evaluateSchema := fun v _ => .ok v
    sprintStep := fun _ => "map[]" }

/-- A destination with one step and a deferred error for the runner `req`. -/
def demoBase : book :=
  { newBook with
    desc := "base"
    rawSteps := [GoMap.empty.set "getusers" Value.null]
    stepKeys := ["0"]
    runnerErrs := GoMap.empty.set "req" "cannot detect runner: foo: bar" }

/-- The book that `LoadBook` returns for `overlay.yml` in `demoEnv`: the runner
`req` is resolved to an HTTP runner and no error is deferred. -/
def demoLoaded : book :=
  { demoLayer with
    path := "overlay.yml"
    httpRunners := GoMap.empty.set "req"
      { name := "req", endpoint := "https://example.com", client := 0,
        notFollowRedirect := false, validator := none, multipartBoundary := "" } }

/-! ## Vocabulary of the composition properties -/

/-- Union with the source winning: every key of `src` holds the value of `src` in
`res`, and every key absent from `src` has in `res` what it has in `dst`. -/
def IsOverwriteUnion {α : Type} (res dst src : GoMap α) : Prop :=
  ∀ k, (∀ v, src.get? k = some v → res.get? k = some v)
    ∧ (src.get? k = none → res.get? k = dst.get? k)

/-- Fill-only union: every key of `dst` keeps the value of `dst` in `res`, and
every key absent from `dst` has in `res` what it has in `src`. -/
def IsFillUnion {α : Type} (res dst src : GoMap α) : Prop :=
  ∀ k, (∀ v, dst.get? k = some v → res.get? k = some v)
    ∧ (dst.get? k = none → res.get? k = src.get? k)

/-! ## Typed runner options (option.go) -/

/-- The functions the typed runner options call and the given sources do not
define. -/
structure OptionEnv where
  newHTTPRunnerWithHandler : String → Handle → Except Error httpRunner
  nestTx : Handle → Except Error Handle

/-- Go `grpcRunnerOption`. -/
abbrev grpcRunnerOption := grpcRunnerConfig → Except Error grpcRunnerConfig

/-- Go `sshRunnerOption`. -/
abbrev sshRunnerOption := sshRunnerConfig → Except Error sshRunnerConfig

/-- Go `shellRunnerOption`. -/
abbrev shellRunnerOption := shellRunnerConfig → Except Error shellRunnerConfig

/-- The loop `for _, opt := range opts { if err := opt(c); err != nil ... }` for
any configuration type. -/
def applyConfigOptions {σ : Type} : List (σ → Except Error σ) → σ → Except Error σ
  | [], c => .ok c
  | opt :: rest, c =>
    match opt c with
    | .error err => .error err
    | .ok c => applyConfigOptions rest c

/-- The zero value `&httpRunnerConfig{}`. -/
def zeroHTTPConfig : httpRunnerConfig :=
  { Endpoint := "", OpenApi3DocLocation := "", NotFollowRedirect := false,
    MultipartBoundary := "" }

/-- The zero value `&grpcRunnerConfig{}`. -/
def zeroGRPCConfig : grpcRunnerConfig :=
  { Addr := "", TLS := none, cacert := none, cert := none, key := none, CACert := "",
    Cert := "", Key := "", SkipVerify := false }

/-- The zero value `&sshRunnerConfig{}`. -/
def zeroSSHConfig : sshRunnerConfig :=
  { Host := "", Hostname := "", SSHConfig := "", User := "", Port := 0, IdentityFile := "",
    KeepSession := false }

/-- The zero value `&shellRunnerConfig{}`. -/
def zeroShellConfig : shellRunnerConfig := { Shell := "", KeepProcess := false }

/-- Go `HTTPRunner`: set an HTTP runner with a given client. The runner is stored
in the map before the options are applied; the map holds a pointer, so the later
assignments to the runner show in the map. -/
def HTTPRunner (env : Env) (name endpoint : String) (client : Handle)
    (opts : List httpRunnerOption) (bk : book) (log : Log) : Option Error × book × Log :=
  let bk := { bk with runnerErrs := bk.runnerErrs.delete name }
  let log := log ++ [Call.newHTTPRunner name endpoint]
  match env.newHTTPRunner name endpoint with
  | .error err => (some err, bk, log)
  | .ok r =>
    let r := { r with client := client }
    let bk := { bk with httpRunners := bk.httpRunners.set name r }
    if opts.length = 0 then (none, bk, log)
    else
      match applyConfigOptions opts zeroHTTPConfig with
      | .error err => (none, { bk with runnerErrs := bk.runnerErrs.set name err }, log)
      | .ok c =>
        let r := if c.NotFollowRedirect then { r with notFollowRedirect := true } else r
        let r := { r with multipartBoundary := c.MultipartBoundary }
        let bk := { bk with httpRunners := bk.httpRunners.set name r }
        match env.newHttpValidator c with
        | .error err => (none, { bk with runnerErrs := bk.runnerErrs.set name err }, log)
        | .ok v =>
          (none,
            { bk with httpRunners := bk.httpRunners.set name { r with validator := some v } },
            log)

/-- Go `HTTPRunnerWithHandler`: set an HTTP runner with an `http.Handler`. -/
def HTTPRunnerWithHandler (env : Env) (oenv : OptionEnv) (name : String) (h : Handle)
    (opts : List httpRunnerOption) (bk : book) (log : Log) : Option Error × book × Log :=
  let bk := { bk with runnerErrs := bk.runnerErrs.delete name }
  match oenv.newHTTPRunnerWithHandler name h with
  | .error err => (none, { bk with runnerErrs := bk.runnerErrs.set name err }, log)
  | .ok r =>
    if opts.length > 0 then
      match applyConfigOptions opts zeroHTTPConfig with
      | .error err => (none, { bk with runnerErrs := bk.runnerErrs.set name err }, log)
      | .ok c =>
        if c.NotFollowRedirect then
          (none,
            { bk with runnerErrs := (bk.runnerErrs.set name
                "HTTPRunnerWithHandler does not support option NotFollowRedirect") },
            log)
        else
          let r := { r with multipartBoundary := c.MultipartBoundary }
          match env.newHttpValidator c with
          | .error err => (none, { bk with runnerErrs := bk.runnerErrs.set name err }, log)
          | .ok v =>
            (none,
              { bk with httpRunners := bk.httpRunners.set name { r with validator := some v } },
              log)
    else
      (none, { bk with httpRunners := bk.httpRunners.set name r }, log)

/-- Go `DBRunner`: set a DB runner. -/
def DBRunner (oenv : OptionEnv) (name : String) (client : Handle) (bk : book) (log : Log) :
    Option Error × book × Log :=
  let bk := { bk with runnerErrs := bk.runnerErrs.delete name }
  match oenv.nestTx client with
  | .error err => (some err, bk, log)
  | .ok nt =>
    (none, { bk with dbRunners := bk.dbRunners.set name { name := name, client := nt } }, log)

/-- One of the three TLS items of the option `GrpcRunner`: the in-memory bytes
when not `nil`, else the file at the path when the path is not empty, else nothing
(the field of the runner stays `nil`). Returns the value of the field or the read
error, and the calls made. -/
def grpcOptionTLSItem (env : Env) (mem : Option Bytes) (path : String) :
    Except Error (Option Bytes) × List Call :=
  match mem with
  | some bs => (.ok (some bs), [])
  | none =>
    if path ≠ "" then
      match env.readFile path with
      | .error err => (.error err, [Call.readFile path])
      | .ok b => (.ok (some b), [Call.readFile path])
    else (.ok none, [])

/-- Go `GrpcRunner`: set a gRPC runner with a given connection. -/
def GrpcRunner (env : Env) (name : String) (cc : Handle) (opts : List grpcRunnerOption)
    (bk : book) (log : Log) : Option Error × book × Log :=
  let bk := { bk with runnerErrs := bk.runnerErrs.delete name }
  let r : grpcRunner :=
    { name := name, target := "", cc := some cc, tls := none, cacert := none, cert := none,
      key := none, skipVerify := false }
  if opts.length > 0 then
    match applyConfigOptions opts zeroGRPCConfig with
    | .error err => (none, { bk with runnerErrs := bk.runnerErrs.set name err }, log)
    | .ok c =>
      let r := { r with tls := c.TLS }
      match grpcOptionTLSItem env c.cacert c.CACert with
      | (.error err, calls) =>
        (none, { bk with runnerErrs := bk.runnerErrs.set name err }, log ++ calls)
      | (.ok cacert, calls) =>
        let log := log ++ calls
        let r := { r with cacert := cacert }
        match grpcOptionTLSItem env c.cert c.Cert with
        | (.error err, calls) =>
          (none, { bk with runnerErrs := bk.runnerErrs.set name err }, log ++ calls)
        | (.ok cert, calls) =>
          let log := log ++ calls
          let r := { r with cert := cert }
          match grpcOptionTLSItem env c.key c.Key with
          | (.error err, calls) =>
            (none, { bk with runnerErrs := bk.runnerErrs.set name err }, log ++ calls)
          | (.ok key, calls) =>
            let log := log ++ calls
            let r := { r with key := key, skipVerify := c.SkipVerify }
            (none, { bk with grpcRunners := bk.grpcRunners.set name r }, log)
  else
    (none, { bk with grpcRunners := bk.grpcRunners.set name r }, log)

/-- Go `SSHRunner`: set an SSH runner with a given client. -/
def SSHRunner (env : Env) (name : String) (client : Handle) (bk : book) (log : Log) :
    Option Error × book × Log :=
  let bk := { bk with runnerErrs := bk.runnerErrs.delete name }
  let r : sshRunner := { name := name, client := client, keepSession := false, session := none }
  match startSessionIfKept env r with
  | .error err => (some err, bk, log)
  | .ok r => (none, { bk with sshRunners := bk.sshRunners.set name r }, log)

/-- Go `SSHRunnerWithOptions`: set an SSH runner from options. -/
def SSHRunnerWithOptions (env : Env) (name : String) (opts : List sshRunnerOption)
    (bk : book) (log : Log) : Option Error × book × Log :=
  let bk := { bk with runnerErrs := bk.runnerErrs.delete name }
  match applyConfigOptions opts zeroSSHConfig with
  | .error err => (some err, bk, log)
  | .ok c =>
    if c.Host = "" ∧ c.Hostname = "" then
      (some ("invalid SSH runner '" ++ name ++ "': host or hostname is required"), bk, log)
    else
      match env.sshNewClient (sshHost c) (sshOptions env (env.dir bk.path) c) with
      | .error err => (some err, bk, log)
      | .ok client =>
        let r : sshRunner :=
          { name := name, client := client, keepSession := c.KeepSession, session := none }
        match startSessionIfKept env r with
        | .error err => (some err, bk, log)
        | .ok r => (none, { bk with sshRunners := bk.sshRunners.set name r }, log)

/-- Go `ShellRunnerWithOptions`: set a shell runner from options. -/
def ShellRunnerWithOptions (env : Env) (name : String) (opts : List shellRunnerOption)
    (bk : book) (log : Log) : Option Error × book × Log :=
  let bk := { bk with runnerErrs := bk.runnerErrs.delete name }
  match applyConfigOptions opts zeroShellConfig with
  | .error err => (some err, bk, log)
  | .ok c =>
    if c.Shell = "" then
      (some ("invalid Shell runner '" ++ name ++ "': shell is required"), bk, log)
    else
      let log := log ++ [Call.lookPath c.Shell]
      match env.lookPath c.Shell with
      | .error err => (some err, bk, log)
      | .ok shell =>
        let r : shellRunner :=
          { name := name, shell := shell, cmd := none, stdin := none, stdout := none,
            stderr := none, keepProcess := c.KeepProcess }
        (none, { bk with shellRunners := bk.shellRunners.set name r }, log)

/-- Go `runnHTTPRunner`. -/
def runnHTTPRunner (name : String) (r : httpRunner) (bk : book) (log : Log) :
    Option Error × book × Log :=
  (none, { bk with httpRunners := bk.httpRunners.set name r }, log)

/-- Go `runnDBRunner`. -/
def runnDBRunner (name : String) (r : dbRunner) (bk : book) (log : Log) :
    Option Error × book × Log :=
  (none, { bk with dbRunners := bk.dbRunners.set name r }, log)

/-- Go `runnGrpcRunner`. -/
def runnGrpcRunner (name : String) (r : grpcRunner) (bk : book) (log : Log) :
    Option Error × book × Log :=
  (none, { bk with grpcRunners := bk.grpcRunners.set name r }, log)

/-- Go `Capture`: register a capturer. -/
def Capture (c : Handle) (bk : book) : Option Error × book :=
  (none, { bk with capturers := bk.capturers ++ [c] })

/-! ## Vocabulary of the disjointness invariant -/

/-- The resolved runner maps are disjoint by name: a name is a key of the map of
at most one variant. -/
def DisjointByName (bk : book) : Prop :=
  ∀ k v1 v2, registered bk v1 k = true → registered bk v2 k = true → v1 = v2

/-- The operation that led from `bk` to `r` did not put the name `k` under a
second variant: whatever variant held `k` before is the only one that holds it
afterwards. -/
def NoClash (bk r : book) (k : String) : Prop :=
  ∀ v1 v2, registered bk v1 k = true → registered r v2 k = true → v1 = v2

/-- No name of the layer `loaded` is held by the destination `bk` under another
variant. -/
def NoLayerClash (bk loaded : book) : Prop :=
  ∀ k v1 v2, registered bk v1 k = true → registered loaded v2 k = true → v1 = v2

/-- Between `bk` and `r` the registration of names changed at most for the name
`k` under the variant `var`. -/
def RegistersOnly (bk r : book) (var : RunnerVariant) (k : String) : Prop :=
  ∀ v n, (v ≠ var ∨ n ≠ k) → registered r v n = registered bk v n

/-- The operations that register one runner under the name `k`: `parseRunner`, the
option `Runner` and the typed runner options. -/
inductive RunnerOp (env : Env) (oenv : OptionEnv) :
    String → (book → Log → Option Error × book × Log) → Prop where
  | parseRunner (k : String) (v : Value) : RunnerOp env oenv k (parseRunner env k v)
  | Runner (k dsn : String) (opts : List httpRunnerOption) :
      RunnerOp env oenv k (Runner env k dsn opts)
  | HTTPRunner (k endpoint : String) (client : Handle) (opts : List httpRunnerOption) :
      RunnerOp env oenv k (HTTPRunner env k endpoint client opts)
  | HTTPRunnerWithHandler (k : String) (h : Handle) (opts : List httpRunnerOption) :
      RunnerOp env oenv k (HTTPRunnerWithHandler env oenv k h opts)
  | DBRunner (k : String) (client : Handle) : RunnerOp env oenv k (DBRunner oenv k client)
  | GrpcRunner (k : String) (cc : Handle) (opts : List grpcRunnerOption) :
      RunnerOp env oenv k (GrpcRunner env k cc opts)
  | SSHRunner (k : String) (client : Handle) : RunnerOp env oenv k (SSHRunner env k client)
  | SSHRunnerWithOptions (k : String) (opts : List sshRunnerOption) :
      RunnerOp env oenv k (SSHRunnerWithOptions env k opts)
  | ShellRunnerWithOptions (k : String) (opts : List shellRunnerOption) :
      RunnerOp env oenv k (ShellRunnerWithOptions env k opts)
  | runnHTTPRunner (k : String) (r : httpRunner) : RunnerOp env oenv k (runnHTTPRunner k r)
  | runnDBRunner (k : String) (r : dbRunner) : RunnerOp env oenv k (runnDBRunner k r)
  | runnGrpcRunner (k : String) (r : grpcRunner) : RunnerOp env oenv k (runnGrpcRunner k r)

/-- The operations that merge the runbook at `path` into the destination: `Book`,
`Overlay` and `Underlay`. -/
inductive LayerOp (env : Env) : String → (book → Log → Option Error × book × Log) → Prop where
  | Book (path : String) : LayerOp env path (Book env path)
  | Overlay (path : String) : LayerOp env path (Overlay env path)
  | Underlay (path : String) : LayerOp env path (Underlay env path)

/-- The books reachable from `newBook()` by runner-registering operations none of
which puts a name under a second variant. -/
inductive Reachable (env : Env) (oenv : OptionEnv) : book → Prop where
  | new : Reachable env oenv newBook
  | runner (bk : book) (log : Log) (k : String)
      (op : book → Log → Option Error × book × Log) :
      Reachable env oenv bk → RunnerOp env oenv k op → NoClash bk (op bk log).2.1 k →
      Reachable env oenv (op bk log).2.1
  | layer (bk : book) (log : Log) (path : String)
      (op : book → Log → Option Error × book × Log) :
      Reachable env oenv bk → LayerOp env path op →
      (∀ loaded, (LoadBook env path log).1 = Except.ok loaded → NoLayerClash bk loaded) →
      Reachable env oenv (op bk log).2.1

/-- The runbook decoder hands out books without resolved runners, as `newBook`
does. -/
def DecodesUnresolved (env : Env) : Prop :=
  ∀ rb b, env.toBook rb = Except.ok b → ∀ var k, registered b var k = false

/-- An environment for the typed options in which every call succeeds. -/
def demoOptionEnv : OptionEnv :=
  { newHTTPRunnerWithHandler := fun name _ =>
      .ok { name := name, endpoint := "", client := 0, notFollowRedirect := false,
            validator := none, multipartBoundary := "" }
    nestTx := fun client => .ok client }

/-- The runbook that `intervalEnv` finds at `base.yml`: one step and the interval
`5sec`. -/
def demoIntervalBase : book :=
  { newBook with
    desc := "base"
    intervalStr := "5sec"
    rawSteps := [GoMap.empty.set "getusers" Value.null]
    stepKeys := ["0"] }

/-- The world of `demoEnv` with one more runbook file, `base.yml`, which declares
the interval `5sec` (five seconds, in nanoseconds). -/
def intervalEnv : Env :=
  { demoEnv with
    osOpen := fun p => if p = "base.yml" then .ok 4 else demoEnv.osOpen p
    toBook := fun rb => if rb = 4 then .ok demoIntervalBase else demoEnv.toBook rb
    parseDuration := fun s => if s = "5sec" then .ok 5000000000 else .ok 0 }

/-! ## Steps and their identity (step.go) -/

/-- Modelled from the spec: the runner-type tags `RunnerTypeHTTP`, ... are
declared outside the given sources; the spec calls the tag a discriminated
runner-type tag, one per kind of step. -/
inductive RunnerType where
  | RunnerTypeHTTP : RunnerType
  | RunnerTypeDB : RunnerType
  | RunnerTypeGRPC : RunnerType
  | RunnerTypeCDP : RunnerType
  | RunnerTypeSSH : RunnerType
  | RunnerTypeExec : RunnerType
  | RunnerTypeShell : RunnerType
  | RunnerTypeInclude : RunnerType
  | RunnerTypeDump : RunnerType
  | RunnerTypeBind : RunnerType
  | RunnerTypeTest : RunnerType
deriving DecidableEq

/-- Modelled from the spec: the identifier kinds are declared outside the given
sources; `generateID` uses `IDTypeStep`. -/
inductive IDType where
  | IDTypeRunbook : IDType
  | IDTypeStep : IDType
deriving DecidableEq

/-- Modelled from the spec: the struct `ID` is declared outside the given sources;
these are the fields `generateID` assigns. An unset `StepRunnerType` (the zero
value) is `none`; the field `Typ` is the Go field `Type`. -/
structure ID where
  Typ : IDType
  Desc : String
  StepKey : String
  StepRunnerKey : String
  StepRunnerType : Option RunnerType
deriving DecidableEq

/-- Go `IDs`. -/
abbrev IDs := List ID

/-- Go `step` (step.go). A pointer or a map is `none` when it is `nil`; runners
and payloads whose types are declared outside the given sources are handles. -/
structure step where
  key : String
  runnerKey : String
  desc : String
  ifCond : String
  loop : Option Handle
  httpRunner : Option httpRunner
  httpRequest : Option (GoMap Value)
  dbRunner : Option dbRunner
  dbQuery : Option (GoMap Value)
  grpcRunner : Option grpcRunner
  grpcRequest : Option (GoMap Value)
  cdpRunner : Option cdpRunner
  cdpActions : Option (GoMap Value)
  sshRunner : Option sshRunner
  sshCommand : Option (GoMap Value)
  execRunner : Option Handle
  execCommand : Option (GoMap Value)
  shellRunner : Option shellRunner
  shellCommand : Option (GoMap Value)
  testRunner : Option Handle
  testCond : String
  dumpRunner : Option Handle
  dumpRequest : Option Handle
  bindRunner : Option Handle
  bindCond : Option (GoMap String)
  includeRunner : Option Handle
  includeConfig : Option Handle
  parent : Option Handle
  debug : Bool

/-- Go `step.generateID`. -/
def generateID (s : step) : ID :=
  let id : ID :=
    { Typ := IDType.IDTypeStep, Desc := s.desc, StepKey := s.key,
      StepRunnerKey := s.runnerKey, StepRunnerType := none }
  if s.httpRunner.isSome && s.httpRequest.isSome then
    { id with StepRunnerType := some RunnerType.RunnerTypeHTTP }
  else if s.dbRunner.isSome && s.dbQuery.isSome then
    { id with StepRunnerType := some RunnerType.RunnerTypeDB }
  else if s.grpcRunner.isSome && s.grpcRequest.isSome then
    { id with StepRunnerType := some RunnerType.RunnerTypeGRPC }
  else if s.cdpRunner.isSome && s.cdpActions.isSome then
    { id with StepRunnerType := some RunnerType.RunnerTypeCDP }
  else if s.sshRunner.isSome && s.sshCommand.isSome then
    { id with StepRunnerType := some RunnerType.RunnerTypeSSH }
  else if s.execRunner.isSome && s.execCommand.isSome then
    { id with StepRunnerType := some RunnerType.RunnerTypeExec }
  else if s.shellRunner.isSome && s.shellCommand.isSome then
    { id with StepRunnerType := some RunnerType.RunnerTypeShell }
  else if s.includeRunner.isSome && s.includeConfig.isSome then
    { id with StepRunnerType := some RunnerType.RunnerTypeInclude }
  else if s.dumpRunner.isSome && s.dumpRequest.isSome then
    { id with StepRunnerType := some RunnerType.RunnerTypeDump }
  else if s.bindRunner.isSome && s.bindCond.isSome then
    { id with StepRunnerType := some RunnerType.RunnerTypeBind }
  else if s.testRunner.isSome && s.testCond ≠ "" then
    { id with StepRunnerType := some RunnerType.RunnerTypeTest }
  else id

/-- The pairs (runner handle, payload) of a step in the words of the spec, in the
order HTTP, DB, gRPC, CDP, SSH, Exec, Shell, Include, Dump, Bind, Test: each tag
with whether both its handle and its payload are present. -/
def completePairs (s : step) : List (RunnerType × Bool) :=
  [ (RunnerType.RunnerTypeHTTP, s.httpRunner.isSome && s.httpRequest.isSome),
    (RunnerType.RunnerTypeDB, s.dbRunner.isSome && s.dbQuery.isSome),
    (RunnerType.RunnerTypeGRPC, s.grpcRunner.isSome && s.grpcRequest.isSome),
    (RunnerType.RunnerTypeCDP, s.cdpRunner.isSome && s.cdpActions.isSome),
    (RunnerType.RunnerTypeSSH, s.sshRunner.isSome && s.sshCommand.isSome),
    (RunnerType.RunnerTypeExec, s.execRunner.isSome && s.execCommand.isSome),
    (RunnerType.RunnerTypeShell, s.shellRunner.isSome && s.shellCommand.isSome),
    (RunnerType.RunnerTypeInclude, s.includeRunner.isSome && s.includeConfig.isSome),
    (RunnerType.RunnerTypeDump, s.dumpRunner.isSome && s.dumpRequest.isSome),
    (RunnerType.RunnerTypeBind, s.bindRunner.isSome && s.bindCond.isSome),
    (RunnerType.RunnerTypeTest, s.testRunner.isSome && decide (s.testCond ≠ "")) ]

/-! ## The capture bus (capturer.go) -/

/-- One call of a method of the interface `Capturer`, with its arguments. Requests,
responses and browser actions are handles, header maps are maps to string lists. -/
inductive Invocation where
  | CaptureStart (ids : IDs) (bookPath : String) (desc : String) : Invocation
  | CaptureFailure (ids : IDs) (bookPath : String) (desc : String) (err : Error) : Invocation
  | CaptureSkipped (ids : IDs) (bookPath : String) (desc : String) : Invocation
  | CaptureSuccess (ids : IDs) (bookPath : String) (desc : String) : Invocation
  | CaptureEnd (ids : IDs) (bookPath : String) (desc : String) : Invocation
  | CaptureHTTPRequest (name : String) (req : Handle) : Invocation
  | CaptureHTTPResponse (name : String) (res : Handle) : Invocation
  | CaptureGRPCStart (name : String) (typ : String) (service : String) (method : String) : Invocation
  | CaptureGRPCRequestHeaders (h : GoMap (List String)) : Invocation
  | CaptureGRPCRequestMessage (m : GoMap Value) : Invocation
  | CaptureGRPCResponseStatus (status : Int) : Invocation
  | CaptureGRPCResponseHeaders (h : GoMap (List String)) : Invocation
  | CaptureGRPCResponseMessage (m : GoMap Value) : Invocation
  | CaptureGRPCResponseTrailers (t : GoMap (List String)) : Invocation
  | CaptureGRPCClientClose : Invocation
  | CaptureGRPCEnd (name : String) (typ : String) (service : String) (method : String) : Invocation
  | CaptureCDPStart (name : String) : Invocation
  | CaptureCDPAction (a : Handle) : Invocation
  | CaptureCDPResponse (a : Handle) (res : GoMap Value) : Invocation
  | CaptureCDPEnd (name : String) : Invocation
  | CaptureSSHCommand (command : String) : Invocation
  | CaptureSSHStdout (stdout : String) : Invocation
  | CaptureSSHStderr (stderr : String) : Invocation
  | CaptureDBStatement (name : String) (stmt : String) : Invocation
  | CaptureDBResponse (name : String) (res : Handle) : Invocation
  | CaptureExecCommand (command : String) : Invocation
  | CaptureExecStdin (stdin : String) : Invocation
  | CaptureExecStdout (stdout : String) : Invocation
  | CaptureExecStderr (stderr : String) : Invocation
  | CaptureShellCommand (command : String) : Invocation
  | CaptureShellStdin (stdin : String) : Invocation
  | CaptureShellStdout (stdout : String) : Invocation
  | CaptureShellStderr (stderr : String) : Invocation
  | SetCurrentIDs (ids : IDs) : Invocation

/-- Go `capturers`: the registered observers, in registration order. -/
abbrev capturers := List Handle

/-- The calls received by the observers so far, oldest first: which observer and
which method with which arguments. -/
abbrev CaptureLog := List (Handle × Invocation)

/-- Go `capturers.captureStart`. -/
def captureStart (cs : capturers) (ids : IDs) (bookPath : String) (desc : String)
    (tr : CaptureLog) : CaptureLog :=
  cs.foldl (fun tr c => tr ++ [(c, Invocation.CaptureStart ids bookPath desc)]) tr

/-- Go `capturers.captureFailure`. -/
def captureFailure (cs : capturers) (ids : IDs) (bookPath : String) (desc : String) (err : Error)
    (tr : CaptureLog) : CaptureLog :=
  cs.foldl (fun tr c => tr ++ [(c, Invocation.CaptureFailure ids bookPath desc err)]) tr

/-- Go `capturers.captureSkipped`. -/
def captureSkipped (cs : capturers) (ids : IDs) (bookPath : String) (desc : String)
    (tr : CaptureLog) : CaptureLog :=
  cs.foldl (fun tr c => tr ++ [(c, Invocation.CaptureSkipped ids bookPath desc)]) tr

/-- Go `capturers.captureSuccess`. -/
def captureSuccess (cs : capturers) (ids : IDs) (bookPath : String) (desc : String)
    (tr : CaptureLog) : CaptureLog :=
  cs.foldl (fun tr c => tr ++ [(c, Invocation.CaptureSuccess ids bookPath desc)]) tr

/-- Go `capturers.captureEnd`. -/
def captureEnd (cs : capturers) (ids : IDs) (bookPath : String) (desc : String)
    (tr : CaptureLog) : CaptureLog :=
  cs.foldl (fun tr c => tr ++ [(c, Invocation.CaptureEnd ids bookPath desc)]) tr

/-- Go `capturers.captureHTTPRequest`. -/
def captureHTTPRequest (cs : capturers) (name : String) (req : Handle)
    (tr : CaptureLog) : CaptureLog :=
  cs.foldl (fun tr c => tr ++ [(c, Invocation.CaptureHTTPRequest name req)]) tr

/-- Go `capturers.captureHTTPResponse`. -/
def captureHTTPResponse (cs : capturers) (name : String) (res : Handle)
    (tr : CaptureLog) : CaptureLog :=
  cs.foldl (fun tr c => tr ++ [(c, Invocation.CaptureHTTPResponse name res)]) tr

/-- Go `capturers.captureGRPCStart`. -/
def captureGRPCStart (cs : capturers) (name : String) (typ : String) (service : String) (method : String)
    (tr : CaptureLog) : CaptureLog :=
  cs.foldl (fun tr c => tr ++ [(c, Invocation.CaptureGRPCStart name typ service method)]) tr

/-- Go `capturers.captureGRPCRequestHeaders`. -/
def captureGRPCRequestHeaders (cs : capturers) (h : GoMap (List String))
    (tr : CaptureLog) : CaptureLog :=
  cs.foldl (fun tr c => tr ++ [(c, Invocation.CaptureGRPCRequestHeaders h)]) tr

/-- Go `capturers.captureGRPCRequestMessage`. -/
def captureGRPCRequestMessage (cs : capturers) (m : GoMap Value)
    (tr : CaptureLog) : CaptureLog :=
  cs.foldl (fun tr c => tr ++ [(c, Invocation.CaptureGRPCRequestMessage m)]) tr

/-- Go `capturers.captureGRPCResponseStatus`. -/
def captureGRPCResponseStatus (cs : capturers) (status : Int) (tr : CaptureLog) : CaptureLog :=
  cs.foldl (fun tr c => tr ++ [(c, Invocation.CaptureGRPCResponseStatus status)]) tr

/-- Go `capturers.captureGRPCResponseHeaders`. -/
def captureGRPCResponseHeaders (cs : capturers) (h : GoMap (List String))
    (tr : CaptureLog) : CaptureLog :=
  cs.foldl (fun tr c => tr ++ [(c, Invocation.CaptureGRPCResponseHeaders h)]) tr

/-- Go `capturers.captureGRPCResponseMessage`. -/
def captureGRPCResponseMessage (cs : capturers) (m : GoMap Value)
    (tr : CaptureLog) : CaptureLog :=
  cs.foldl (fun tr c => tr ++ [(c, Invocation.CaptureGRPCResponseMessage m)]) tr

/-- Go `capturers.captureGRPCResponseTrailers`. -/
def captureGRPCResponseTrailers (cs : capturers) (t : GoMap (List String))
    (tr : CaptureLog) : CaptureLog :=
  cs.foldl (fun tr c => tr ++ [(c, Invocation.CaptureGRPCResponseTrailers t)]) tr

/-- Go `capturers.captureGRPCClientClose`. -/
def captureGRPCClientClose (cs : capturers) (tr : CaptureLog) : CaptureLog :=
  cs.foldl (fun tr c => tr ++ [(c, Invocation.CaptureGRPCClientClose)]) tr

/-- Go `capturers.captureGRPCEnd`. -/
def captureGRPCEnd (cs : capturers) (name : String) (typ : String) (service : String) (method : String)
    (tr : CaptureLog) : CaptureLog :=
  cs.foldl (fun tr c => tr ++ [(c, Invocation.CaptureGRPCEnd name typ service method)]) tr

/-- Go `capturers.captureCDPStart`. -/
def captureCDPStart (cs : capturers) (name : String) (tr : CaptureLog) : CaptureLog :=
  cs.foldl (fun tr c => tr ++ [(c, Invocation.CaptureCDPStart name)]) tr

/-- Go `capturers.captureCDPAction`. -/
def captureCDPAction (cs : capturers) (a : Handle) (tr : CaptureLog) : CaptureLog :=
  cs.foldl (fun tr c => tr ++ [(c, Invocation.CaptureCDPAction a)]) tr

/-- Go `capturers.captureCDPResponse`. -/
def captureCDPResponse (cs : capturers) (a : Handle) (res : GoMap Value)
    (tr : CaptureLog) : CaptureLog :=
  cs.foldl (fun tr c => tr ++ [(c, Invocation.CaptureCDPResponse a res)]) tr

/-- Go `capturers.captureCDPEnd`. -/
def captureCDPEnd (cs : capturers) (name : String) (tr : CaptureLog) : CaptureLog :=
  cs.foldl (fun tr c => tr ++ [(c, Invocation.CaptureCDPEnd name)]) tr

/-- Go `capturers.captureSSHCommand`. -/
def captureSSHCommand (cs : capturers) (command : String) (tr : CaptureLog) : CaptureLog :=
  cs.foldl (fun tr c => tr ++ [(c, Invocation.CaptureSSHCommand command)]) tr

/-- Go `capturers.captureSSHStdout`. -/
def captureSSHStdout (cs : capturers) (stdout : String) (tr : CaptureLog) : CaptureLog :=
  cs.foldl (fun tr c => tr ++ [(c, Invocation.CaptureSSHStdout stdout)]) tr

/-- Go `capturers.captureSSHStderr`. -/
def captureSSHStderr (cs : capturers) (stderr : String) (tr : CaptureLog) : CaptureLog :=
  cs.foldl (fun tr c => tr ++ [(c, Invocation.CaptureSSHStderr stderr)]) tr

/-- Go `capturers.captureDBStatement`. -/
def captureDBStatement (cs : capturers) (name : String) (stmt : String)
    (tr : CaptureLog) : CaptureLog :=
  cs.foldl (fun tr c => tr ++ [(c, Invocation.CaptureDBStatement name stmt)]) tr

/-- Go `capturers.captureDBResponse`. -/
def captureDBResponse (cs : capturers) (name : String) (res : Handle)
    (tr : CaptureLog) : CaptureLog :=
  cs.foldl (fun tr c => tr ++ [(c, Invocation.CaptureDBResponse name res)]) tr

/-- Go `capturers.captureExecCommand`. -/
def captureExecCommand (cs : capturers) (command : String) (tr : CaptureLog) : CaptureLog :=
  cs.foldl (fun tr c => tr ++ [(c, Invocation.CaptureExecCommand command)]) tr

/-- Go `capturers.captureExecStdin`. -/
def captureExecStdin (cs : capturers) (stdin : String) (tr : CaptureLog) : CaptureLog :=
  cs.foldl (fun tr c => tr ++ [(c, Invocation.CaptureExecStdin stdin)]) tr

/-- Go `capturers.captureExecStdout`. -/
def captureExecStdout (cs : capturers) (stdout : String) (tr : CaptureLog) : CaptureLog :=
  cs.foldl (fun tr c => tr ++ [(c, Invocation.CaptureExecStdout stdout)]) tr

/-- Go `capturers.captureExecStderr`. -/
def captureExecStderr (cs : capturers) (stderr : String) (tr : CaptureLog) : CaptureLog :=
  cs.foldl (fun tr c => tr ++ [(c, Invocation.CaptureExecStderr stderr)]) tr

/-- Go `capturers.captureShellCommand`. -/
def captureShellCommand (cs : capturers) (command : String) (tr : CaptureLog) : CaptureLog :=
  cs.foldl (fun tr c => tr ++ [(c, Invocation.CaptureShellCommand command)]) tr

/-- Go `capturers.captureShellStdin`. -/
def captureShellStdin (cs : capturers) (stdin : String) (tr : CaptureLog) : CaptureLog :=
  cs.foldl (fun tr c => tr ++ [(c, Invocation.CaptureShellStdin stdin)]) tr

/-- Go `capturers.captureShellStdout`. -/
def captureShellStdout (cs : capturers) (stdout : String) (tr : CaptureLog) : CaptureLog :=
  cs.foldl (fun tr c => tr ++ [(c, Invocation.CaptureShellStdout stdout)]) tr

/-- Go `capturers.captureShellStderr`. -/
def captureShellStderr (cs : capturers) (stderr : String) (tr : CaptureLog) : CaptureLog :=
  cs.foldl (fun tr c => tr ++ [(c, Invocation.CaptureShellStderr stderr)]) tr

/-- Go `capturers.setCurrentIDs`. -/
def setCurrentIDs (cs : capturers) (ids : IDs) (tr : CaptureLog) : CaptureLog :=
  cs.foldl (fun tr c => tr ++ [(c, Invocation.SetCurrentIDs ids)]) tr

/-- The emit method of the bus that corresponds to a call: `captureStart` for
`CaptureStart`, and so on for every method of the interface. -/
def emit (cs : capturers) : Invocation → CaptureLog → CaptureLog
  | .CaptureStart ids bookPath desc => captureStart cs ids bookPath desc
  | .CaptureFailure ids bookPath desc err => captureFailure cs ids bookPath desc err
  | .CaptureSkipped ids bookPath desc => captureSkipped cs ids bookPath desc
  | .CaptureSuccess ids bookPath desc => captureSuccess cs ids bookPath desc
  | .CaptureEnd ids bookPath desc => captureEnd cs ids bookPath desc
  | .CaptureHTTPRequest name req => captureHTTPRequest cs name req
  | .CaptureHTTPResponse name res => captureHTTPResponse cs name res
  | .CaptureGRPCStart name typ service method => captureGRPCStart cs name typ service method
  | .CaptureGRPCRequestHeaders h => captureGRPCRequestHeaders cs h
  | .CaptureGRPCRequestMessage m => captureGRPCRequestMessage cs m
  | .CaptureGRPCResponseStatus status => captureGRPCResponseStatus cs status
  | .CaptureGRPCResponseHeaders h => captureGRPCResponseHeaders cs h
  | .CaptureGRPCResponseMessage m => captureGRPCResponseMessage cs m
  | .CaptureGRPCResponseTrailers t => captureGRPCResponseTrailers cs t
  | .CaptureGRPCClientClose => captureGRPCClientClose cs
  | .CaptureGRPCEnd name typ service method => captureGRPCEnd cs name typ service method
  | .CaptureCDPStart name => captureCDPStart cs name
  | .CaptureCDPAction a => captureCDPAction cs a
  | .CaptureCDPResponse a res => captureCDPResponse cs a res
  | .CaptureCDPEnd name => captureCDPEnd cs name
  | .CaptureSSHCommand command => captureSSHCommand cs command
  | .CaptureSSHStdout stdout => captureSSHStdout cs stdout
  | .CaptureSSHStderr stderr => captureSSHStderr cs stderr
  | .CaptureDBStatement name stmt => captureDBStatement cs name stmt
  | .CaptureDBResponse name res => captureDBResponse cs name res
  | .CaptureExecCommand command => captureExecCommand cs command
  | .CaptureExecStdin stdin => captureExecStdin cs stdin
  | .CaptureExecStdout stdout => captureExecStdout cs stdout
  | .CaptureExecStderr stderr => captureExecStderr cs stderr
  | .CaptureShellCommand command => captureShellCommand cs command
  | .CaptureShellStdin stdin => captureShellStdin cs stdin
  | .CaptureShellStdout stdout => captureShellStdout cs stdout
  | .CaptureShellStderr stderr => captureShellStderr cs stderr
  | .SetCurrentIDs ids => setCurrentIDs cs ids

/-- Registering the observers `obs` one after the other with the option
`Capture`. -/
def registerAll (obs : List Handle) (bk : book) : book :=
  obs.foldl (fun b c => (Capture c b).2) bk

/-! ## The shell runner (shell.go) -/

/-- Go `strings.Trim(s, cutset)`: `s` without the leading and trailing characters
that occur in `cutset`. -/
def Trim (s cutset : String) : String :=
  ⟨((s.data.dropWhile (fun ch => cutset.data.contains ch)).reverse.dropWhile
    (fun ch => cutset.data.contains ch)).reverse⟩

/-- Go `strings.TrimRight(s, cutset)`: `s` without the trailing characters that
occur in `cutset`. -/
def TrimRight (s cutset : String) : String :=
  ⟨(s.data.reverse.dropWhile (fun ch => cutset.data.contains ch)).reverse⟩

/-- Go `shellCommand` (shell.go). -/
structure shellCommand where
  command : String
  stdin : String

/-- What `cmd.Run()` leaves behind: `Process` (set when the process was started,
`nil` when it could not be started), the error it returns, and what the process
wrote to the two buffers. -/
structure RunOutcome where
  Process : Option Handle
  err : Option Error
  stdout : String
  stderr : String

/-- The process functions shell.go calls and does not define. The writer handed
to `write` is the field `stdin` of the runner (`none` when it is `nil`). -/
structure ShellEnv where
  stdinPipe : execCmd → Except Error Handle
  stdoutPipe : execCmd → Except Error Handle
  stderrPipe : execCmd → Except Error Handle
  start : execCmd → Except Error Handle
  run : execCmd → RunOutcome
  kill : Handle → Option Error
  write : Option Handle → String → Option Error

/-- What a shell runner has done to the world outside: the calls received by the
observers, the writes attempted on the standard input of the kept process, the
commands run to completion, and the values handed to `operator.record` (stdout,
stderr). -/
structure ShellWorld where
  captured : CaptureLog
  written : List (Option Handle × String)
  ran : List execCmd
  recorded : List (String × String)

/-- One outcome of the `select` in the collection loop of `Run`: a line or the
close of one of the two channels, the silence timer, or the cancellation of the
context. -/
inductive ShellEvent where
  | stdoutLine (line : String) : ShellEvent
  | stdoutClosed : ShellEvent
  | stderrLine (line : String) : ShellEvent
  | stderrClosed : ShellEvent
  | timeout : ShellEvent
  | done : ShellEvent

/-- Go `shellRunner.startProcess`. The two channels are named by the pipes they
are fed from. -/
def startProcess (senv : ShellEnv) (rnr : shellRunner) : Option Error × shellRunner :=
  if !rnr.keepProcess then
    (some "could not use startProcess() when keepProcess = false", rnr)
  else
    let cmd : execCmd :=
      { Path := rnr.shell, Args := [rnr.shell], Stdin := none, Process := none }
    match senv.stdinPipe cmd with
    | .error err => (some err, rnr)
    | .ok stdin =>
      match senv.stdoutPipe cmd with
      | .error err => (some err, rnr)
      | .ok stdout =>
        match senv.stderrPipe cmd with
        | .error err => (some err, rnr)
        | .ok stderr =>
          match senv.start cmd with
          | .error err => (some err, rnr)
          | .ok p =>
            (none,
              { rnr with cmd := some { cmd with Process := some p }, stdin := some stdin,
                         stdout := some stdout, stderr := some stderr })

/-- Go `shellRunner.terminateProcess`. -/
def terminateProcess (senv : ShellEnv) (rnr : shellRunner) : Option Error × shellRunner :=
  match rnr.cmd with
  | none => (none, rnr)
  | some cmd =>
    match cmd.Process with
    | none => (none, rnr)
    | some p =>
      match senv.kill p with
      | some err => (some err, rnr)
      | none =>
        (none, { rnr with cmd := none, stdin := none, stdout := none, stderr := none })

/-- Go `shellRunner.Close`. -/
def Close (senv : ShellEnv) (rnr : shellRunner) : Option Error × shellRunner :=
  terminateProcess senv rnr

/-- Go `shellRunner.runOnce`. The deferred `terminateProcess` runs last and its
error is dropped, as is the error of `cmd.Run()`. -/
def runOnce (senv : ShellEnv) (cs : capturers) (rnr : shellRunner) (c : shellCommand)
    (w : ShellWorld) : Option Error × shellRunner × ShellWorld :=
  let w := { w with captured := captureShellCommand cs c.command w.captured }
  let cmd : execCmd :=
    { Path := rnr.shell, Args := [rnr.shell, "-c", c.command], Stdin := none,
      Process := none }
  let cmd := if Trim c.stdin " \n" ≠ "" then { cmd with Stdin := some c.stdin } else cmd
  let w :=
    if Trim c.stdin " \n" ≠ "" then
      { w with captured := captureShellStdin cs c.stdin w.captured }
    else w
  let out := senv.run cmd
  let rnr := { rnr with cmd := some { cmd with Process := out.Process } }
  let w := { w with ran := w.ran ++ [cmd] }
  let w := { w with captured := captureShellStdout cs out.stdout w.captured }
  let w := { w with captured := captureShellStderr cs out.stderr w.captured }
  let w := { w with recorded := w.recorded ++ [(out.stdout, out.stderr)] }
  (none, (terminateProcess senv rnr).2, w)

/-- The collection loop of `Run` (label `L`) over the outcomes of its `select`,
with the output gathered so far: a line is appended with a newline, every other
outcome leaves the loop. When no further outcome is listed nothing arrives any
more and the silence timer fires. -/
def collect : List ShellEvent → String → String → String × String
  | [], stdout, stderr => (stdout, stderr)
  | ShellEvent.stdoutLine line :: rest, stdout, stderr =>
    collect rest (stdout ++ (line ++ "\n")) stderr
  | ShellEvent.stderrLine line :: rest, stdout, stderr =>
    collect rest stdout (stderr ++ (line ++ "\n"))
  | ShellEvent.stdoutClosed :: _, stdout, stderr => (stdout, stderr)
  | ShellEvent.stderrClosed :: _, stdout, stderr => (stdout, stderr)
  | ShellEvent.timeout :: _, stdout, stderr => (stdout, stderr)
  | ShellEvent.done :: _, stdout, stderr => (stdout, stderr)

/-- The part of `Run` after the process is known to exist: the command and, when
not blank, the stdin content are written to the process, then the output is
collected, captured and recorded. -/
def runKept (senv : ShellEnv) (cs : capturers) (events : List ShellEvent)
    (rnr : shellRunner) (c : shellCommand) (w : ShellWorld) :
    Option Error × shellRunner × ShellWorld :=
  let w := { w with captured := captureShellCommand cs c.command w.captured }
  let w := { w with written := w.written ++ [(rnr.stdin, TrimRight c.command "\n" ++ "\n")] }
  match senv.write rnr.stdin (TrimRight c.command "\n" ++ "\n") with
  | some err => (some err, rnr, w)
  | none =>
    let sent : Option Error × ShellWorld :=
      if Trim c.stdin " \n" ≠ "" then
        let w := { w with written := w.written ++ [(rnr.stdin, c.stdin ++ "\n")] }
        match senv.write rnr.stdin (c.stdin ++ "\n") with
        | some err => (some err, w)
        | none => (none, { w with captured := captureShellStdin cs c.stdin w.captured })
      else (none, w)
    match sent with
    | (some err, w) => (some err, rnr, w)
    | (none, w) =>
      let out := collect events "" ""
      let w := { w with captured := captureShellStdout cs out.1 w.captured }
      let w := { w with captured := captureShellStderr cs out.2 w.captured }
      let w := { w with recorded := w.recorded ++ [(out.1, out.2)] }
      (none, rnr, w)

/-- Go `shellRunner.Run`; `cs` is `rnr.operator.capturers` and `events` the
outcomes of the `select` during this call. -/
def Run (senv : ShellEnv) (cs : capturers) (events : List ShellEvent) (rnr : shellRunner)
    (c : shellCommand) (w : ShellWorld) : Option Error × shellRunner × ShellWorld :=
  if !rnr.keepProcess then runOnce senv cs rnr c w
  else
    match rnr.cmd with
    | none =>
      match startProcess senv rnr with
      | (some err, rnr) => (some err, rnr, w)
      | (none, rnr) => runKept senv cs events rnr c w
    | some _ => runKept senv cs events rnr c w

/-! ## Vocabulary of the shell properties -/

/-- Whether a call is the shell-stdin capture event. -/
def Invocation.isShellStdin : Invocation → Bool
  | .CaptureShellStdin _ => true
  | _ => false

/-- The shell-stdin capture events in a capture log. -/
def shellStdinEvents (tr : CaptureLog) : CaptureLog :=
  tr.filter (fun e => e.2.isShellStdin)

/-- Whether an outcome of the `select` is a line (of either channel). -/
def ShellEvent.isLine : ShellEvent → Bool
  | .stdoutLine _ => true
  | .stderrLine _ => true
  | _ => false

/-- The stdout line of an outcome, if it is one. -/
def ShellEvent.stdoutLine? : ShellEvent → Option String
  | .stdoutLine line => some line
  | _ => none

/-- The stderr line of an outcome, if it is one. -/
def ShellEvent.stderrLine? : ShellEvent → Option String
  | .stderrLine line => some line
  | _ => none

/-- The recorded stdout in the words of the spec: the stdout lines received before
the first terminating outcome, in arrival order, each followed by one newline. -/
def stdoutBeforeEnd (events : List ShellEvent) : String :=
  String.join (((events.takeWhile ShellEvent.isLine).filterMap ShellEvent.stdoutLine?).map
    (fun line => line ++ "\n"))

/-- The recorded stderr in the words of the spec: the stderr lines received before
the first terminating outcome, in arrival order, each followed by one newline. -/
def stderrBeforeEnd (events : List ShellEvent) : String :=
  String.join (((events.takeWhile ShellEvent.isLine).filterMap ShellEvent.stderrLine?).map
    (fun line => line ++ "\n"))

/-- A world for the shell examples: the shell `/bin/sh` starts as process 100 and
prints `hi`, every other program fails to start; pipes and writes succeed; killing
a process that has already been waited for fails, as `os.Process.Kill` does. -/
def demoShellEnv : ShellEnv :=
  { stdinPipe := fun _ => .ok 10
    stdoutPipe := fun _ => .ok 11
    stderrPipe := fun _ => .ok 12
    start := fun cmd =>
      if cmd.Path = "/bin/sh" then .ok 100
      else .error ("fork/exec " ++ cmd.Path ++ ": no such file or directory")
    run := fun cmd =>
      if cmd.Path = "/bin/sh" then
        { Process := some 100, err := none, stdout := "hi\n", stderr := "" }
      else
        { Process := none,
          err := some ("fork/exec " ++ cmd.Path ++ ": no such file or directory"),
          stdout := "", stderr := "" }
    kill := fun _ => some "os: process already finished"
    write := fun _ _ => none }

/-- A one-shot shell runner for the shell at `path`. -/
def demoShellRunner (path : String) (keep : Bool) : shellRunner :=
  { name := "sh", shell := path, cmd := none, stdin := none, stdout := none,
    stderr := none, keepProcess := keep }

/-- A world in which nothing has happened yet. -/
def emptyShellWorld : ShellWorld :=
  { captured := [], written := [], ran := [], recorded := [] }


/-- The stdin content carried by a shell-stdin capture event. -/
def Invocation.shellStdin? : Invocation → Option String
  | .CaptureShellStdin stdin => some stdin
  | _ => none

/-- The observers reached by shell-stdin capture events and the content each
received, in order. -/
def shellStdinSeen (tr : CaptureLog) : List (Handle × String) :=
  tr.filterMap (fun e => e.2.shellStdin?.map (fun s => (e.1, s)))

/-! ## Vocabulary of the prefix and TLS properties -/

/-- The remainder of a declaration in the words of the spec: the declaration
without the characters of the prefix `p` at its front. -/
def remainder (vv p : String) : String := ⟨vv.data.drop p.data.length⟩

/-- The path read by a call, if the call reads a file. -/
def Call.reads : Call → Option String
  | .readFile path => some path
  | _ => none

/-- The paths of the files read in a log, oldest first. -/
def readsOf (log : Log) : List String := log.filterMap Call.reads

/-- A world for the gRPC examples: as `demoEnv`, except that the decoders find
`addr` (and nothing else) in the document `addr: localhost:50051`, joining a
directory with the empty path gives the directory, as `filepath.Join` does, and
reading the directory `/work` fails, as `os.ReadFile` does on a directory. -/
def grpcEnv : Env :=
  { demoEnv with
    unmarshalHTTP := fun _ => some (demoHTTPConfig "")
    unmarshalGRPC := fun b =>
      some (demoGRPCConfig (if b = "addr: localhost:50051\n" then "localhost:50051" else ""))
    join := fun a b => if b = "" then a else a ++ "/" ++ b
    readFile := fun p =>
      if p = "/work" then .error "read /work: is a directory"
      else .error ("open " ++ p ++ ": no such file or directory") }
/-! ## Lemmas on Go maps -/

namespace GoMap

variable {α : Type}

theorem find_filter_ne (l : List (String × α)) (k k2 : String) (h : k ≠ k2) :
    (l.filter (fun e => e.1 != k)).find? (fun e => e.1 == k2)
      = l.find? (fun e => e.1 == k2) := by
  induction l with
  | nil => rfl
  | cons e l ih =>
    by_cases hk : e.1 = k
    · have h2 : ¬ e.1 = k2 := fun h3 => h (hk.symm.trans h3)
      simp only [List.filter_cons, List.find?_cons, hk, bne_self_eq_false, Bool.false_eq_true,
        if_false]
      rw [ih]
      have h4 : (k == k2) = false := by simpa using h
      simp [h4]
    · have h1 : (e.1 != k) = true := by simpa using hk
      simp only [List.filter_cons, h1, if_true, List.find?_cons]
      rw [ih]

theorem find_filter_self (l : List (String × α)) (k : String) :
    (l.filter (fun e => e.1 != k)).find? (fun e => e.1 == k) = none := by
  rw [List.find?_eq_none]
  intro e he
  have := (List.mem_filter.1 he).2
  simpa using this

theorem get_set_self (m : GoMap α) (k : String) (v : α) : (m.set k v).get? k = some v := by
  simp [get?, set]

theorem get_set_ne (m : GoMap α) (k k2 : String) (v : α) (h : k ≠ k2) :
    (m.set k v).get? k2 = m.get? k2 := by
  have h2 : (k == k2) = false := by simp [h]
  simp only [get?, set]
  rw [List.find?_cons_of_neg _ (by simp [h2]), find_filter_ne _ _ _ h]

theorem get_delete_self (m : GoMap α) (k : String) : (m.delete k).get? k = none := by
  simp only [get?, delete, find_filter_self, Option.map_none']

theorem get_delete_ne (m : GoMap α) (k k2 : String) (h : k ≠ k2) :
    (m.delete k).get? k2 = m.get? k2 := by
  simp only [get?, delete]
  rw [find_filter_ne _ _ _ h]

theorem get_empty (k : String) : (GoMap.empty : GoMap α).get? k = none := rfl

end GoMap

/-! ## Lemmas on lists -/

theorem foldl_countCustom (l : List (String × Value)) (c : Nat) :
    l.foldl countCustom c
      = c + ((l.map Prod.fst).filter
          (fun k => decide (k ∉ ["test", "dump", "bind", "if", "desc", "loop"]))).length := by
  induction l generalizing c with
  | nil => simp
  | cons kv l ih =>
    rw [List.foldl_cons, ih]
    by_cases h : kv.1 ∈ ["test", "dump", "bind", "if", "desc", "loop"]
    · have h2 : countCustom c kv = c := by
        simp only [List.mem_cons, List.mem_singleton, List.not_mem_nil, or_false] at h
        simp [countCustom, testRunnerKey, dumpRunnerKey, bindRunnerKey, ifSectionKey,
          descSectionKey, loopSectionKey, h]
      rw [h2, List.map_cons, List.filter_cons_of_neg (by rw [decide_eq_true_eq, not_not]; exact h)]
    · have h2 : countCustom c kv = c + 1 := by
        have h3 := h
        simp only [List.mem_cons, List.mem_singleton, List.not_mem_nil, or_false] at h3
        simp [countCustom, testRunnerKey, dumpRunnerKey, bindRunnerKey, ifSectionKey,
          descSectionKey, loopSectionKey, h3]
      rw [h2, List.map_cons, List.filter_cons_of_pos (by exact decide_eq_true h), List.length_cons]
      omega

theorem one_lt_length_iff_of_nodup {β : Type} (l : List β) (h : l.Nodup) :
    1 < l.length ↔ ∃ a b, a ≠ b ∧ a ∈ l ∧ b ∈ l := by
  constructor
  · intro hl
    match l, h, hl with
    | a :: b :: t, h, _ =>
      refine ⟨a, b, ?_, by simp, by simp⟩
      intro hab
      rw [List.nodup_cons] at h
      exact h.1 (by simp [hab])
  · rintro ⟨a, b, hab, ha, hb⟩
    match l, ha, hb with
    | [x], ha, hb =>
      simp at ha hb
      exact absurd (ha.trans hb.symm) hab
    | _ :: _ :: _, _, _ => simp

/-! ## Step-key and runner-key validation -/

/-- C1: `validateStepKeys s` returns an error exactly when `s` is empty or has two
different keys outside `{test, dump, bind, if, desc, loop}`; a map with two
different primary keys is rejected with the concurrency-conflict error, and a map
with one primary key `p` and otherwise only `if`, `desc`, `bind` is accepted. -/
theorem validateStepKeys_error_iff (s : GoMap Value) :
    ((validateStepKeys s).isSome ↔
      (s.len = 0 ∨ ∃ k1 k2, k1 ≠ k2 ∧ k1 ∈ s.keys ∧ k2 ∈ s.keys
        ∧ k1 ∉ ["test", "dump", "bind", "if", "desc", "loop"]
        ∧ k2 ∉ ["test", "dump", "bind", "if", "desc", "loop"]))
    ∧ (∀ k1 k2, k1 ≠ k2 → k1 ∈ s.keys → k2 ∈ s.keys
        → k1 ∉ ["test", "dump", "bind", "if", "desc", "loop"]
        → k2 ∉ ["test", "dump", "bind", "if", "desc", "loop"]
        → validateStepKeys s
            = some "runners that cannot be running at the same time are specified")
    ∧ (∀ p, p ∈ s.keys → (∀ k ∈ s.keys, k = p ∨ k ∈ ["if", "desc", "bind"])
        → validateStepKeys s = none) := by
  have hnd : (s.keys.filter
      (fun k => decide (k ∉ ["test", "dump", "bind", "if", "desc", "loop"]))).Nodup :=
    s.nodup.filter _
  have hcount := foldl_countCustom s.entries 0
  have hiff := one_lt_length_iff_of_nodup _ hnd
  have key : (1 < s.entries.foldl countCustom 0) ↔
      ∃ k1 k2, k1 ≠ k2 ∧ k1 ∈ s.keys ∧ k2 ∈ s.keys
        ∧ k1 ∉ ["test", "dump", "bind", "if", "desc", "loop"]
        ∧ k2 ∉ ["test", "dump", "bind", "if", "desc", "loop"] := by
    rw [hcount, Nat.zero_add]
    change 1 < (s.keys.filter _).length ↔ _
    rw [hiff]
    constructor
    · rintro ⟨a, b, hab, ha, hb⟩
      rw [List.mem_filter] at ha hb
      exact ⟨a, b, hab, ha.1, hb.1, of_decide_eq_true ha.2, of_decide_eq_true hb.2⟩
    · rintro ⟨a, b, hab, ha, hb, ha2, hb2⟩
      exact ⟨a, b, hab, List.mem_filter.2 ⟨ha, decide_eq_true ha2⟩,
        List.mem_filter.2 ⟨hb, decide_eq_true hb2⟩⟩
  refine ⟨?_, ?_, ?_⟩
  · unfold validateStepKeys
    by_cases h0 : s.len = 0
    · simp [h0]
    · simp only [h0, if_false, false_or]
      rw [← key]
      by_cases h1 : 1 < s.entries.foldl countCustom 0
      · simp [h1]
      · simp [h1]
  · intro k1 k2 hne h1 h2 h3 h4
    have hlen : s.len ≠ 0 := by
      intro h0
      have : s.entries = [] := List.length_eq_zero.1 h0
      simp [GoMap.keys, this] at h1
    have hc : 1 < s.entries.foldl countCustom 0 := key.2 ⟨k1, k2, hne, h1, h2, h3, h4⟩
    simp [validateStepKeys, hlen, hc]
  · intro p hp hall
    have hlen : s.len ≠ 0 := by
      intro h0
      have : s.entries = [] := List.length_eq_zero.1 h0
      simp [GoMap.keys, this] at hp
    have hc : ¬ 1 < s.entries.foldl countCustom 0 := by
      rw [key]
      rintro ⟨a, b, hab, ha, hb, ha2, hb2⟩
      have hap : a = p := by
        rcases hall a ha with h | h
        · exact h
        · exfalso; apply ha2
          simp only [List.mem_cons, List.mem_singleton, List.not_mem_nil, or_false] at h ⊢
          tauto
      have hbp : b = p := by
        rcases hall b hb with h | h
        · exact h
        · exfalso; apply hb2
          simp only [List.mem_cons, List.mem_singleton, List.not_mem_nil, or_false] at h ⊢
          tauto
      exact hab (hap.trans hbp.symm)
    simp [validateStepKeys, hlen, hc]

/-- C2: `validateRunnerKey k` returns a "reserved" error exactly for the eight
literals `test`, `dump`, `bind`, `exec`, `include`, `if`, `desc`, `loop`, and
returns no error for every other name. -/
theorem validateRunnerKey_reserved_iff (k : String) :
    ((validateRunnerKey k = some ("runner name '" ++ k ++ "' is reserved for built-in runner")
        ∨ validateRunnerKey k
            = some ("runner name '" ++ k ++ "' is reserved for built-in section"))
      ↔ k ∈ ["test", "dump", "bind", "exec", "include", "if", "desc", "loop"])
    ∧ (validateRunnerKey k = none
      ↔ k ∉ ["test", "dump", "bind", "exec", "include", "if", "desc", "loop"]) := by
  simp only [List.mem_cons, List.mem_singleton, List.not_mem_nil, or_false]
  unfold validateRunnerKey includeRunnerKey testRunnerKey dumpRunnerKey execRunnerKey
    bindRunnerKey ifSectionKey descSectionKey loopSectionKey
  by_cases h1 : k = "include" ∨ k = "test" ∨ k = "dump" ∨ k = "exec" ∨ k = "bind"
  · rw [if_pos h1]
    constructor
    · constructor
      · intro _; tauto
      · intro _; exact Or.inl rfl
    · constructor
      · intro h; exact absurd h (by simp)
      · intro h; exact absurd h1 (by tauto)
  · rw [if_neg h1]
    by_cases h2 : k = "if" ∨ k = "desc" ∨ k = "loop"
    · rw [if_pos h2]
      constructor
      · constructor
        · intro _; tauto
        · intro _; exact Or.inr rfl
      · constructor
        · intro h; exact absurd h (by simp)
        · intro h; exact absurd h2 (by tauto)
    · rw [if_neg h2]
      constructor
      · constructor
        · intro h; rcases h with h | h <;> exact absurd h (by simp)
        · intro h; exfalso; tauto
      · constructor
        · intro _; tauto
        · intro _; rfl

/-! ## Bare-string declarations -/

/-- C3: for a bare-string declaration `parseRunner` makes exactly one call, the
constructor of the variant that the scheme prefix selects in the fixed order
(so no structured-schema detector is invoked), and when that constructor succeeds
no error is returned, the name is a key of that variant's map, and nothing else of
the book changes apart from the deleted deferred error of the name. -/
theorem parseRunner_string_dispatch (env : Env) (k vv : String) (bk : book) (log : Log) :
    ∃ c, (parseRunner env k (Value.str vv) bk log).2.2 = log ++ [c]
      ∧ c.constructs = some (schemeVariant vv)
      ∧ c.detects = none
      ∧ (c.succeeds env = true →
          (parseRunner env k (Value.str vv) bk log).1 = none
          ∧ registered (parseRunner env k (Value.str vv) bk log).2.1 (schemeVariant vv) k = true
          ∧ clearVariant (parseRunner env k (Value.str vv) bk log).2.1 (schemeVariant vv)
              = clearVariant { bk with runnerErrs := bk.runnerErrs.delete k }
                  (schemeVariant vv)) := by
  simp only [parseRunner]
  unfold parseRunnerString schemeVariant
  by_cases h1 : (HasPrefix vv "https://" || HasPrefix vv "http://") = true
  · have h1p : HasPrefix vv "https://" = true ∨ HasPrefix vv "http://" = true := by
      simpa using h1
    rw [if_pos h1, if_pos h1p]
    refine ⟨Call.newHTTPRunner k vv, ?_, rfl, rfl, ?_⟩
    · cases h : env.newHTTPRunner k vv <;> rfl
    · intro hs
      cases h : env.newHTTPRunner k vv with
      | error e => simp [Call.succeeds, isOk, h] at hs
      | ok r =>
        refine ⟨rfl, ?_, rfl⟩
        simp [registered, GoMap.contains, GoMap.get_set_self]
  · have h1p : ¬ (HasPrefix vv "https://" = true ∨ HasPrefix vv "http://" = true) := by
      simpa using h1
    rw [if_neg h1, if_neg h1p]
    by_cases h2 : HasPrefix vv "grpc://" = true
    · rw [if_pos h2, if_pos h2]
      dsimp only
      refine ⟨Call.newGrpcRunner k (TrimPrefix vv "grpc://"), ?_, rfl, rfl, ?_⟩
      · cases h : env.newGrpcRunner k (TrimPrefix vv "grpc://") <;> simp only [h]
      · intro hs
        cases h : env.newGrpcRunner k (TrimPrefix vv "grpc://") with
        | error e => simp [Call.succeeds, isOk, h] at hs
        | ok r =>
          refine ⟨rfl, ?_, rfl⟩
          simp [registered, GoMap.contains, GoMap.get_set_self]
    · rw [if_neg h2, if_neg h2]
      by_cases h3 : (HasPrefix vv "cdp://" || HasPrefix vv "chrome://") = true
      · have h3p : HasPrefix vv "cdp://" = true ∨ HasPrefix vv "chrome://" = true := by
          simpa using h3
        rw [if_pos h3, if_pos h3p]
        dsimp only
        refine ⟨Call.newCDPRunner k (TrimPrefix (TrimPrefix vv "cdp://") "chrome://"),
          ?_, rfl, rfl, ?_⟩
        · cases h : env.newCDPRunner k (TrimPrefix (TrimPrefix vv "cdp://") "chrome://")
            <;> simp only [h]
        · intro hs
          cases h : env.newCDPRunner k (TrimPrefix (TrimPrefix vv "cdp://") "chrome://") with
          | error e => simp [Call.succeeds, isOk, h] at hs
          | ok r =>
            refine ⟨rfl, ?_, rfl⟩
            simp [registered, GoMap.contains, GoMap.get_set_self]
      · have h3p : ¬ (HasPrefix vv "cdp://" = true ∨ HasPrefix vv "chrome://" = true) := by
          simpa using h3
        rw [if_neg h3, if_neg h3p]
        by_cases h4 : HasPrefix vv "ssh://" = true
        · rw [if_pos h4, if_pos h4]
          dsimp only
          refine ⟨Call.newSSHRunner k (TrimPrefix vv "ssh://"), ?_, rfl, rfl, ?_⟩
          · cases h : env.newSSHRunner k (TrimPrefix vv "ssh://") <;> simp only [h]
          · intro hs
            cases h : env.newSSHRunner k (TrimPrefix vv "ssh://") with
            | error e => simp [Call.succeeds, isOk, h] at hs
            | ok r =>
              refine ⟨rfl, ?_, rfl⟩
              simp [registered, GoMap.contains, GoMap.get_set_self]
        · rw [if_neg h4, if_neg h4]
          refine ⟨Call.newDBRunner k vv, ?_, rfl, rfl, ?_⟩
          · cases h : env.newDBRunner k vv <;> rfl
          · intro hs
            cases h : env.newDBRunner k vv with
            | error e => simp [Call.succeeds, isOk, h] at hs
            | ok r =>
              refine ⟨rfl, ?_, rfl⟩
              simp [registered, GoMap.contains, GoMap.get_set_self]

/-! ## Structured declarations: the four detectors -/

theorem generateOperatorRoot_congr (env : Env) (bk bk2 : book) (h : bk.path = bk2.path) :
    generateOperatorRoot env bk = generateOperatorRoot env bk2 := by
  simp [generateOperatorRoot, h]

theorem parseHTTP_fst (env : Env) (k : String) (b : Bytes) (bk bk2 : book) (log log2 : Log)
    (h : bk.path = bk2.path) :
    (parseHTTPRunnerWithDetailed env k b bk log).1
      = (parseHTTPRunnerWithDetailed env k b bk2 log2).1 := by
  unfold parseHTTPRunnerWithDetailed
  simp only [generateOperatorRoot_congr env bk bk2 h]
  repeat' split
  all_goals rfl

theorem parseGRPC_fst (env : Env) (k : String) (b : Bytes) (bk bk2 : book) (log log2 : Log)
    (h : bk.path = bk2.path) :
    (parseGRPCRunnerWithDetailed env k b bk log).1
      = (parseGRPCRunnerWithDetailed env k b bk2 log2).1 := by
  unfold parseGRPCRunnerWithDetailed
  simp only [generateOperatorRoot_congr env bk bk2 h]
  repeat' split
  all_goals rfl

theorem parseSSH_fst (env : Env) (k : String) (b : Bytes) (bk bk2 : book) (log log2 : Log)
    (h : bk.path = bk2.path) :
    (parseSSHRunnerWithDetailed env k b bk log).1
      = (parseSSHRunnerWithDetailed env k b bk2 log2).1 := by
  unfold parseSSHRunnerWithDetailed
  simp only [generateOperatorRoot_congr env bk bk2 h]
  repeat' split
  all_goals rfl

theorem parseShell_fst (env : Env) (k : String) (b : Bytes) (bk bk2 : book) (log log2 : Log) :
    (parseShellRunnerWithDetailed env k b bk log).1
      = (parseShellRunnerWithDetailed env k b bk2 log2).1 := by
  unfold parseShellRunnerWithDetailed
  repeat' split
  all_goals rfl

theorem parseHTTP_shape (env : Env) (k : String) (b : Bytes) (bk : book) (log : Log) :
    detectorsOf (parseHTTPRunnerWithDetailed env k b bk log).2.2
        = detectorsOf log ++ [RunnerVariant.HTTP]
      ∧ clearVariant (parseHTTPRunnerWithDetailed env k b bk log).2.1 RunnerVariant.HTTP
          = clearVariant bk RunnerVariant.HTTP
      ∧ ((parseHTTPRunnerWithDetailed env k b bk log).1 = (true, none)
            ∧ registered (parseHTTPRunnerWithDetailed env k b bk log).2.1
                RunnerVariant.HTTP k = true
          ∨ (parseHTTPRunnerWithDetailed env k b bk log).1.1 = false
            ∧ (parseHTTPRunnerWithDetailed env k b bk log).2.1 = bk) := by
  unfold parseHTTPRunnerWithDetailed
  dsimp only
  repeat' split
  all_goals
    simp [detectorsOf, Call.detects, clearVariant, registered, GoMap.contains,
      GoMap.get_set_self]

theorem parseSSH_shape (env : Env) (k : String) (b : Bytes) (bk : book) (log : Log) :
    detectorsOf (parseSSHRunnerWithDetailed env k b bk log).2.2
        = detectorsOf log ++ [RunnerVariant.SSH]
      ∧ clearVariant (parseSSHRunnerWithDetailed env k b bk log).2.1 RunnerVariant.SSH
          = clearVariant bk RunnerVariant.SSH
      ∧ ((parseSSHRunnerWithDetailed env k b bk log).1 = (true, none)
            ∧ registered (parseSSHRunnerWithDetailed env k b bk log).2.1
                RunnerVariant.SSH k = true
          ∨ (parseSSHRunnerWithDetailed env k b bk log).1.1 = false
            ∧ (parseSSHRunnerWithDetailed env k b bk log).2.1 = bk) := by
  unfold parseSSHRunnerWithDetailed
  dsimp only
  repeat' split
  all_goals
    simp [detectorsOf, Call.detects, clearVariant, registered, GoMap.contains,
      GoMap.get_set_self]

theorem parseShell_shape (env : Env) (k : String) (b : Bytes) (bk : book) (log : Log) :
    detectorsOf (parseShellRunnerWithDetailed env k b bk log).2.2
        = detectorsOf log ++ [RunnerVariant.Shell]
      ∧ clearVariant (parseShellRunnerWithDetailed env k b bk log).2.1 RunnerVariant.Shell
          = clearVariant bk RunnerVariant.Shell
      ∧ ((parseShellRunnerWithDetailed env k b bk log).1 = (true, none)
            ∧ registered (parseShellRunnerWithDetailed env k b bk log).2.1
                RunnerVariant.Shell k = true
          ∨ (parseShellRunnerWithDetailed env k b bk log).1.1 = false
            ∧ (parseShellRunnerWithDetailed env k b bk log).2.1 = bk) := by
  unfold parseShellRunnerWithDetailed
  dsimp only
  repeat' split
  all_goals
    simp [detectorsOf, Call.detects, clearVariant, registered, GoMap.contains,
      GoMap.get_set_self]

theorem grpcTLSItem_detectors (env : Env) (root : String) (mem : Option Bytes)
    (path : String) :
    (grpcTLSItem env root mem path).2.filterMap Call.detects = [] := by
  unfold grpcTLSItem
  repeat' split
  all_goals simp [Call.detects]

theorem detectorsOf_append (log calls : Log) :
    detectorsOf (log ++ calls) = detectorsOf log ++ calls.filterMap Call.detects := by
  simp [detectorsOf]

theorem parseGRPC_shape (env : Env) (k : String) (b : Bytes) (bk : book) (log : Log) :
    detectorsOf (parseGRPCRunnerWithDetailed env k b bk log).2.2
        = detectorsOf log ++ [RunnerVariant.GRPC]
      ∧ clearVariant (parseGRPCRunnerWithDetailed env k b bk log).2.1 RunnerVariant.GRPC
          = clearVariant bk RunnerVariant.GRPC
      ∧ ((parseGRPCRunnerWithDetailed env k b bk log).1 = (true, none)
            ∧ registered (parseGRPCRunnerWithDetailed env k b bk log).2.1
                RunnerVariant.GRPC k = true
          ∨ (parseGRPCRunnerWithDetailed env k b bk log).1.1 = false
            ∧ (parseGRPCRunnerWithDetailed env k b bk log).2.1 = bk) := by
  have hd : detectorsOf (log ++ [Call.parseGRPCRunnerWithDetailed k])
      = detectorsOf log ++ [RunnerVariant.GRPC] := by
    simp [detectorsOf, Call.detects]
  unfold parseGRPCRunnerWithDetailed
  dsimp only
  cases env.unmarshalGRPC b with
  | none => exact ⟨hd, rfl, Or.inr ⟨rfl, rfl⟩⟩
  | some c =>
    dsimp only
    by_cases h2 : c.Addr = ""
    · rw [if_pos h2]; exact ⟨hd, rfl, Or.inr ⟨rfl, rfl⟩⟩
    · rw [if_neg h2]
      cases generateOperatorRoot env bk with
      | error e => exact ⟨hd, rfl, Or.inr ⟨rfl, rfl⟩⟩
      | ok root =>
        dsimp only
        have hd2 : detectorsOf (log ++ [Call.parseGRPCRunnerWithDetailed k]
            ++ [Call.newGrpcRunner k c.Addr]) = detectorsOf log ++ [RunnerVariant.GRPC] := by
          simp [detectorsOf, Call.detects]
        cases env.newGrpcRunner k c.Addr with
        | error e => exact ⟨hd2, rfl, Or.inr ⟨rfl, rfl⟩⟩
        | ok r =>
          dsimp only
          have e1 := grpcTLSItem_detectors env root c.cacert c.CACert
          have e2 := grpcTLSItem_detectors env root c.cert c.Cert
          have e3 := grpcTLSItem_detectors env root c.key c.Key
          generalize grpcTLSItem env root c.cacert c.CACert = g1 at e1 ⊢
          generalize grpcTLSItem env root c.cert c.Cert = g2 at e2 ⊢
          generalize grpcTLSItem env root c.key c.Key = g3 at e3 ⊢
          obtain ⟨r1, c1⟩ := g1
          obtain ⟨r2, c2⟩ := g2
          obtain ⟨r3, c3⟩ := g3
          dsimp only at e1 e2 e3
          cases r1 with
          | error e =>
            refine ⟨?_, rfl, Or.inr ⟨rfl, rfl⟩⟩
            show detectorsOf (_ ++ c1) = _
            rw [detectorsOf_append, hd2, e1, List.append_nil]
          | ok b1 =>
            dsimp only
            cases r2 with
            | error e =>
              refine ⟨?_, rfl, Or.inr ⟨rfl, rfl⟩⟩
              show detectorsOf (_ ++ c1 ++ c2) = _
              rw [detectorsOf_append, detectorsOf_append, hd2, e1, e2, List.append_nil,
                List.append_nil]
            | ok b2 =>
              dsimp only
              cases r3 with
              | error e =>
                refine ⟨?_, rfl, Or.inr ⟨rfl, rfl⟩⟩
                show detectorsOf (_ ++ c1 ++ c2 ++ c3) = _
                rw [detectorsOf_append, detectorsOf_append, detectorsOf_append, hd2, e1, e2,
                  e3, List.append_nil, List.append_nil, List.append_nil]
              | ok b3 =>
                refine ⟨?_, rfl, Or.inl ⟨rfl, ?_⟩⟩
                · show detectorsOf (_ ++ c1 ++ c2 ++ c3) = _
                  rw [detectorsOf_append, detectorsOf_append, detectorsOf_append, hd2, e1, e2,
                    e3, List.append_nil, List.append_nil, List.append_nil]
                · simp [registered, GoMap.contains, GoMap.get_set_self]

theorem parseHTTP_endpoint (env : Env) (k : String) (b : Bytes) (bk : book) (log : Log)
    (c : httpRunnerConfig) (hc : env.unmarshalHTTP b = some c) (he : c.Endpoint ≠ "") :
    (parseHTTPRunnerWithDetailed env k b bk log).1 ≠ (false, none) := by
  unfold parseHTTPRunnerWithDetailed
  rw [hc]
  dsimp only
  rw [if_neg he]
  repeat' split
  all_goals simp

theorem clearVariant_path (bk bk2 : book) (var : RunnerVariant)
    (h : clearVariant bk var = clearVariant bk2 var) : bk.path = bk2.path := by
  have h2 := congrArg book.path h
  cases var <;> exact h2

theorem clearVariant_runnerErrs (bk bk2 : book) (var : RunnerVariant)
    (h : clearVariant bk var = clearVariant bk2 var) : bk.runnerErrs = bk2.runnerErrs := by
  have h2 := congrArg book.runnerErrs h
  cases var <;> exact h2

theorem clearVariant_runners (bk bk2 : book) (var : RunnerVariant)
    (h : clearVariant bk var = clearVariant bk2 var) : bk.runners = bk2.runners := by
  have h2 := congrArg book.runners h
  cases var <;> exact h2

theorem clearVariant_grpc_of_http (bk bk2 : book)
    (h : clearVariant bk RunnerVariant.HTTP = clearVariant bk2 RunnerVariant.HTTP) :
    bk.grpcRunners = bk2.grpcRunners := by
  have h2 := congrArg book.grpcRunners h
  exact h2

/-- C4: for a structured mapping that serialises to `tmp`, the detectors are
entered in the order HTTP, gRPC, SSH, Shell. The first detector whose verdict is
`(true, nil)` ends the detection: `parseRunner` returns no error, exactly the
detectors up to that one were entered, the name is a key of that variant's map and
the book is otherwise as before (apart from the deleted deferred error of the
name). In particular, when the HTTP schema finds a non-empty `endpoint` and the
gRPC schema a non-empty `addr`, only the HTTP detector is entered, the gRPC runner
map is unchanged, and a return without error leaves the name in the HTTP map. -/
theorem parseRunner_map_priority (env : Env) (k : String) (vv : List (String × Value))
    (tmp : Bytes) (bk : book) (log : Log) (hm : env.yamlMarshal vv = Except.ok tmp) :
    ((parseHTTPRunnerWithDetailed env k tmp
          { bk with runnerErrs := bk.runnerErrs.delete k } log).1 = (true, none) →
        (parseRunner env k (Value.map vv) bk log).1 = none
        ∧ detectorsOf (parseRunner env k (Value.map vv) bk log).2.2
            = detectorsOf log ++ [RunnerVariant.HTTP]
        ∧ registered (parseRunner env k (Value.map vv) bk log).2.1 RunnerVariant.HTTP k = true
        ∧ clearVariant (parseRunner env k (Value.map vv) bk log).2.1 RunnerVariant.HTTP
            = clearVariant { bk with runnerErrs := bk.runnerErrs.delete k } RunnerVariant.HTTP)
    ∧ ((parseHTTPRunnerWithDetailed env k tmp
          { bk with runnerErrs := bk.runnerErrs.delete k } log).1 = (false, none) →
        (parseGRPCRunnerWithDetailed env k tmp
          { bk with runnerErrs := bk.runnerErrs.delete k } log).1 = (true, none) →
        (parseRunner env k (Value.map vv) bk log).1 = none
        ∧ detectorsOf (parseRunner env k (Value.map vv) bk log).2.2
            = detectorsOf log ++ [RunnerVariant.HTTP, RunnerVariant.GRPC]
        ∧ registered (parseRunner env k (Value.map vv) bk log).2.1 RunnerVariant.GRPC k = true
        ∧ clearVariant (parseRunner env k (Value.map vv) bk log).2.1 RunnerVariant.GRPC
            = clearVariant { bk with runnerErrs := bk.runnerErrs.delete k } RunnerVariant.GRPC)
    ∧ ((parseHTTPRunnerWithDetailed env k tmp
          { bk with runnerErrs := bk.runnerErrs.delete k } log).1 = (false, none) →
        (parseGRPCRunnerWithDetailed env k tmp
          { bk with runnerErrs := bk.runnerErrs.delete k } log).1 = (false, none) →
        (parseSSHRunnerWithDetailed env k tmp
          { bk with runnerErrs := bk.runnerErrs.delete k } log).1 = (true, none) →
        (parseRunner env k (Value.map vv) bk log).1 = none
        ∧ detectorsOf (parseRunner env k (Value.map vv) bk log).2.2
            = detectorsOf log ++ [RunnerVariant.HTTP, RunnerVariant.GRPC, RunnerVariant.SSH]
        ∧ registered (parseRunner env k (Value.map vv) bk log).2.1 RunnerVariant.SSH k = true
        ∧ clearVariant (parseRunner env k (Value.map vv) bk log).2.1 RunnerVariant.SSH
            = clearVariant { bk with runnerErrs := bk.runnerErrs.delete k } RunnerVariant.SSH)
    ∧ ((parseHTTPRunnerWithDetailed env k tmp
          { bk with runnerErrs := bk.runnerErrs.delete k } log).1 = (false, none) →
        (parseGRPCRunnerWithDetailed env k tmp
          { bk with runnerErrs := bk.runnerErrs.delete k } log).1 = (false, none) →
        (parseSSHRunnerWithDetailed env k tmp
          { bk with runnerErrs := bk.runnerErrs.delete k } log).1 = (false, none) →
        (parseShellRunnerWithDetailed env k tmp
          { bk with runnerErrs := bk.runnerErrs.delete k } log).1 = (true, none) →
        (parseRunner env k (Value.map vv) bk log).1 = none
        ∧ detectorsOf (parseRunner env k (Value.map vv) bk log).2.2
            = detectorsOf log
                ++ [RunnerVariant.HTTP, RunnerVariant.GRPC, RunnerVariant.SSH,
                    RunnerVariant.Shell]
        ∧ registered (parseRunner env k (Value.map vv) bk log).2.1 RunnerVariant.Shell k = true
        ∧ clearVariant (parseRunner env k (Value.map vv) bk log).2.1 RunnerVariant.Shell
            = clearVariant { bk with runnerErrs := bk.runnerErrs.delete k } RunnerVariant.Shell)
    ∧ (∀ c g, env.unmarshalHTTP tmp = some c → c.Endpoint ≠ "" →
        env.unmarshalGRPC tmp = some g → g.Addr ≠ "" →
        detectorsOf (parseRunner env k (Value.map vv) bk log).2.2
            = detectorsOf log ++ [RunnerVariant.HTTP]
        ∧ (parseRunner env k (Value.map vv) bk log).2.1.grpcRunners = bk.grpcRunners
        ∧ ((parseRunner env k (Value.map vv) bk log).1 = none →
            registered (parseRunner env k (Value.map vv) bk log).2.1 RunnerVariant.HTTP k
              = true)) := by
  simp only [parseRunner]
  unfold parseRunnerMap
  rw [hm]
  dsimp only
  generalize hbk : ({ bk with runnerErrs := bk.runnerErrs.delete k } : book) = bk0
  have hgr : bk0.grpcRunners = bk.grpcRunners := by rw [← hbk]
  have sH := parseHTTP_shape env k tmp bk0 log
  have nH := parseHTTP_endpoint env k tmp bk0 log
  generalize parseHTTPRunnerWithDetailed env k tmp bk0 log = rH at sH nH ⊢
  obtain ⟨⟨dH, eH⟩, bk1, log1⟩ := rH
  dsimp only at sH nH
  obtain ⟨sH1, sH2, sH3⟩ := sH
  cases eH with
  | some e =>
    cases dH <;>
    · refine ⟨?_, ?_, ?_, ?_, ?_⟩
      · intro h; simp at h
      · intro h; simp at h
      · intro h; simp at h
      · intro h; simp at h
      · intro c g hc he _ _
        refine ⟨sH1, ?_, ?_⟩
        · exact (clearVariant_grpc_of_http _ _ sH2).trans hgr
        · intro h; simp at h
  | none =>
    cases dH with
    | true =>
      have hreg : registered bk1 RunnerVariant.HTTP k = true := by
        rcases sH3 with h | h
        · exact h.2
        · simp at h
      refine ⟨?_, ?_, ?_, ?_, ?_⟩
      · intro _; exact ⟨rfl, sH1, hreg, sH2⟩
      · intro h; simp at h
      · intro h; simp at h
      · intro h; simp at h
      · intro c g hc he _ _
        exact ⟨sH1, (clearVariant_grpc_of_http _ _ sH2).trans hgr, fun _ => hreg⟩
    | false =>
      have hb1 : bk1 = bk0 := by
        rcases sH3 with h | h
        · simp at h
        · exact h.2
      subst hb1
      dsimp only
      have sG := parseGRPC_shape env k tmp bk1 log1
      have fG := parseGRPC_fst env k tmp bk1 bk1 log log1 rfl
      generalize parseGRPCRunnerWithDetailed env k tmp bk1 log1 = rG at sG fG ⊢
      obtain ⟨⟨dG, eG⟩, bk2, log2⟩ := rG
      dsimp only at sG fG
      obtain ⟨sG1, sG2, sG3⟩ := sG
      rw [sH1] at sG1
      simp only [fG]
      have sS0 := parseSSH_shape env k tmp bk1 log2
      have fS0 := parseSSH_fst env k tmp bk1 bk1 log log2 rfl
      have sL0 := parseShell_shape env k tmp bk1
      have fL0 := parseShell_fst env k tmp bk1 bk1 log
      refine ⟨fun h => by simp at h, ?_, ?_, ?_, fun c g hc he _ _ => absurd rfl (nH c hc he)⟩
      · intro _ h
        obtain ⟨rfl, rfl⟩ := Prod.mk.inj h
        have hreg : registered bk2 RunnerVariant.GRPC k = true := by
          rcases sG3 with h | h
          · exact h.2
          · simp at h
        exact ⟨rfl, by simpa using sG1, hreg, sG2⟩
      · intro _ h
        obtain ⟨rfl, rfl⟩ := Prod.mk.inj h
        have hb2 : bk2 = bk1 := by
          rcases sG3 with h | h
          · simp at h
          · exact h.2
        subst hb2
        dsimp only
        generalize parseSSHRunnerWithDetailed env k tmp bk2 log2 = rS at sS0 fS0 ⊢
        obtain ⟨⟨dS, eS⟩, bk3, log3⟩ := rS
        dsimp only at sS0 fS0
        obtain ⟨sS1, sS2, sS3⟩ := sS0
        rw [sG1] at sS1
        simp only [fS0]
        intro h
        obtain ⟨rfl, rfl⟩ := Prod.mk.inj h
        have hreg : registered bk3 RunnerVariant.SSH k = true := by
          rcases sS3 with h | h
          · exact h.2
          · simp at h
        exact ⟨rfl, by simpa using sS1, hreg, sS2⟩
      · intro _ h
        obtain ⟨rfl, rfl⟩ := Prod.mk.inj h
        have hb2 : bk2 = bk1 := by
          rcases sG3 with h | h
          · simp at h
          · exact h.2
        subst hb2
        dsimp only
        generalize parseSSHRunnerWithDetailed env k tmp bk2 log2 = rS at sS0 fS0 ⊢
        obtain ⟨⟨dS, eS⟩, bk3, log3⟩ := rS
        dsimp only at sS0 fS0
        obtain ⟨sS1, sS2, sS3⟩ := sS0
        rw [sG1] at sS1
        simp only [fS0]
        intro h
        obtain ⟨rfl, rfl⟩ := Prod.mk.inj h
        have hb3 : bk3 = bk2 := by
          rcases sS3 with h | h
          · simp at h
          · exact h.2
        subst hb3
        dsimp only
        have sL := sL0 log3
        have fL := fL0 log3
        generalize parseShellRunnerWithDetailed env k tmp bk3 log3 = rL at sL fL ⊢
        obtain ⟨⟨dL, eL⟩, bk4, log4⟩ := rL
        dsimp only at sL fL
        obtain ⟨sL1, sL2, sL3⟩ := sL
        rw [sS1] at sL1
        simp only [fL]
        intro h
        obtain ⟨rfl, rfl⟩ := Prod.mk.inj h
        have hreg : registered bk4 RunnerVariant.Shell k = true := by
          rcases sL3 with h | h
          · exact h.2
          · simp at h
        exact ⟨rfl, by simpa using sL1, hreg, sL2⟩

/-- Witness for C4: in `demoEnv` the mapping with `endpoint` and `addr` enters the
HTTP detector only, leaves the gRPC map as it was and registers `req` as an HTTP
runner. -/
theorem parseRunner_map_priority_witness :
    demoEnv.yamlMarshal
        [("endpoint", Value.str "https://example.com"), ("addr", Value.str "localhost:50051")]
      = Except.ok "endpoint: https://example.com\naddr: localhost:50051\n"
    ∧ detectorsOf (parseRunner demoEnv "req"
        (Value.map [("endpoint", Value.str "https://example.com"),
          ("addr", Value.str "localhost:50051")]) newBook []).2.2 = [RunnerVariant.HTTP]
    ∧ (parseRunner demoEnv "req"
        (Value.map [("endpoint", Value.str "https://example.com"),
          ("addr", Value.str "localhost:50051")]) newBook []).2.1.grpcRunners
        = newBook.grpcRunners
    ∧ registered (parseRunner demoEnv "req"
        (Value.map [("endpoint", Value.str "https://example.com"),
          ("addr", Value.str "localhost:50051")]) newBook []).2.1 RunnerVariant.HTTP "req"
        = true :=
  have h := (parseRunner_map_priority demoEnv "req"
    [("endpoint", Value.str "https://example.com"), ("addr", Value.str "localhost:50051")]
    "endpoint: https://example.com\naddr: localhost:50051\n" newBook [] rfl).2.2.2.2
    (demoHTTPConfig "https://example.com") (demoGRPCConfig "localhost:50051")
    rfl (by decide) rfl (by decide)
  ⟨rfl, h.1, h.2.1, h.2.2 (by decide)⟩

/-! ## Frame and determinacy of `parseRunner` -/

theorem parseRunnerString_fst (env : Env) (k vv : String) (bk bk2 : book) (log log2 : Log) :
    (parseRunnerString env k vv bk log).1 = (parseRunnerString env k vv bk2 log2).1 := by
  unfold parseRunnerString
  dsimp only
  repeat' split
  all_goals rfl

theorem parseRunnerString_shape (env : Env) (k vv : String) (bk : book) (log : Log) :
    ((parseRunnerString env k vv bk log).1 = none
        ∧ ∃ var, registered (parseRunnerString env k vv bk log).2.1 var k = true
            ∧ clearVariant (parseRunnerString env k vv bk log).2.1 var = clearVariant bk var)
      ∨ ((∃ e, (parseRunnerString env k vv bk log).1 = some e)
        ∧ (parseRunnerString env k vv bk log).2.1 = bk) := by
  unfold parseRunnerString
  dsimp only
  split
  · split
    · exact Or.inr ⟨⟨_, rfl⟩, rfl⟩
    · exact Or.inl ⟨rfl, RunnerVariant.HTTP,
        by simp [registered, GoMap.contains, GoMap.get_set_self], rfl⟩
  · split
    · split
      · exact Or.inr ⟨⟨_, rfl⟩, rfl⟩
      · exact Or.inl ⟨rfl, RunnerVariant.GRPC,
          by simp [registered, GoMap.contains, GoMap.get_set_self], rfl⟩
    · split
      · split
        · exact Or.inr ⟨⟨_, rfl⟩, rfl⟩
        · exact Or.inl ⟨rfl, RunnerVariant.BrowserControl,
            by simp [registered, GoMap.contains, GoMap.get_set_self], rfl⟩
      · split
        · split
          · exact Or.inr ⟨⟨_, rfl⟩, rfl⟩
          · exact Or.inl ⟨rfl, RunnerVariant.SSH,
              by simp [registered, GoMap.contains, GoMap.get_set_self], rfl⟩
        · split
          · exact Or.inr ⟨⟨_, rfl⟩, rfl⟩
          · exact Or.inl ⟨rfl, RunnerVariant.Database,
              by simp [registered, GoMap.contains, GoMap.get_set_self], rfl⟩


theorem parseRunnerMap_shape (env : Env) (k : String) (vv : List (String × Value))
    (bk : book) (log : Log) :
    ((parseRunnerMap env k vv bk log).1 = none
        ∧ ∃ var, registered (parseRunnerMap env k vv bk log).2.1 var k = true
            ∧ clearVariant (parseRunnerMap env k vv bk log).2.1 var = clearVariant bk var)
      ∨ ((∃ e, (parseRunnerMap env k vv bk log).1 = some e)
        ∧ (parseRunnerMap env k vv bk log).2.1 = bk) := by
  unfold parseRunnerMap
  cases env.yamlMarshal vv with
  | error e => exact Or.inr ⟨⟨_, rfl⟩, rfl⟩
  | ok tmp =>
    dsimp only
    have sH := parseHTTP_shape env k tmp bk log
    generalize parseHTTPRunnerWithDetailed env k tmp bk log = rH at sH ⊢
    obtain ⟨⟨dH, eH⟩, bk1, log1⟩ := rH
    obtain ⟨-, sH2, sH3⟩ := sH
    dsimp only at sH2 sH3
    rcases sH3 with ⟨h, hreg⟩ | ⟨h, hb⟩
    · obtain ⟨rfl, rfl⟩ := Prod.mk.inj h
      exact Or.inl ⟨rfl, _, hreg, sH2⟩
    · subst h; subst hb
      cases eH with
      | some e => exact Or.inr ⟨⟨_, rfl⟩, rfl⟩
      | none =>
        dsimp only
        have sG := parseGRPC_shape env k tmp bk1 log1
        generalize parseGRPCRunnerWithDetailed env k tmp bk1 log1 = rG at sG ⊢
        obtain ⟨⟨dG, eG⟩, bk2, log2⟩ := rG
        obtain ⟨-, sG2, sG3⟩ := sG
        dsimp only at sG2 sG3
        rcases sG3 with ⟨h, hreg⟩ | ⟨h, hb⟩
        · obtain ⟨rfl, rfl⟩ := Prod.mk.inj h
          exact Or.inl ⟨rfl, _, hreg, sG2⟩
        · subst h; subst hb
          cases eG with
          | some e => exact Or.inr ⟨⟨_, rfl⟩, rfl⟩
          | none =>
            dsimp only
            have sS := parseSSH_shape env k tmp bk2 log2
            generalize parseSSHRunnerWithDetailed env k tmp bk2 log2 = rS at sS ⊢
            obtain ⟨⟨dS, eS⟩, bk3, log3⟩ := rS
            obtain ⟨-, sS2, sS3⟩ := sS
            dsimp only at sS2 sS3
            rcases sS3 with ⟨h, hreg⟩ | ⟨h, hb⟩
            · obtain ⟨rfl, rfl⟩ := Prod.mk.inj h
              exact Or.inl ⟨rfl, _, hreg, sS2⟩
            · subst h; subst hb
              cases eS with
              | some e => exact Or.inr ⟨⟨_, rfl⟩, rfl⟩
              | none =>
                dsimp only
                have sL := parseShell_shape env k tmp bk3 log3
                generalize parseShellRunnerWithDetailed env k tmp bk3 log3 = rL at sL ⊢
                obtain ⟨⟨dL, eL⟩, bk4, log4⟩ := rL
                obtain ⟨-, sL2, sL3⟩ := sL
                dsimp only at sL2 sL3
                rcases sL3 with ⟨h, hreg⟩ | ⟨h, hb⟩
                · obtain ⟨rfl, rfl⟩ := Prod.mk.inj h
                  exact Or.inl ⟨rfl, _, hreg, sL2⟩
                · subst h; subst hb
                  cases eL with
                  | some e => exact Or.inr ⟨⟨_, rfl⟩, rfl⟩
                  | none => exact Or.inr ⟨⟨_, rfl⟩, rfl⟩

theorem parseRunnerMap_fst (env : Env) (k : String) (vv : List (String × Value))
    (bk bk2 : book) (log log2 : Log) (hp : bk.path = bk2.path) :
    (parseRunnerMap env k vv bk log).1 = (parseRunnerMap env k vv bk2 log2).1 := by
  unfold parseRunnerMap
  cases env.yamlMarshal vv with
  | error e => rfl
  | ok tmp =>
    dsimp only
    have f := parseHTTP_fst env k tmp bk bk2 log log2 hp
    have s := (parseHTTP_shape env k tmp bk log).2.2
    have s2 := (parseHTTP_shape env k tmp bk2 log2).2.2
    generalize parseHTTPRunnerWithDetailed env k tmp bk log = r at f s ⊢
    generalize parseHTTPRunnerWithDetailed env k tmp bk2 log2 = r2 at f s2 ⊢
    obtain ⟨⟨d, e⟩, b1, l1⟩ := r
    obtain ⟨⟨d2, e2⟩, b2, l2⟩ := r2
    dsimp only at f s s2
    obtain ⟨rfl, rfl⟩ := Prod.mk.inj f
    cases e with
    | some e => cases d <;> rfl
    | none =>
      cases d with
      | true => rfl
      | false =>
        have hb1 : b1 = bk := by
          rcases s with h | h
          · simp at h
          · exact h.2
        have hb2 : b2 = bk2 := by
          rcases s2 with h | h
          · simp at h
          · exact h.2
        subst hb1; subst hb2
        clear s s2 f
        dsimp only
        have f := parseGRPC_fst env k tmp b1 b2 l1 l2 hp
        have s := (parseGRPC_shape env k tmp b1 l1).2.2
        have s2 := (parseGRPC_shape env k tmp b2 l2).2.2
        generalize parseGRPCRunnerWithDetailed env k tmp b1 l1 = r at f s ⊢
        generalize parseGRPCRunnerWithDetailed env k tmp b2 l2 = r2 at f s2 ⊢
        obtain ⟨⟨d, e⟩, b3, l3⟩ := r
        obtain ⟨⟨d2, e2⟩, b4, l4⟩ := r2
        dsimp only at f s s2
        obtain ⟨rfl, rfl⟩ := Prod.mk.inj f
        cases e with
        | some e => cases d <;> rfl
        | none =>
          cases d with
          | true => rfl
          | false =>
            have hb3 : b3 = b1 := by
              rcases s with h | h
              · simp at h
              · exact h.2
            have hb4 : b4 = b2 := by
              rcases s2 with h | h
              · simp at h
              · exact h.2
            subst hb3; subst hb4
            clear s s2 f
            dsimp only
            have f := parseSSH_fst env k tmp b3 b4 l3 l4 hp
            have s := (parseSSH_shape env k tmp b3 l3).2.2
            have s2 := (parseSSH_shape env k tmp b4 l4).2.2
            generalize parseSSHRunnerWithDetailed env k tmp b3 l3 = r at f s ⊢
            generalize parseSSHRunnerWithDetailed env k tmp b4 l4 = r2 at f s2 ⊢
            obtain ⟨⟨d, e⟩, b5, l5⟩ := r
            obtain ⟨⟨d2, e2⟩, b6, l6⟩ := r2
            dsimp only at f s s2
            obtain ⟨rfl, rfl⟩ := Prod.mk.inj f
            cases e with
            | some e => cases d <;> rfl
            | none =>
              cases d with
              | true => rfl
              | false =>
                have hb5 : b5 = b3 := by
                  rcases s with h | h
                  · simp at h
                  · exact h.2
                have hb6 : b6 = b4 := by
                  rcases s2 with h | h
                  · simp at h
                  · exact h.2
                subst hb5; subst hb6
                clear s s2 f
                dsimp only
                have f := parseShell_fst env k tmp b5 b6 l5 l6
                generalize parseShellRunnerWithDetailed env k tmp b5 l5 = r at f ⊢
                generalize parseShellRunnerWithDetailed env k tmp b6 l6 = r2 at f ⊢
                obtain ⟨⟨d, e⟩, b7, l7⟩ := r
                obtain ⟨⟨d2, e2⟩, b8, l8⟩ := r2
                dsimp only at f
                obtain ⟨rfl, rfl⟩ := Prod.mk.inj f
                cases e with
                | some e => cases d <;> rfl
                | none => cases d <;> rfl

theorem parseRunner_fst (env : Env) (k : String) (v : Value) (bk bk2 : book)
    (log log2 : Log) (hp : bk.path = bk2.path) :
    (parseRunner env k v bk log).1 = (parseRunner env k v bk2 log2).1 := by
  cases v with
  | str vv => exact parseRunnerString_fst env k vv _ _ log log2
  | map vv => exact parseRunnerMap_fst env k vv _ _ log log2 hp
  | null => rfl
  | bool b => rfl
  | int n => rfl
  | seq xs => rfl

theorem parseRunner_shape (env : Env) (k : String) (v : Value) (bk : book) (log : Log) :
    ((parseRunner env k v bk log).1 = none
        ∧ (parseRunner env k v bk log).2.1.path = bk.path
        ∧ (parseRunner env k v bk log).2.1.runners = bk.runners
        ∧ (parseRunner env k v bk log).2.1.runnerErrs = bk.runnerErrs.delete k)
      ∨ ((∃ e, (parseRunner env k v bk log).1 = some e)
        ∧ (parseRunner env k v bk log).2.1
            = { bk with runnerErrs := bk.runnerErrs.delete k }) := by
  cases v with
  | str vv =>
    rcases parseRunnerString_shape env k vv { bk with runnerErrs := bk.runnerErrs.delete k } log
      with ⟨h1, var, -, h3⟩ | h
    · have p1 := clearVariant_path _ _ var h3
      have p2 := clearVariant_runners _ _ var h3
      have p3 := clearVariant_runnerErrs _ _ var h3
      exact Or.inl ⟨h1, p1, p2, p3⟩
    · exact Or.inr h
  | map vv =>
    rcases parseRunnerMap_shape env k vv { bk with runnerErrs := bk.runnerErrs.delete k } log
      with ⟨h1, var, -, h3⟩ | h
    · have p1 := clearVariant_path _ _ var h3
      have p2 := clearVariant_runners _ _ var h3
      have p3 := clearVariant_runnerErrs _ _ var h3
      exact Or.inl ⟨h1, p1, p2, p3⟩
    · exact Or.inr h
  | null => exact Or.inl ⟨rfl, rfl, rfl, rfl⟩
  | bool b => exact Or.inl ⟨rfl, rfl, rfl, rfl⟩
  | int n => exact Or.inl ⟨rfl, rfl, rfl, rfl⟩
  | seq xs => exact Or.inl ⟨rfl, rfl, rfl, rfl⟩

theorem parseRunner_string_or_map_registers (env : Env) (k : String) (v : Value) (bk : book)
    (log : Log) (hv : (∃ s, v = Value.str s) ∨ ∃ m, v = Value.map m)
    (hok : (parseRunner env k v bk log).1 = none) :
    ∃ var, registered (parseRunner env k v bk log).2.1 var k = true := by
  rcases hv with ⟨s, rfl⟩ | ⟨m, rfl⟩
  · rcases parseRunnerString_shape env k s { bk with runnerErrs := bk.runnerErrs.delete k } log
      with ⟨-, var, h2, -⟩ | ⟨⟨e, he⟩, -⟩
    · exact ⟨var, h2⟩
    · have hok2 : (parseRunnerString env k s
          { bk with runnerErrs := bk.runnerErrs.delete k } log).1 = none := hok
      rw [he] at hok2
      exact absurd hok2 (by simp)
  · rcases parseRunnerMap_shape env k m { bk with runnerErrs := bk.runnerErrs.delete k } log
      with ⟨-, var, h2, -⟩ | ⟨⟨e, he⟩, -⟩
    · exact ⟨var, h2⟩
    · have hok2 : (parseRunnerMap env k m
          { bk with runnerErrs := bk.runnerErrs.delete k } log).1 = none := hok
      rw [he] at hok2
      exact absurd hok2 (by simp)

/-! ## Declarations that are neither a string nor a mapping -/

/-- C5, the code at the failing input: for the declaration `1` (an integer) under
the name `req`, `parseRunner` returns no error, makes no call and leaves the book
as it was apart from the deleted deferred error, so that starting from a new book
no resolved runner map has the key `req`. -/
theorem parseRunner_int_returns_nil_unregistered (env : Env) (bk : book) (log : Log) :
    parseRunner env "req" (Value.int 1) bk log
        = (none, { bk with runnerErrs := bk.runnerErrs.delete "req" }, log)
    ∧ ∀ var, registered (parseRunner env "req" (Value.int 1) newBook log).2.1 var "req"
        = false := by
  refine ⟨rfl, ?_⟩
  intro var
  cases var <;> rfl

/-! ## Mappings that no detector accepts -/

theorem parseHTTP_no_endpoint (env : Env) (k : String) (tmp : Bytes) (bk : book) (log : Log)
    (hH : ∀ c, env.unmarshalHTTP tmp = some c → c.Endpoint = "") :
    parseHTTPRunnerWithDetailed env k tmp bk log
      = ((false, none), bk, log ++ [Call.parseHTTPRunnerWithDetailed k]) := by
  unfold parseHTTPRunnerWithDetailed
  cases h : env.unmarshalHTTP tmp with
  | none => rfl
  | some c => dsimp only; rw [if_pos (hH c h)]

theorem parseGRPC_no_addr (env : Env) (k : String) (tmp : Bytes) (bk : book) (log : Log)
    (hG : ∀ c, env.unmarshalGRPC tmp = some c → c.Addr = "") :
    parseGRPCRunnerWithDetailed env k tmp bk log
      = ((false, none), bk, log ++ [Call.parseGRPCRunnerWithDetailed k]) := by
  unfold parseGRPCRunnerWithDetailed
  cases h : env.unmarshalGRPC tmp with
  | none => rfl
  | some c => dsimp only; rw [if_pos (hG c h)]

theorem parseSSH_no_host (env : Env) (k : String) (tmp : Bytes) (bk : book) (log : Log)
    (hS : ∀ c, env.unmarshalSSH tmp = some c → c.Host = "" ∧ c.Hostname = "") :
    parseSSHRunnerWithDetailed env k tmp bk log
      = ((false, none), bk, log ++ [Call.parseSSHRunnerWithDetailed k]) := by
  unfold parseSSHRunnerWithDetailed
  cases h : env.unmarshalSSH tmp with
  | none => rfl
  | some c => dsimp only; rw [if_pos (hS c h)]

/-- C6 (counterexample): in `demoEnv` the mapping `shell: nosuchshell` has no
`endpoint`, no `addr`, no `host` or `hostname`, and its shell executable does not
resolve on the search path; `parseRunner` fails with the error of the search-path
lookup and not with `cannot detect runner: ` followed by the serialised
declaration. -/
theorem parseRunner_unresolved_shell_not_cannot_detect :
    demoEnv.yamlMarshal [("shell", Value.str "nosuchshell")]
        = Except.ok "shell: nosuchshell\n"
    ∧ (∀ c, demoEnv.unmarshalHTTP "shell: nosuchshell\n" = some c → c.Endpoint = "")
    ∧ (∀ c, demoEnv.unmarshalGRPC "shell: nosuchshell\n" = some c → c.Addr = "")
    ∧ (∀ c, demoEnv.unmarshalSSH "shell: nosuchshell\n" = some c
        → c.Host = "" ∧ c.Hostname = "")
    ∧ (∀ c, demoEnv.unmarshalShell "shell: nosuchshell\n" = some c
        → isOk (demoEnv.lookPath c.Shell) = false)
    ∧ (parseRunner demoEnv "req" (Value.map [("shell", Value.str "nosuchshell")])
          newBook []).1
        = some "exec: nosuchshell: executable file not found in $PATH"
    ∧ (parseRunner demoEnv "req" (Value.map [("shell", Value.str "nosuchshell")])
          newBook []).1
        ≠ some ("cannot detect runner: " ++ "shell: nosuchshell\n") := by
  refine ⟨rfl, ?_, ?_, ?_, ?_, by decide, by decide⟩
  · intro c h
    have h2 : demoHTTPConfig "" = c := Option.some.inj h
    rw [← h2]; rfl
  · intro c h
    have h2 : demoGRPCConfig "" = c := Option.some.inj h
    rw [← h2]; rfl
  · intro c h
    have h2 := Option.some.inj h
    rw [← h2]; exact ⟨rfl, rfl⟩
  · intro c h
    have h2 := Option.some.inj h
    rw [← h2]; rfl

/-- C6 (amended): for a structured mapping that serialises to `tmp` and in which
the HTTP, gRPC and SSH schemas find no non-empty `endpoint`, `addr`, `host` or
`hostname`: when `tmp` does not decode as a shell configuration, `parseRunner`
fails with `cannot detect runner: ` followed by `tmp`; when it decodes with a
non-empty shell name that does not resolve on the search path, `parseRunner` fails
with the error of that lookup. -/
theorem parseRunner_cannot_detect (env : Env) (k : String) (vv : List (String × Value))
    (tmp : Bytes) (bk : book) (log : Log)
    (hm : env.yamlMarshal vv = Except.ok tmp)
    (hH : ∀ c, env.unmarshalHTTP tmp = some c → c.Endpoint = "")
    (hG : ∀ c, env.unmarshalGRPC tmp = some c → c.Addr = "")
    (hS : ∀ c, env.unmarshalSSH tmp = some c → c.Host = "" ∧ c.Hostname = "") :
    (env.unmarshalShell tmp = none →
        (parseRunner env k (Value.map vv) bk log).1 = some ("cannot detect runner: " ++ tmp))
    ∧ (∀ c e, env.unmarshalShell tmp = some c → c.Shell ≠ "" →
        env.lookPath c.Shell = Except.error e →
        (parseRunner env k (Value.map vv) bk log).1 = some e) := by
  simp only [parseRunner]
  unfold parseRunnerMap
  rw [hm]
  dsimp only
  rw [parseHTTP_no_endpoint env k tmp _ _ hH]
  dsimp only
  rw [parseGRPC_no_addr env k tmp _ _ hG]
  dsimp only
  rw [parseSSH_no_host env k tmp _ _ hS]
  dsimp only
  unfold parseShellRunnerWithDetailed
  constructor
  · intro h
    rw [h]
  · intro c e h _ he
    rw [h]
    dsimp only
    rw [he]

/-- Witness for C6 (amended): in `demoEnv` the mapping `shell: []` does not decode
as a shell configuration and `parseRunner` fails with `cannot detect runner: `
followed by the serialised declaration; the mapping `shell: nosuchshell` decodes
and `parseRunner` fails with the error of the lookup. -/
theorem parseRunner_cannot_detect_witness :
    (parseRunner demoEnv "req" (Value.map [("shell", Value.seq [])]) newBook []).1
        = some "cannot detect runner: shell: []\n"
    ∧ (parseRunner demoEnv "req" (Value.map [("shell", Value.str "nosuchshell")])
          newBook []).1
        = some "exec: nosuchshell: executable file not found in $PATH" :=
  ⟨(parseRunner_cannot_detect demoEnv "req" [("shell", Value.seq [])] "shell: []\n"
      newBook [] rfl
      (fun c h => by
        have h2 : demoHTTPConfig "" = c := Option.some.inj h
        rw [← h2]; rfl)
      (fun c h => by
        have h2 : demoGRPCConfig "" = c := Option.some.inj h
        rw [← h2]; rfl)
      (fun c h => by
        have h2 := Option.some.inj h
        rw [← h2]; exact ⟨rfl, rfl⟩)).1 rfl,
    (parseRunner_cannot_detect demoEnv "req" [("shell", Value.str "nosuchshell")]
      "shell: nosuchshell\n" newBook [] rfl
      (fun c h => by
        have h2 : demoHTTPConfig "" = c := Option.some.inj h
        rw [← h2]; rfl)
      (fun c h => by
        have h2 : demoGRPCConfig "" = c := Option.some.inj h
        rw [← h2]; rfl)
      (fun c h => by
        have h2 := Option.some.inj h
        rw [← h2]; exact ⟨rfl, rfl⟩)).2
      { Shell := "nosuchshell", KeepProcess := false }
      "exec: nosuchshell: executable file not found in $PATH" rfl (by decide) rfl⟩

/-! ## Deferred errors: `parseRunners` -/

theorem parseRunnersStep_spec (env : Env) (st : book × Log) (kv : String × Value) :
    (parseRunnersStep env st kv).1.path = st.1.path
    ∧ (parseRunnersStep env st kv).1.runnerErrs.get? kv.1
        = (parseRunner env kv.1 kv.2 st.1 st.2).1
    ∧ ∀ k2, kv.1 ≠ k2 →
        (parseRunnersStep env st kv).1.runnerErrs.get? k2 = st.1.runnerErrs.get? k2 := by
  unfold parseRunnersStep
  have s := parseRunner_shape env kv.1 kv.2 st.1 st.2
  generalize parseRunner env kv.1 kv.2 st.1 st.2 = r at s ⊢
  obtain ⟨e, b, l⟩ := r
  dsimp only at s
  rcases s with ⟨rfl, hp, -, he⟩ | ⟨⟨e2, rfl⟩, hb⟩
  · dsimp only
    refine ⟨hp, ?_, ?_⟩
    · rw [he, GoMap.get_delete_self]
    · intro k2 hne
      rw [he, GoMap.get_delete_ne _ _ _ hne]
  · dsimp only
    subst hb
    refine ⟨rfl, ?_, ?_⟩
    · exact GoMap.get_set_self _ _ _
    · intro k2 hne
      rw [GoMap.get_set_ne _ _ _ _ hne]
      exact GoMap.get_delete_ne _ _ _ hne

theorem parseRunners_fold (env : Env) (p : String) :
    ∀ (l : List (String × Value)) (st : book × Log), st.1.path = p →
      (l.map Prod.fst).Nodup →
      (l.foldl (parseRunnersStep env) st).1.path = p
      ∧ (∀ k, k ∉ l.map Prod.fst →
          (l.foldl (parseRunnersStep env) st).1.runnerErrs.get? k = st.1.runnerErrs.get? k)
      ∧ (∀ k v (bk0 : book) (log0 : Log), (k, v) ∈ l → bk0.path = p →
          (l.foldl (parseRunnersStep env) st).1.runnerErrs.get? k
            = (parseRunner env k v bk0 log0).1) := by
  intro l
  induction l with
  | nil =>
    intro st hp _
    exact ⟨hp, fun _ _ => rfl, fun _ _ _ _ h _ => absurd h (List.not_mem_nil _)⟩
  | cons kv l ih =>
    intro st hp hnd
    rw [List.map_cons, List.nodup_cons] at hnd
    obtain ⟨s1, s2, s3⟩ := parseRunnersStep_spec env st kv
    obtain ⟨i1, i2, i3⟩ := ih (parseRunnersStep env st kv) (s1.trans hp) hnd.2
    rw [List.foldl_cons]
    refine ⟨i1, ?_, ?_⟩
    · intro k hk
      rw [List.map_cons, List.mem_cons, not_or] at hk
      rw [i2 k hk.2]
      exact s3 k (fun h => hk.1 h.symm)
    · intro k v bk0 log0 hmem hp0
      rcases List.mem_cons.1 hmem with h | h
      · subst h
        rw [i2 _ hnd.1, s2]
        exact parseRunner_fst env _ _ _ _ _ _ (hp.trans hp0.symm)
      · exact i3 k v bk0 log0 h hp0

/-- C7: `parseRunners` never returns an error, and afterwards every declared
runner name `k` (with declaration `v`) has in `runnerErrs` exactly what
`parseRunner` returns for it: no entry when `parseRunner` succeeds, and the error
when it fails. -/
theorem parseRunners_defers_errors (env : Env) (bk : book) (log : Log) :
    (parseRunners env bk log).1 = none
    ∧ ∀ k v, (k, v) ∈ bk.runners.entries →
        (parseRunners env bk log).2.1.runnerErrs.get? k = (parseRunner env k v bk log).1 := by
  refine ⟨rfl, ?_⟩
  intro k v hmem
  exact (parseRunners_fold env bk.path bk.runners.entries (bk, log) rfl bk.runners.nodup).2.2
    k v bk log hmem rfl

/-! ## Composition: `Overlay` and `Underlay` -/

theorem parseRunner_clears_error (env : Env) (k : String) (v : Value) (bk : book) (log : Log)
    (hok : (parseRunner env k v bk log).1 = none) :
    (parseRunner env k v bk log).2.1.runnerErrs.get? k = none := by
  rcases parseRunner_shape env k v bk log with ⟨-, -, -, he⟩ | ⟨⟨e, h⟩, -⟩
  · rw [he, GoMap.get_delete_self]
  · rw [h] at hok
    exact absurd hok (by simp)

/-- C8, the code at the failing input: the destination `demoBase` holds a deferred
error for `req`; the file `overlay.yml` resolves `req` to an HTTP runner without
error; after `Overlay`, and likewise after `Underlay`, the destination has the
HTTP runner `req` and still holds the old deferred error for `req`. -/
theorem Overlay_Underlay_keep_stale_error :
    demoBase.runnerErrs.get? "req" = some "cannot detect runner: foo: bar"
    ∧ (LoadBook demoEnv "overlay.yml" []).1 = Except.ok demoLoaded
    ∧ demoLoaded.runnerErrs.get? "req" = none
    ∧ registered demoLoaded RunnerVariant.HTTP "req" = true
    ∧ (Overlay demoEnv "overlay.yml" demoBase []).1 = none
    ∧ registered (Overlay demoEnv "overlay.yml" demoBase []).2.1 RunnerVariant.HTTP "req" = true
    ∧ (Overlay demoEnv "overlay.yml" demoBase []).2.1.runnerErrs.get? "req"
        = some "cannot detect runner: foo: bar"
    ∧ (Underlay demoEnv "overlay.yml" demoBase []).1 = none
    ∧ registered (Underlay demoEnv "overlay.yml" demoBase []).2.1 RunnerVariant.HTTP "req" = true
    ∧ (Underlay demoEnv "overlay.yml" demoBase []).2.1.runnerErrs.get? "req"
        = some "cannot detect runner: foo: bar" := by
  refine ⟨by decide, rfl, by decide, by decide, by decide, by decide, by decide, by decide,
    by decide, by decide⟩

/-- C9: on a destination with zero raw steps, `Overlay` and `Underlay` fail for
every path with their `unusable without its base runbook` error, make no call (the
file is not opened) and leave the destination as it was. -/
theorem Overlay_Underlay_require_base (env : Env) (path : String) (bk : book) (log : Log)
    (h : bk.rawSteps.length = 0) :
    Overlay env path bk log
        = (some "overlays are unusable without its base runbook", bk, log)
    ∧ Underlay env path bk log
        = (some "underlays are unusable without its base runbook", bk, log) := by
  unfold Overlay Underlay
  rw [if_pos h, if_pos h]
  exact ⟨rfl, rfl⟩

/-- Witness for C9: a new book has no step, and overlaying or underlaying the
existing file `overlay.yml` fails without opening it. -/
theorem Overlay_Underlay_require_base_witness :
    Overlay demoEnv "overlay.yml" newBook []
        = (some "overlays are unusable without its base runbook", newBook, [])
    ∧ Underlay demoEnv "overlay.yml" newBook []
        = (some "underlays are unusable without its base runbook", newBook, []) :=
  Overlay_Underlay_require_base demoEnv "overlay.yml" newBook [] rfl

/-- C10: for a destination with steps `A` (keys `KA`) and a layer that loads
without error with steps `B` (keys `KB`) and is of the same style (or has no
step), `Overlay` returns no error and leaves `rawSteps = A ++ B`,
`stepKeys = KA ++ KB`; `Underlay` returns no error and leaves `rawSteps = B ++ A`,
`stepKeys = KB ++ KA`. In both the length is `|A| + |B|` and `A` and `B` are kept
in their order. -/
theorem Overlay_Underlay_step_order (env : Env) (path : String) (bk loaded : book)
    (log : Log)
    (hA : bk.rawSteps ≠ [])
    (hL : (LoadBook env path log).1 = Except.ok loaded)
    (hC : loaded.rawSteps = [] ∨ bk.useMap = loaded.useMap) :
    ((Overlay env path bk log).1 = none
      ∧ (Overlay env path bk log).2.1.rawSteps = bk.rawSteps ++ loaded.rawSteps
      ∧ (Overlay env path bk log).2.1.stepKeys = bk.stepKeys ++ loaded.stepKeys
      ∧ (Overlay env path bk log).2.1.rawSteps.length
          = bk.rawSteps.length + loaded.rawSteps.length
      ∧ bk.rawSteps.Sublist (Overlay env path bk log).2.1.rawSteps
      ∧ loaded.rawSteps.Sublist (Overlay env path bk log).2.1.rawSteps)
    ∧ ((Underlay env path bk log).1 = none
      ∧ (Underlay env path bk log).2.1.rawSteps = loaded.rawSteps ++ bk.rawSteps
      ∧ (Underlay env path bk log).2.1.stepKeys = loaded.stepKeys ++ bk.stepKeys
      ∧ (Underlay env path bk log).2.1.rawSteps.length
          = bk.rawSteps.length + loaded.rawSteps.length
      ∧ bk.rawSteps.Sublist (Underlay env path bk log).2.1.rawSteps
      ∧ loaded.rawSteps.Sublist (Underlay env path bk log).2.1.rawSteps) := by
  have h0 : ¬ bk.rawSteps.length = 0 := fun h => hA (List.length_eq_zero.1 h)
  have hO : (Overlay env path bk log).1 = none
      ∧ (Overlay env path bk log).2.1.rawSteps = bk.rawSteps ++ loaded.rawSteps
      ∧ (Overlay env path bk log).2.1.stepKeys = bk.stepKeys ++ loaded.stepKeys := by
    unfold Overlay
    rw [if_neg h0]
    generalize LoadBook env path log = r at hL ⊢
    obtain ⟨r1, l1⟩ := r
    dsimp only at hL
    subst hL
    dsimp only
    have hc : ¬ (loaded.rawSteps.length > 0 ∧ bk.useMap ≠ loaded.useMap) := by
      rintro ⟨h1, h2⟩
      rcases hC with h | h
      · rw [h] at h1; exact absurd h1 (by simp)
      · exact h2 h
    rw [if_neg hc]
    exact ⟨rfl, rfl, rfl⟩
  have hU : (Underlay env path bk log).1 = none
      ∧ (Underlay env path bk log).2.1.rawSteps = loaded.rawSteps ++ bk.rawSteps
      ∧ (Underlay env path bk log).2.1.stepKeys = loaded.stepKeys ++ bk.stepKeys := by
    unfold Underlay
    rw [if_neg h0]
    generalize LoadBook env path log = r at hL ⊢
    obtain ⟨r1, l1⟩ := r
    dsimp only at hL
    subst hL
    dsimp only
    have hc : ∀ b : book, b.useMap = bk.useMap →
        ¬ (loaded.rawSteps.length > 0 ∧ b.useMap ≠ loaded.useMap) := by
      rintro b hb ⟨h1, h2⟩
      rcases hC with h | h
      · rw [h] at h1; exact absurd h1 (by simp)
      · exact h2 (hb.trans h)
    by_cases hd : bk.desc = "" <;> by_cases hi : bk.ifCond = "" <;>
      by_cases hs : bk.intervalStr = "" <;>
      simp only [hd, hi, hs, if_true, if_false] <;>
      · rw [if_neg (hc _ rfl)]
        exact ⟨rfl, rfl, rfl⟩
  obtain ⟨o1, o2, o3⟩ := hO
  obtain ⟨u1, u2, u3⟩ := hU
  refine ⟨⟨o1, o2, o3, ?_, ?_, ?_⟩, ⟨u1, u2, u3, ?_, ?_, ?_⟩⟩
  · rw [o2, List.length_append]
  · rw [o2]; exact List.sublist_append_left _ _
  · rw [o2]; exact List.sublist_append_right _ _
  · rw [u2, List.length_append, Nat.add_comm]
  · rw [u2]; exact List.sublist_append_right _ _
  · rw [u2]; exact List.sublist_append_left _ _

/-- Witness for C10: `demoBase` has one step and `overlay.yml` loads with one
step; overlaying appends it, underlaying prepends it. -/
theorem Overlay_Underlay_step_order_witness :
    (Overlay demoEnv "overlay.yml" demoBase []).2.1.rawSteps
        = demoBase.rawSteps ++ demoLoaded.rawSteps
    ∧ (Underlay demoEnv "overlay.yml" demoBase []).2.1.rawSteps
        = demoLoaded.rawSteps ++ demoBase.rawSteps :=
  have h := Overlay_Underlay_step_order demoEnv "overlay.yml" demoBase demoLoaded []
    (List.cons_ne_nil _ _) rfl (Or.inr rfl)
  ⟨h.1.2.1, h.2.2.1⟩

/-! ## Merging maps -/

theorem GoMap.find_none_of_not_mem {α : Type} (l : List (String × α)) (k : String)
    (h : k ∉ l.map Prod.fst) : l.find? (fun e => e.1 == k) = none := by
  rw [List.find?_eq_none]
  intro e he hk
  exact h (List.mem_map.2 ⟨e, he, by simpa using hk⟩)

theorem GoMap.find_cons_eq {α : Type} (e : String × α) (l : List (String × α)) (k : String)
    (h : e.1 = k) : (e :: l).find? (fun e => e.1 == k) = some e := by
  simp [List.find?_cons, h]

theorem GoMap.find_cons_ne {α : Type} (e : String × α) (l : List (String × α)) (k : String)
    (h : e.1 ≠ k) : (e :: l).find? (fun e => e.1 == k) = l.find? (fun e => e.1 == k) := by
  simp [List.find?_cons, h]

theorem GoMap.foldl_set_get {α : Type} (k : String) :
    ∀ (l : List (String × α)) (dst : GoMap α), (l.map Prod.fst).Nodup →
      (l.foldl (fun m kv => m.set kv.1 kv.2) dst).get? k
        = match l.find? (fun e => e.1 == k) with
          | some e => some e.2
          | none => dst.get? k := by
  intro l
  induction l with
  | nil => intro dst _; rfl
  | cons e l ih =>
    intro dst hnd
    rw [List.map_cons, List.nodup_cons] at hnd
    rw [List.foldl_cons, ih _ hnd.2]
    by_cases hk : e.1 = k
    · have hf : l.find? (fun e => e.1 == k) = none :=
        GoMap.find_none_of_not_mem l k (hk ▸ hnd.1)
      rw [hf, GoMap.find_cons_eq e l k hk]
      dsimp only
      rw [hk]
      exact GoMap.get_set_self _ _ _
    · rw [GoMap.find_cons_ne e l k hk]
      cases l.find? (fun e => e.1 == k) with
      | some e2 => rfl
      | none => exact GoMap.get_set_ne _ _ _ _ hk

theorem GoMap.foldl_fill_get {α : Type} (k : String) :
    ∀ (l : List (String × α)) (dst : GoMap α),
      (l.foldl (fun m kv => if m.contains kv.1 then m else m.set kv.1 kv.2) dst).get? k
        = match dst.get? k with
          | some v => some v
          | none => (l.find? (fun e => e.1 == k)).map Prod.snd := by
  intro l
  induction l with
  | nil =>
    intro dst
    cases h : dst.get? k <;> simp [h]
  | cons e l ih =>
    intro dst
    rw [List.foldl_cons, ih]
    by_cases hc : dst.contains e.1 = true
    · rw [if_pos hc]
      by_cases hk : e.1 = k
      · rw [hk] at hc
        cases h : dst.get? k with
        | some v => rfl
        | none => simp [GoMap.contains, h] at hc
      · rw [GoMap.find_cons_ne e l k hk]
    · rw [if_neg hc]
      by_cases hk : e.1 = k
      · have hn : dst.get? k = none := by
          rw [hk] at hc
          cases h : dst.get? k with
          | some v => simp [GoMap.contains, h] at hc
          | none => rfl
        rw [GoMap.find_cons_eq e l k hk, hn, hk, GoMap.get_set_self]
        rfl
      · rw [GoMap.get_set_ne _ _ _ _ hk, GoMap.find_cons_ne e l k hk]

theorem GoMap.overwriteFrom_isUnion {α : Type} (dst src : GoMap α) :
    IsOverwriteUnion (dst.overwriteFrom src) dst src := by
  intro k
  have h := GoMap.foldl_set_get k src.entries dst src.nodup
  unfold GoMap.overwriteFrom
  constructor
  · intro v hv
    rw [h]
    unfold GoMap.get? at hv
    cases hf : src.entries.find? (fun e => e.1 == k) with
    | none => rw [hf] at hv; simp at hv
    | some e => rw [hf] at hv; simpa using hv
  · intro hv
    rw [h]
    unfold GoMap.get? at hv
    cases hf : src.entries.find? (fun e => e.1 == k) with
    | none => rfl
    | some e => rw [hf] at hv; simp at hv

theorem GoMap.fillFrom_isUnion {α : Type} (dst src : GoMap α) :
    IsFillUnion (dst.fillFrom src) dst src := by
  intro k
  have h := GoMap.foldl_fill_get k src.entries dst
  unfold GoMap.fillFrom
  constructor
  · intro v hv
    rw [h, hv]
  · intro hv
    rw [h, hv]
    rfl

/-! ## Composition: what the maps and scalars hold afterwards -/

/-- C11: after a successful `Overlay` of a layer that loaded as `loaded`, each of
`runners`, the six per-variant runner maps and `vars` is the union of its previous
content and the overlay's, the overlay's value winning: a key of the overlay holds
the overlay's value, every other key keeps what it had. -/
theorem Overlay_maps_union (env : Env) (path : String) (bk loaded : book) (log : Log)
    (hL : (LoadBook env path log).1 = Except.ok loaded)
    (hok : (Overlay env path bk log).1 = none) :
    IsOverwriteUnion (Overlay env path bk log).2.1.runners bk.runners loaded.runners
    ∧ IsOverwriteUnion (Overlay env path bk log).2.1.httpRunners bk.httpRunners
        loaded.httpRunners
    ∧ IsOverwriteUnion (Overlay env path bk log).2.1.dbRunners bk.dbRunners loaded.dbRunners
    ∧ IsOverwriteUnion (Overlay env path bk log).2.1.grpcRunners bk.grpcRunners
        loaded.grpcRunners
    ∧ IsOverwriteUnion (Overlay env path bk log).2.1.cdpRunners bk.cdpRunners
        loaded.cdpRunners
    ∧ IsOverwriteUnion (Overlay env path bk log).2.1.sshRunners bk.sshRunners
        loaded.sshRunners
    ∧ IsOverwriteUnion (Overlay env path bk log).2.1.shellRunners bk.shellRunners
        loaded.shellRunners
    ∧ IsOverwriteUnion (Overlay env path bk log).2.1.vars bk.vars loaded.vars := by
  unfold Overlay at hok ⊢
  by_cases h0 : bk.rawSteps.length = 0
  · rw [if_pos h0] at hok
    exact absurd hok (by simp)
  · rw [if_neg h0] at hok ⊢
    generalize LoadBook env path log = r at hL hok ⊢
    obtain ⟨r1, l1⟩ := r
    dsimp only at hL
    subst hL
    dsimp only at hok ⊢
    by_cases hc : loaded.rawSteps.length > 0 ∧ bk.useMap ≠ loaded.useMap
    · rw [if_pos hc] at hok
      exact absurd hok (by simp)
    · rw [if_neg hc]
      exact ⟨GoMap.overwriteFrom_isUnion _ _, GoMap.overwriteFrom_isUnion _ _,
        GoMap.overwriteFrom_isUnion _ _, GoMap.overwriteFrom_isUnion _ _,
        GoMap.overwriteFrom_isUnion _ _, GoMap.overwriteFrom_isUnion _ _,
        GoMap.overwriteFrom_isUnion _ _, GoMap.overwriteFrom_isUnion _ _⟩

/-- Witness for C11: overlaying `overlay.yml` on `demoBase` succeeds, and the
runner `req` of the overlay is the HTTP runner `req` of the result. -/
theorem Overlay_maps_union_witness :
    (Overlay demoEnv "overlay.yml" demoBase []).2.1.httpRunners.get? "req"
      = demoLoaded.httpRunners.get? "req" :=
  ((Overlay_maps_union demoEnv "overlay.yml" demoBase demoLoaded [] rfl rfl).2.1 "req").1
    _ rfl

/-- C12: after a successful `Underlay` of a layer that loaded as `loaded`, in each
of `runners`, the six per-variant runner maps and `vars` every key the destination
had keeps its value, and every key the destination did not have holds what the
underlay has for it. -/
theorem Underlay_maps_fill (env : Env) (path : String) (bk loaded : book) (log : Log)
    (hL : (LoadBook env path log).1 = Except.ok loaded)
    (hok : (Underlay env path bk log).1 = none) :
    IsFillUnion (Underlay env path bk log).2.1.runners bk.runners loaded.runners
    ∧ IsFillUnion (Underlay env path bk log).2.1.httpRunners bk.httpRunners
        loaded.httpRunners
    ∧ IsFillUnion (Underlay env path bk log).2.1.dbRunners bk.dbRunners loaded.dbRunners
    ∧ IsFillUnion (Underlay env path bk log).2.1.grpcRunners bk.grpcRunners
        loaded.grpcRunners
    ∧ IsFillUnion (Underlay env path bk log).2.1.cdpRunners bk.cdpRunners loaded.cdpRunners
    ∧ IsFillUnion (Underlay env path bk log).2.1.sshRunners bk.sshRunners loaded.sshRunners
    ∧ IsFillUnion (Underlay env path bk log).2.1.shellRunners bk.shellRunners
        loaded.shellRunners
    ∧ IsFillUnion (Underlay env path bk log).2.1.vars bk.vars loaded.vars := by
  unfold Underlay at hok ⊢
  by_cases h0 : bk.rawSteps.length = 0
  · rw [if_pos h0] at hok
    exact absurd hok (by simp)
  · rw [if_neg h0] at hok ⊢
    generalize LoadBook env path log = r at hL hok ⊢
    obtain ⟨r1, l1⟩ := r
    dsimp only at hL
    subst hL
    dsimp only at hok ⊢
    by_cases hd : bk.desc = "" <;> by_cases hi : bk.ifCond = "" <;>
      by_cases hs : bk.intervalStr = "" <;>
      simp only [hd, hi, hs, if_true, if_false] at hok ⊢ <;>
      · by_cases hc : loaded.rawSteps.length > 0 ∧ bk.useMap ≠ loaded.useMap
        · rw [if_pos hc] at hok
          exact absurd hok (by simp)
        · rw [if_neg hc]
          exact ⟨GoMap.fillFrom_isUnion _ _, GoMap.fillFrom_isUnion _ _,
            GoMap.fillFrom_isUnion _ _, GoMap.fillFrom_isUnion _ _,
            GoMap.fillFrom_isUnion _ _, GoMap.fillFrom_isUnion _ _,
            GoMap.fillFrom_isUnion _ _, GoMap.fillFrom_isUnion _ _⟩

/-- Witness for C12: underlaying `overlay.yml` under `demoBase` succeeds; the
destination had no HTTP runner `req`, so it holds the one of the underlay. -/
theorem Underlay_maps_fill_witness :
    (Underlay demoEnv "overlay.yml" demoBase []).2.1.httpRunners.get? "req"
      = demoLoaded.httpRunners.get? "req" :=
  ((Underlay_maps_fill demoEnv "overlay.yml" demoBase demoLoaded [] rfl rfl).2.1 "req").2
    rfl

/-- C14: after `Book(path)` with a file that loaded as `loaded`, no error is
returned; `desc` and `ifCond` are those of `loaded`; `rawSteps` and `stepKeys` are
those of `loaded`; each of `runners`, the six per-variant runner maps and `vars` is
the union of its previous content and that of `loaded`, the value of `loaded`
winning; and `interval` is that of `loaded` when `loaded` declares an interval
and is unchanged otherwise. -/
theorem Book_load_result (env : Env) (path : String) (bk loaded : book) (log : Log)
    (hL : (LoadBook env path log).1 = Except.ok loaded) :
    (Book env path bk log).1 = none
    ∧ (Book env path bk log).2.1.desc = loaded.desc
    ∧ (Book env path bk log).2.1.ifCond = loaded.ifCond
    ∧ (Book env path bk log).2.1.rawSteps = loaded.rawSteps
    ∧ (Book env path bk log).2.1.stepKeys = loaded.stepKeys
    ∧ IsOverwriteUnion (Book env path bk log).2.1.runners bk.runners loaded.runners
    ∧ IsOverwriteUnion (Book env path bk log).2.1.httpRunners bk.httpRunners
        loaded.httpRunners
    ∧ IsOverwriteUnion (Book env path bk log).2.1.dbRunners bk.dbRunners loaded.dbRunners
    ∧ IsOverwriteUnion (Book env path bk log).2.1.grpcRunners bk.grpcRunners
        loaded.grpcRunners
    ∧ IsOverwriteUnion (Book env path bk log).2.1.cdpRunners bk.cdpRunners loaded.cdpRunners
    ∧ IsOverwriteUnion (Book env path bk log).2.1.sshRunners bk.sshRunners loaded.sshRunners
    ∧ IsOverwriteUnion (Book env path bk log).2.1.shellRunners bk.shellRunners
        loaded.shellRunners
    ∧ IsOverwriteUnion (Book env path bk log).2.1.vars bk.vars loaded.vars
    ∧ (loaded.intervalStr ≠ "" → (Book env path bk log).2.1.interval = loaded.interval)
    ∧ (loaded.intervalStr = "" → (Book env path bk log).2.1.interval = bk.interval) := by
  unfold Book
  generalize LoadBook env path log = r at hL ⊢
  obtain ⟨r1, l1⟩ := r
  dsimp only at hL
  subst hL
  dsimp only
  refine ⟨rfl, ?_, ?_, ?_, ?_, ?_, ?_, ?_, ?_, ?_, ?_, ?_, ?_, ?_, ?_⟩
  · repeat' split
    all_goals rfl
  · repeat' split
    all_goals rfl
  · repeat' split
    all_goals rfl
  · repeat' split
    all_goals rfl
  · repeat' split
    all_goals exact GoMap.overwriteFrom_isUnion _ _
  · repeat' split
    all_goals exact GoMap.overwriteFrom_isUnion _ _
  · repeat' split
    all_goals exact GoMap.overwriteFrom_isUnion _ _
  · repeat' split
    all_goals exact GoMap.overwriteFrom_isUnion _ _
  · repeat' split
    all_goals exact GoMap.overwriteFrom_isUnion _ _
  · repeat' split
    all_goals exact GoMap.overwriteFrom_isUnion _ _
  · repeat' split
    all_goals exact GoMap.overwriteFrom_isUnion _ _
  · repeat' split
    all_goals exact GoMap.overwriteFrom_isUnion _ _
  · intro hI
    repeat' split
    all_goals rfl
  · intro hI
    repeat' split
    all_goals first | rfl | contradiction

/-- Witness for C14: loading `overlay.yml` into a new book leaves the steps and the
description of the file. -/
theorem Book_load_result_witness :
    (Book demoEnv "overlay.yml" newBook []).1 = none
    ∧ (Book demoEnv "overlay.yml" newBook []).2.1.desc = "layer"
    ∧ (Book demoEnv "overlay.yml" newBook []).2.1.stepKeys = ["0"] :=
  have h := Book_load_result demoEnv "overlay.yml" newBook demoLoaded [] rfl
  ⟨h.1, h.2.1, h.2.2.2.2.1⟩

theorem Underlay_scalars (env : Env) (path : String) (bk loaded : book) (log : Log)
    (hL : (LoadBook env path log).1 = Except.ok loaded)
    (hok : (Underlay env path bk log).1 = none) :
    (bk.desc ≠ "" → (Underlay env path bk log).2.1.desc = bk.desc)
    ∧ (bk.ifCond ≠ "" → (Underlay env path bk log).2.1.ifCond = bk.ifCond)
    ∧ (bk.intervalStr ≠ "" → (Underlay env path bk log).2.1.interval = bk.interval)
    ∧ (bk.intervalStr = "" → (Underlay env path bk log).2.1.interval = loaded.interval) := by
  unfold Underlay at hok ⊢
  by_cases h0 : bk.rawSteps.length = 0
  · rw [if_pos h0] at hok
    exact absurd hok (by simp)
  · rw [if_neg h0] at hok ⊢
    generalize LoadBook env path log = r at hL hok ⊢
    obtain ⟨r1, l1⟩ := r
    dsimp only at hL
    subst hL
    dsimp only at hok ⊢
    by_cases hd : bk.desc = "" <;> by_cases hi : bk.ifCond = "" <;>
      by_cases hs : bk.intervalStr = "" <;>
      simp only [hd, hi, hs, if_true, if_false] at hok ⊢ <;>
      · by_cases hc : loaded.rawSteps.length > 0 ∧ bk.useMap ≠ loaded.useMap
        · rw [if_pos hc] at hok
          exact absurd hok (by simp)
        · rw [if_neg hc]
          simp [hd, hi, hs]

theorem Book_keeps_intervalStr (env : Env) (path : String) (bk : book) (log : Log) :
    (Book env path bk log).2.1.intervalStr = bk.intervalStr := by
  unfold Book
  generalize LoadBook env path log = r
  obtain ⟨r1, l1⟩ := r
  cases r1 with
  | error e => rfl
  | ok loaded =>
    dsimp only
    repeat' split
    all_goals rfl

/-- C13, the code at the failing input: a new book that loads `base.yml` (interval
`5sec`) with `Book` has the interval set and an empty `intervalStr`; a successful
`Underlay` of `overlay.yml`, which declares no interval, then replaces the
interval of the destination by the interval 0 of the underlay, while the
description of the destination is kept. -/
theorem Underlay_replaces_set_interval :
    (Book intervalEnv "base.yml" newBook []).1 = none
    ∧ (Book intervalEnv "base.yml" newBook []).2.1.rawSteps.length = 1
    ∧ (Book intervalEnv "base.yml" newBook []).2.1.desc = "base"
    ∧ (Book intervalEnv "base.yml" newBook []).2.1.interval = 5000000000
    ∧ (Book intervalEnv "base.yml" newBook []).2.1.intervalStr = ""
    ∧ (Underlay intervalEnv "overlay.yml" (Book intervalEnv "base.yml" newBook []).2.1
        (Book intervalEnv "base.yml" newBook []).2.2).1 = none
    ∧ (Underlay intervalEnv "overlay.yml" (Book intervalEnv "base.yml" newBook []).2.1
        (Book intervalEnv "base.yml" newBook []).2.2).2.1.desc = "base"
    ∧ (Underlay intervalEnv "overlay.yml" (Book intervalEnv "base.yml" newBook []).2.1
        (Book intervalEnv "base.yml" newBook []).2.2).2.1.interval = 0 := by
  refine ⟨by decide, by decide, by decide, by decide, by decide, by decide, by decide,
    by decide⟩

/-! ## Disjointness of the resolved runner maps -/

theorem GoMap.contains_set_ne {α : Type} (m : GoMap α) (k n : String) (x : α) (h : n ≠ k) :
    (m.set k x).contains n = m.contains n := by
  unfold GoMap.contains
  rw [GoMap.get_set_ne _ _ _ _ (Ne.symm h)]

theorem GoMap.contains_set_self {α : Type} (m : GoMap α) (k : String) (x : α) :
    (m.set k x).contains k = true := by
  unfold GoMap.contains
  rw [GoMap.get_set_self]
  rfl

theorem registersOnly_http (bk r : book) (k : String)
    (h1 : ∀ n, n ≠ k → r.httpRunners.contains n = bk.httpRunners.contains n)
    (h2 : r.dbRunners = bk.dbRunners) (h3 : r.grpcRunners = bk.grpcRunners)
    (h4 : r.cdpRunners = bk.cdpRunners) (h5 : r.sshRunners = bk.sshRunners)
    (h6 : r.shellRunners = bk.shellRunners) :
    RegistersOnly bk r RunnerVariant.HTTP k := by
  intro v n h
  cases v
  · rcases h with h | h
    · exact absurd rfl h
    · exact h1 n h
  · simp only [registered, h2]
  · simp only [registered, h3]
  · simp only [registered, h4]
  · simp only [registered, h5]
  · simp only [registered, h6]

theorem registersOnly_db (bk r : book) (k : String)
    (h1 : r.httpRunners = bk.httpRunners)
    (h2 : ∀ n, n ≠ k → r.dbRunners.contains n = bk.dbRunners.contains n)
    (h3 : r.grpcRunners = bk.grpcRunners)
    (h4 : r.cdpRunners = bk.cdpRunners) (h5 : r.sshRunners = bk.sshRunners)
    (h6 : r.shellRunners = bk.shellRunners) :
    RegistersOnly bk r RunnerVariant.Database k := by
  intro v n h
  cases v
  · simp only [registered, h1]
  · rcases h with h | h
    · exact absurd rfl h
    · exact h2 n h
  · simp only [registered, h3]
  · simp only [registered, h4]
  · simp only [registered, h5]
  · simp only [registered, h6]

theorem registersOnly_grpc (bk r : book) (k : String)
    (h1 : r.httpRunners = bk.httpRunners) (h2 : r.dbRunners = bk.dbRunners)
    (h3 : ∀ n, n ≠ k → r.grpcRunners.contains n = bk.grpcRunners.contains n)
    (h4 : r.cdpRunners = bk.cdpRunners) (h5 : r.sshRunners = bk.sshRunners)
    (h6 : r.shellRunners = bk.shellRunners) :
    RegistersOnly bk r RunnerVariant.GRPC k := by
  intro v n h
  cases v
  · simp only [registered, h1]
  · simp only [registered, h2]
  · rcases h with h | h
    · exact absurd rfl h
    · exact h3 n h
  · simp only [registered, h4]
  · simp only [registered, h5]
  · simp only [registered, h6]

theorem registersOnly_cdp (bk r : book) (k : String)
    (h1 : r.httpRunners = bk.httpRunners) (h2 : r.dbRunners = bk.dbRunners)
    (h3 : r.grpcRunners = bk.grpcRunners)
    (h4 : ∀ n, n ≠ k → r.cdpRunners.contains n = bk.cdpRunners.contains n)
    (h5 : r.sshRunners = bk.sshRunners) (h6 : r.shellRunners = bk.shellRunners) :
    RegistersOnly bk r RunnerVariant.BrowserControl k := by
  intro v n h
  cases v
  · simp only [registered, h1]
  · simp only [registered, h2]
  · simp only [registered, h3]
  · rcases h with h | h
    · exact absurd rfl h
    · exact h4 n h
  · simp only [registered, h5]
  · simp only [registered, h6]

theorem registersOnly_ssh (bk r : book) (k : String)
    (h1 : r.httpRunners = bk.httpRunners) (h2 : r.dbRunners = bk.dbRunners)
    (h3 : r.grpcRunners = bk.grpcRunners) (h4 : r.cdpRunners = bk.cdpRunners)
    (h5 : ∀ n, n ≠ k → r.sshRunners.contains n = bk.sshRunners.contains n)
    (h6 : r.shellRunners = bk.shellRunners) :
    RegistersOnly bk r RunnerVariant.SSH k := by
  intro v n h
  cases v
  · simp only [registered, h1]
  · simp only [registered, h2]
  · simp only [registered, h3]
  · simp only [registered, h4]
  · rcases h with h | h
    · exact absurd rfl h
    · exact h5 n h
  · simp only [registered, h6]

theorem registersOnly_shell (bk r : book) (k : String)
    (h1 : r.httpRunners = bk.httpRunners) (h2 : r.dbRunners = bk.dbRunners)
    (h3 : r.grpcRunners = bk.grpcRunners) (h4 : r.cdpRunners = bk.cdpRunners)
    (h5 : r.sshRunners = bk.sshRunners)
    (h6 : ∀ n, n ≠ k → r.shellRunners.contains n = bk.shellRunners.contains n) :
    RegistersOnly bk r RunnerVariant.Shell k := by
  intro v n h
  cases v
  · simp only [registered, h1]
  · simp only [registered, h2]
  · simp only [registered, h3]
  · simp only [registered, h4]
  · simp only [registered, h5]
  · rcases h with h | h
    · exact absurd rfl h
    · exact h6 n h

theorem disjoint_of_registersOnly (bk r : book) (k : String)
    (hD : DisjointByName bk) (hR : ∃ var, RegistersOnly bk r var k) (hN : NoClash bk r k) :
    DisjointByName r := by
  obtain ⟨var, hR⟩ := hR
  intro n v1 v2 h1 h2
  by_cases hn : n = k
  · subst hn
    by_cases hv1 : v1 = var
    · by_cases hv2 : v2 = var
      · rw [hv1, hv2]
      · rw [hR v2 n (Or.inl hv2)] at h2
        exact (hN v2 v1 h2 h1).symm
    · rw [hR v1 n (Or.inl hv1)] at h1
      exact hN v1 v2 h1 h2
  · rw [hR v1 n (Or.inr hn)] at h1
    rw [hR v2 n (Or.inr hn)] at h2
    exact hD n v1 v2 h1 h2

theorem parseHTTP_registersOnly (env : Env) (k : String) (b : Bytes) (bk : book) (log : Log) :
    RegistersOnly bk (parseHTTPRunnerWithDetailed env k b bk log).2.1 RunnerVariant.HTTP k := by
  unfold parseHTTPRunnerWithDetailed
  dsimp only
  repeat' split
  all_goals first
    | exact registersOnly_http _ _ _ (fun _ _ => rfl) rfl rfl rfl rfl rfl
    | exact registersOnly_http _ _ _
        (fun n hn => by simp only [GoMap.contains_set_ne _ _ _ _ hn]) rfl rfl rfl rfl rfl

theorem parseGRPC_registersOnly (env : Env) (k : String) (b : Bytes) (bk : book) (log : Log) :
    RegistersOnly bk (parseGRPCRunnerWithDetailed env k b bk log).2.1 RunnerVariant.GRPC k := by
  unfold parseGRPCRunnerWithDetailed
  dsimp only
  repeat' split
  all_goals first
    | exact registersOnly_grpc _ _ _ rfl rfl (fun _ _ => rfl) rfl rfl rfl
    | exact registersOnly_grpc _ _ _ rfl rfl
        (fun n hn => by simp only [GoMap.contains_set_ne _ _ _ _ hn]) rfl rfl rfl

theorem parseSSH_registersOnly (env : Env) (k : String) (b : Bytes) (bk : book) (log : Log) :
    RegistersOnly bk (parseSSHRunnerWithDetailed env k b bk log).2.1 RunnerVariant.SSH k := by
  unfold parseSSHRunnerWithDetailed
  dsimp only
  repeat' split
  all_goals first
    | exact registersOnly_ssh _ _ _ rfl rfl rfl rfl (fun _ _ => rfl) rfl
    | exact registersOnly_ssh _ _ _ rfl rfl rfl rfl
        (fun n hn => by simp only [GoMap.contains_set_ne _ _ _ _ hn]) rfl

theorem parseShell_registersOnly (env : Env) (k : String) (b : Bytes) (bk : book)
    (log : Log) :
    RegistersOnly bk (parseShellRunnerWithDetailed env k b bk log).2.1
      RunnerVariant.Shell k := by
  unfold parseShellRunnerWithDetailed
  dsimp only
  repeat' split
  all_goals first
    | exact registersOnly_shell _ _ _ rfl rfl rfl rfl rfl (fun _ _ => rfl)
    | exact registersOnly_shell _ _ _ rfl rfl rfl rfl rfl
        (fun n hn => by simp only [GoMap.contains_set_ne _ _ _ _ hn])

theorem parseRunnerString_registersOnly (env : Env) (k vv : String) (bk : book) (log : Log) :
    ∃ var, RegistersOnly bk (parseRunnerString env k vv bk log).2.1 var k := by
  unfold parseRunnerString
  dsimp only
  repeat' split
  all_goals first
    | exact ⟨_, registersOnly_http _ _ _ (fun _ _ => rfl) rfl rfl rfl rfl rfl⟩
    | exact ⟨_, registersOnly_http _ _ _
        (fun n hn => by simp only [GoMap.contains_set_ne _ _ _ _ hn]) rfl rfl rfl rfl rfl⟩
    | exact ⟨_, registersOnly_db _ _ _ rfl
        (fun n hn => by simp only [GoMap.contains_set_ne _ _ _ _ hn]) rfl rfl rfl rfl⟩
    | exact ⟨_, registersOnly_grpc _ _ _ rfl rfl
        (fun n hn => by simp only [GoMap.contains_set_ne _ _ _ _ hn]) rfl rfl rfl⟩
    | exact ⟨_, registersOnly_cdp _ _ _ rfl rfl rfl
        (fun n hn => by simp only [GoMap.contains_set_ne _ _ _ _ hn]) rfl rfl⟩
    | exact ⟨_, registersOnly_ssh _ _ _ rfl rfl rfl rfl
        (fun n hn => by simp only [GoMap.contains_set_ne _ _ _ _ hn]) rfl⟩

theorem registered_runnerErrs (bk : book) (x : GoMap Error) (v : RunnerVariant) (n : String) :
    registered { bk with runnerErrs := x } v n = registered bk v n := by
  cases v <;> rfl

theorem registersOnly_same (bk r : book) (var : RunnerVariant) (k : String)
    (h : ∀ v n, registered r v n = registered bk v n) : RegistersOnly bk r var k :=
  fun v n _ => h v n

theorem registersOnly_of_runnerErrs (bk r : book) (x : GoMap Error) (var : RunnerVariant)
    (k : String) (h : RegistersOnly { bk with runnerErrs := x } r var k) :
    RegistersOnly bk r var k := by
  intro v n hvn
  rw [h v n hvn, registered_runnerErrs]

theorem registersOnly_to_runnerErrs (bk r : book) (x : GoMap Error) (var : RunnerVariant)
    (k : String) (h : RegistersOnly bk r var k) :
    RegistersOnly bk { r with runnerErrs := x } var k := by
  intro v n hvn
  rw [registered_runnerErrs, h v n hvn]

theorem parseRunnerMap_registersOnly (env : Env) (k : String) (vv : List (String × Value))
    (bk : book) (log : Log) :
    ∃ var, RegistersOnly bk (parseRunnerMap env k vv bk log).2.1 var k := by
  unfold parseRunnerMap
  cases env.yamlMarshal vv with
  | error e => exact ⟨RunnerVariant.HTTP, fun _ _ _ => rfl⟩
  | ok tmp =>
    dsimp only
    have s := (parseHTTP_shape env k tmp bk log).2.2
    have r := parseHTTP_registersOnly env k tmp bk log
    generalize parseHTTPRunnerWithDetailed env k tmp bk log = res at s r ⊢
    obtain ⟨⟨d, e⟩, bk1, log1⟩ := res
    dsimp only at s r
    rcases s with ⟨h, -⟩ | ⟨h, hb⟩
    · obtain ⟨rfl, rfl⟩ := Prod.mk.inj h
      exact ⟨_, r⟩
    · subst h; subst hb
      cases e with
      | some e => exact ⟨_, r⟩
      | none =>
        clear r
        dsimp only
        have s := (parseGRPC_shape env k tmp bk1 log1).2.2
        have r := parseGRPC_registersOnly env k tmp bk1 log1
        generalize parseGRPCRunnerWithDetailed env k tmp bk1 log1 = res at s r ⊢
        obtain ⟨⟨d, e⟩, bk2, log2⟩ := res
        dsimp only at s r
        rcases s with ⟨h, -⟩ | ⟨h, hb⟩
        · obtain ⟨rfl, rfl⟩ := Prod.mk.inj h
          exact ⟨_, r⟩
        · subst h; subst hb
          cases e with
          | some e => exact ⟨_, r⟩
          | none =>
            clear r
            dsimp only
            have s := (parseSSH_shape env k tmp bk2 log2).2.2
            have r := parseSSH_registersOnly env k tmp bk2 log2
            generalize parseSSHRunnerWithDetailed env k tmp bk2 log2 = res at s r ⊢
            obtain ⟨⟨d, e⟩, bk3, log3⟩ := res
            dsimp only at s r
            rcases s with ⟨h, -⟩ | ⟨h, hb⟩
            · obtain ⟨rfl, rfl⟩ := Prod.mk.inj h
              exact ⟨_, r⟩
            · subst h; subst hb
              cases e with
              | some e => exact ⟨_, r⟩
              | none =>
                clear r
                dsimp only
                have s := (parseShell_shape env k tmp bk3 log3).2.2
                have r := parseShell_registersOnly env k tmp bk3 log3
                generalize parseShellRunnerWithDetailed env k tmp bk3 log3 = res at s r ⊢
                obtain ⟨⟨d, e⟩, bk4, log4⟩ := res
                dsimp only at s r
                rcases s with ⟨h, -⟩ | ⟨h, hb⟩
                · obtain ⟨rfl, rfl⟩ := Prod.mk.inj h
                  exact ⟨_, r⟩
                · subst h; subst hb
                  cases e with
                  | some e => exact ⟨_, r⟩
                  | none => exact ⟨_, r⟩

theorem parseRunner_registersOnly (env : Env) (k : String) (v : Value) (bk : book)
    (log : Log) : ∃ var, RegistersOnly bk (parseRunner env k v bk log).2.1 var k := by
  cases v with
  | str vv =>
    obtain ⟨var, h⟩ := parseRunnerString_registersOnly env k vv
      { bk with runnerErrs := bk.runnerErrs.delete k } log
    exact ⟨var, registersOnly_of_runnerErrs bk _ _ var k h⟩
  | map vv =>
    obtain ⟨var, h⟩ := parseRunnerMap_registersOnly env k vv
      { bk with runnerErrs := bk.runnerErrs.delete k } log
    exact ⟨var, registersOnly_of_runnerErrs bk _ _ var k h⟩
  | null => exact ⟨RunnerVariant.HTTP, fun v _ _ => registered_runnerErrs bk _ v _⟩
  | bool b => exact ⟨RunnerVariant.HTTP, fun v _ _ => registered_runnerErrs bk _ v _⟩
  | int n => exact ⟨RunnerVariant.HTTP, fun v _ _ => registered_runnerErrs bk _ v _⟩
  | seq xs => exact ⟨RunnerVariant.HTTP, fun v _ _ => registered_runnerErrs bk _ v _⟩

theorem Runner_registersOnly (env : Env) (k dsn : String) (opts : List httpRunnerOption)
    (bk : book) (log : Log) :
    ∃ var, RegistersOnly bk (Runner env k dsn opts bk log).2.1 var k := by
  unfold Runner
  dsimp only
  by_cases ho : opts.length = 0
  · rw [if_pos ho]
    cases validateRunnerKey k with
    | some e => exact ⟨RunnerVariant.HTTP, fun v _ _ => registered_runnerErrs bk _ v _⟩
    | none =>
      dsimp only
      obtain ⟨var, h⟩ := parseRunner_registersOnly env k (Value.str dsn)
        { bk with runnerErrs := bk.runnerErrs.delete k } log
      have h2 := registersOnly_of_runnerErrs bk _ _ var k h
      generalize parseRunner env k (Value.str dsn)
        { bk with runnerErrs := bk.runnerErrs.delete k } log = res at h2 ⊢
      obtain ⟨e, b, l⟩ := res
      cases e with
      | some e => exact ⟨var, registersOnly_to_runnerErrs bk b _ var k h2⟩
      | none => exact ⟨var, h2⟩
  · rw [if_neg ho]
    repeat' split
    all_goals first
      | exact ⟨_, registersOnly_http _ _ _ (fun _ _ => rfl) rfl rfl rfl rfl rfl⟩
      | exact ⟨_, registersOnly_http _ _ _
          (fun n hn => by simp only [GoMap.contains_set_ne _ _ _ _ hn]) rfl rfl rfl rfl rfl⟩

theorem HTTPRunner_registersOnly (env : Env) (k endpoint : String) (client : Handle)
    (opts : List httpRunnerOption) (bk : book) (log : Log) :
    ∃ var, RegistersOnly bk (HTTPRunner env k endpoint client opts bk log).2.1 var k := by
  unfold HTTPRunner
  dsimp only
  repeat' split
  all_goals first
    | exact ⟨_, registersOnly_http _ _ _ (fun _ _ => rfl) rfl rfl rfl rfl rfl⟩
    | exact ⟨_, registersOnly_http _ _ _
        (fun n hn => by simp only [GoMap.contains_set_ne _ _ _ _ hn]) rfl rfl rfl rfl rfl⟩

theorem HTTPRunnerWithHandler_registersOnly (env : Env) (oenv : OptionEnv) (k : String)
    (h : Handle) (opts : List httpRunnerOption) (bk : book) (log : Log) :
    ∃ var, RegistersOnly bk (HTTPRunnerWithHandler env oenv k h opts bk log).2.1 var k := by
  unfold HTTPRunnerWithHandler
  dsimp only
  repeat' split
  all_goals first
    | exact ⟨_, registersOnly_http _ _ _ (fun _ _ => rfl) rfl rfl rfl rfl rfl⟩
    | exact ⟨_, registersOnly_http _ _ _
        (fun n hn => by simp only [GoMap.contains_set_ne _ _ _ _ hn]) rfl rfl rfl rfl rfl⟩

theorem DBRunner_registersOnly (oenv : OptionEnv) (k : String) (client : Handle) (bk : book)
    (log : Log) : ∃ var, RegistersOnly bk (DBRunner oenv k client bk log).2.1 var k := by
  unfold DBRunner
  dsimp only
  repeat' split
  all_goals first
    | exact ⟨_, registersOnly_db _ _ _ rfl (fun _ _ => rfl) rfl rfl rfl rfl⟩
    | exact ⟨_, registersOnly_db _ _ _ rfl
        (fun n hn => by simp only [GoMap.contains_set_ne _ _ _ _ hn]) rfl rfl rfl rfl⟩

theorem GrpcRunner_registersOnly (env : Env) (k : String) (cc : Handle)
    (opts : List grpcRunnerOption) (bk : book) (log : Log) :
    ∃ var, RegistersOnly bk (GrpcRunner env k cc opts bk log).2.1 var k := by
  unfold GrpcRunner
  dsimp only
  repeat' split
  all_goals first
    | exact ⟨_, registersOnly_grpc _ _ _ rfl rfl (fun _ _ => rfl) rfl rfl rfl⟩
    | exact ⟨_, registersOnly_grpc _ _ _ rfl rfl
        (fun n hn => by simp only [GoMap.contains_set_ne _ _ _ _ hn]) rfl rfl rfl⟩

theorem SSHRunner_registersOnly (env : Env) (k : String) (client : Handle) (bk : book)
    (log : Log) : ∃ var, RegistersOnly bk (SSHRunner env k client bk log).2.1 var k := by
  unfold SSHRunner
  dsimp only
  repeat' split
  all_goals first
    | exact ⟨_, registersOnly_ssh _ _ _ rfl rfl rfl rfl (fun _ _ => rfl) rfl⟩
    | exact ⟨_, registersOnly_ssh _ _ _ rfl rfl rfl rfl
        (fun n hn => by simp only [GoMap.contains_set_ne _ _ _ _ hn]) rfl⟩

theorem SSHRunnerWithOptions_registersOnly (env : Env) (k : String)
    (opts : List sshRunnerOption) (bk : book) (log : Log) :
    ∃ var, RegistersOnly bk (SSHRunnerWithOptions env k opts bk log).2.1 var k := by
  unfold SSHRunnerWithOptions
  dsimp only
  repeat' split
  all_goals first
    | exact ⟨_, registersOnly_ssh _ _ _ rfl rfl rfl rfl (fun _ _ => rfl) rfl⟩
    | exact ⟨_, registersOnly_ssh _ _ _ rfl rfl rfl rfl
        (fun n hn => by simp only [GoMap.contains_set_ne _ _ _ _ hn]) rfl⟩

theorem ShellRunnerWithOptions_registersOnly (env : Env) (k : String)
    (opts : List shellRunnerOption) (bk : book) (log : Log) :
    ∃ var, RegistersOnly bk (ShellRunnerWithOptions env k opts bk log).2.1 var k := by
  unfold ShellRunnerWithOptions
  dsimp only
  repeat' split
  all_goals first
    | exact ⟨_, registersOnly_shell _ _ _ rfl rfl rfl rfl rfl (fun _ _ => rfl)⟩
    | exact ⟨_, registersOnly_shell _ _ _ rfl rfl rfl rfl rfl
        (fun n hn => by simp only [GoMap.contains_set_ne _ _ _ _ hn])⟩

theorem runnerOp_registersOnly (env : Env) (oenv : OptionEnv) (k : String)
    (op : book → Log → Option Error × book × Log) (hop : RunnerOp env oenv k op)
    (bk : book) (log : Log) : ∃ var, RegistersOnly bk (op bk log).2.1 var k := by
  cases hop with
  | parseRunner v => exact parseRunner_registersOnly env k v bk log
  | Runner dsn opts => exact Runner_registersOnly env k dsn opts bk log
  | HTTPRunner endpoint client opts =>
    exact HTTPRunner_registersOnly env k endpoint client opts bk log
  | HTTPRunnerWithHandler h opts =>
    exact HTTPRunnerWithHandler_registersOnly env oenv k h opts bk log
  | DBRunner client => exact DBRunner_registersOnly oenv k client bk log
  | GrpcRunner cc opts => exact GrpcRunner_registersOnly env k cc opts bk log
  | SSHRunner client => exact SSHRunner_registersOnly env k client bk log
  | SSHRunnerWithOptions opts => exact SSHRunnerWithOptions_registersOnly env k opts bk log
  | ShellRunnerWithOptions opts =>
    exact ShellRunnerWithOptions_registersOnly env k opts bk log
  | runnHTTPRunner r =>
    exact ⟨_, registersOnly_http _ _ _
      (fun n hn => by simp only [runnHTTPRunner, GoMap.contains_set_ne _ _ _ _ hn])
      rfl rfl rfl rfl rfl⟩
  | runnDBRunner r =>
    exact ⟨_, registersOnly_db _ _ _ rfl
      (fun n hn => by simp only [runnDBRunner, GoMap.contains_set_ne _ _ _ _ hn])
      rfl rfl rfl rfl⟩
  | runnGrpcRunner r =>
    exact ⟨_, registersOnly_grpc _ _ _ rfl rfl
      (fun n hn => by simp only [runnGrpcRunner, GoMap.contains_set_ne _ _ _ _ hn])
      rfl rfl rfl⟩

theorem GoMap.contains_overwriteFrom {α : Type} (dst src : GoMap α) (n : String) :
    (dst.overwriteFrom src).contains n = (src.contains n || dst.contains n) := by
  have h := GoMap.overwriteFrom_isUnion dst src n
  unfold GoMap.contains
  cases hs : src.get? n with
  | some v => rw [h.1 v hs]; rfl
  | none => rw [h.2 hs]; rfl

theorem GoMap.contains_fillFrom {α : Type} (dst src : GoMap α) (n : String) :
    (dst.fillFrom src).contains n = (src.contains n || dst.contains n) := by
  have h := GoMap.fillFrom_isUnion dst src n
  unfold GoMap.contains
  cases hd : dst.get? n with
  | some v => rw [h.1 v hd]; simp
  | none => rw [h.2 hd]; simp

theorem disjoint_merge (bk loaded r : book) (hD : DisjointByName bk)
    (hL : DisjointByName loaded) (hC : NoLayerClash bk loaded)
    (hr : ∀ v n, registered r v n = (registered loaded v n || registered bk v n)) :
    DisjointByName r := by
  intro n v1 v2 h1 h2
  rw [hr, Bool.or_eq_true] at h1 h2
  rcases h1 with h1 | h1 <;> rcases h2 with h2 | h2
  · exact hL n v1 v2 h1 h2
  · exact (hC n v2 v1 h2 h1).symm
  · exact hC n v1 v2 h1 h2
  · exact hD n v1 v2 h1 h2

theorem Book_registered (env : Env) (path : String) (bk : book) (log : Log) :
    (∀ v n, registered (Book env path bk log).2.1 v n = registered bk v n)
    ∨ ∃ loaded, (LoadBook env path log).1 = Except.ok loaded
        ∧ ∀ v n, registered (Book env path bk log).2.1 v n
            = (registered loaded v n || registered bk v n) := by
  unfold Book
  generalize LoadBook env path log = r
  obtain ⟨r1, l1⟩ := r
  cases r1 with
  | error e => exact Or.inl (fun _ _ => rfl)
  | ok loaded =>
    refine Or.inr ⟨loaded, rfl, ?_⟩
    intro v n
    dsimp only
    repeat' split
    all_goals cases v <;> exact GoMap.contains_overwriteFrom _ _ _

theorem Overlay_registered (env : Env) (path : String) (bk : book) (log : Log) :
    (∀ v n, registered (Overlay env path bk log).2.1 v n = registered bk v n)
    ∨ ∃ loaded, (LoadBook env path log).1 = Except.ok loaded
        ∧ ∀ v n, registered (Overlay env path bk log).2.1 v n
            = (registered loaded v n || registered bk v n) := by
  unfold Overlay
  split
  · exact Or.inl (fun _ _ => rfl)
  · generalize LoadBook env path log = r
    obtain ⟨r1, l1⟩ := r
    cases r1 with
    | error e => exact Or.inl (fun _ _ => rfl)
    | ok loaded =>
      dsimp only
      split
      · exact Or.inl (fun v _ => by cases v <;> rfl)
      · refine Or.inr ⟨loaded, rfl, ?_⟩
        intro v n
        cases v <;> exact GoMap.contains_overwriteFrom _ _ _

theorem Underlay_registered (env : Env) (path : String) (bk : book) (log : Log) :
    (∀ v n, registered (Underlay env path bk log).2.1 v n = registered bk v n)
    ∨ ∃ loaded, (LoadBook env path log).1 = Except.ok loaded
        ∧ ∀ v n, registered (Underlay env path bk log).2.1 v n
            = (registered loaded v n || registered bk v n) := by
  unfold Underlay
  split
  · exact Or.inl (fun _ _ => rfl)
  · generalize LoadBook env path log = r
    obtain ⟨r1, l1⟩ := r
    cases r1 with
    | error e => exact Or.inl (fun _ _ => rfl)
    | ok loaded =>
      dsimp only
      by_cases hd : bk.desc = "" <;> by_cases hi : bk.ifCond = "" <;>
        by_cases hs : bk.intervalStr = "" <;>
        simp only [hd, hi, hs, if_true, if_false] <;>
        · split
          · exact Or.inl (fun v _ => by cases v <;> rfl)
          · refine Or.inr ⟨loaded, rfl, ?_⟩
            intro v n
            cases v <;> exact GoMap.contains_fillFrom _ _ _

theorem parseBook_unregistered (env : Env) (hEnv : DecodesUnresolved env) (f : Handle)
    (b : book) (h : parseBook env f = Except.ok b) :
    ∀ var k, registered b var k = false := by
  unfold parseBook at h
  cases hp : env.ParseRunbook f with
  | error e => rw [hp] at h; simp at h
  | ok rb =>
    rw [hp] at h
    dsimp only at h
    cases ht : env.toBook rb with
    | error e => rw [ht] at h; simp at h
    | ok b0 =>
      have h0 := hEnv rb b0 ht
      rw [ht] at h
      dsimp only at h
      cases hm : env.jsonMarshal b0.vars with
      | error e => rw [hm] at h; simp at h
      | ok bytes =>
        rw [hm] at h
        dsimp only at h
        cases hu : env.jsonUnmarshal bytes with
        | error e => rw [hu] at h; simp at h
        | ok vars =>
          rw [hu] at h
          dsimp only at h
          have key : ∀ (bk1 : book), (∀ v n, registered bk1 v n = registered b0 v n) →
              (match (if bk1.intervalStr ≠ "" then
                  match env.parseDuration bk1.intervalStr with
                  | Except.error err => Except.error ("invalid interval: " ++ err)
                  | Except.ok d => Except.ok { bk1 with interval := d }
                else Except.ok bk1 : Except Error book) with
                | Except.error err => Except.error err
                | Except.ok bk =>
                  match bk.runners.entries.findSome? (fun kv => validateRunnerKey kv.1) with
                  | some err => Except.error err
                  | none =>
                    match validateSteps env 0 bk.rawSteps with
                    | some err => Except.error err
                    | none => Except.ok bk) = Except.ok b →
              ∀ var k, registered b var k = false := by
            intro bk1 hreg hres var k
            have hfin : ∀ bk2 : book, (∀ v n, registered bk2 v n = registered b0 v n) →
                (match bk2.runners.entries.findSome? (fun kv => validateRunnerKey kv.1) with
                  | some err => Except.error err
                  | none =>
                    match validateSteps env 0 bk2.rawSteps with
                    | some err => Except.error err
                    | none => (Except.ok bk2 : Except Error book)) = Except.ok b →
                registered b var k = false := by
              intro bk2 hreg2 hres2
              cases hf : bk2.runners.entries.findSome? (fun kv => validateRunnerKey kv.1) with
              | some e => rw [hf] at hres2; simp at hres2
              | none =>
                rw [hf] at hres2
                dsimp only at hres2
                cases hs : validateSteps env 0 bk2.rawSteps with
                | some e => rw [hs] at hres2; simp at hres2
                | none =>
                  rw [hs] at hres2
                  have h2 : bk2 = b := Except.ok.inj hres2
                  rw [← h2, hreg2, h0]
            by_cases hi : bk1.intervalStr ≠ ""
            · rw [if_pos hi] at hres
              cases hd : env.parseDuration bk1.intervalStr with
              | error e => rw [hd] at hres; simp at hres
              | ok d =>
                rw [hd] at hres
                exact hfin _ (fun v n => by rw [← hreg v n]; cases v <;> rfl) hres
            · rw [if_neg hi] at hres
              exact hfin _ hreg hres
          exact key _ (fun v n => by split <;> cases v <;> rfl) h

theorem parseVarsLoop_registered (env : Env) :
    ∀ (l : List (String × Value)) (bk : book) (v : RunnerVariant) (n : String),
      registered (parseVarsLoop env l bk).2 v n = registered bk v n := by
  intro l
  induction l with
  | nil => intro bk v n; rfl
  | cons e l ih =>
    intro bk v n
    obtain ⟨k, x⟩ := e
    unfold parseVarsLoop
    split
    · rfl
    · split
      · rfl
      · rw [ih]
        cases v <;> rfl

theorem parseRunners_fold_disjoint (env : Env) :
    ∀ (l : List (String × Value)) (st : book × Log), (l.map Prod.fst).Nodup →
      DisjointByName st.1 →
      (∀ v n, registered st.1 v n = true → n ∉ l.map Prod.fst) →
      DisjointByName (l.foldl (parseRunnersStep env) st).1 := by
  intro l
  induction l with
  | nil => intro st _ hD _; exact hD
  | cons e l ih =>
    intro st hnd hD hfresh
    rw [List.map_cons, List.nodup_cons] at hnd
    rw [List.foldl_cons]
    have hstep : ∃ var, RegistersOnly st.1 (parseRunnersStep env st e).1 var e.1 := by
      unfold parseRunnersStep
      obtain ⟨var, h⟩ := parseRunner_registersOnly env e.1 e.2 st.1 st.2
      generalize parseRunner env e.1 e.2 st.1 st.2 = res at h ⊢
      obtain ⟨er, b, lg⟩ := res
      cases er with
      | some er => exact ⟨var, registersOnly_to_runnerErrs st.1 b _ var e.1 h⟩
      | none => exact ⟨var, h⟩
    have hk : ∀ v, registered st.1 v e.1 = false := by
      intro v
      cases hreg : registered st.1 v e.1 with
      | false => rfl
      | true => exact absurd (by simp) (hfresh v e.1 hreg)
    apply ih _ hnd.2
    · apply disjoint_of_registersOnly st.1 _ e.1 hD hstep
      intro v1 v2 h1 _
      rw [hk v1] at h1
      exact absurd h1 (by simp)
    · intro v n hreg hn
      obtain ⟨var, hR⟩ := hstep
      by_cases hne : n = e.1
      · rw [hne] at hn
        exact hnd.1 hn
      · rw [hR v n (Or.inr hne)] at hreg
        exact hfresh v n hreg (by simp [hn])

theorem LoadBook_disjoint (env : Env) (hEnv : DecodesUnresolved env) (path : String)
    (log : Log) (loaded : book) (h : (LoadBook env path log).1 = Except.ok loaded) :
    DisjointByName loaded := by
  unfold LoadBook at h
  dsimp only at h
  cases ho : env.osOpen path with
  | error e => rw [ho] at h; simp at h
  | ok f =>
    rw [ho] at h
    dsimp only at h
    cases hp : parseBook env f with
    | error e => rw [hp] at h; simp at h
    | ok b =>
      have hb := parseBook_unregistered env hEnv f b hp
      rw [hp] at h
      dsimp only at h
      have hb2 : ∀ v n, registered { b with path := path } v n = false := by
        intro v n
        rw [← hb v n]
        cases v <;> rfl
      have hD := parseRunners_fold_disjoint env b.runners.entries
        ({ b with path := path }, log ++ [Call.osOpen path]) b.runners.nodup
        (fun n v1 v2 h1 _ => by rw [hb2] at h1; exact absurd h1 (by simp))
        (fun v n h1 => by rw [hb2] at h1; exact absurd h1 (by simp))
      unfold parseRunners at h
      dsimp only at h
      generalize List.foldl (parseRunnersStep env)
        ({ b with path := path }, log ++ [Call.osOpen path]) b.runners.entries = st at hD h
      have hv := parseVarsLoop_registered env st.1.vars.entries st.1
      unfold parseVars at h
      generalize parseVarsLoop env st.1.vars.entries st.1 = pv at hv h
      obtain ⟨e, b2⟩ := pv
      dsimp only at hv
      cases e with
      | some e => simp at h
      | none =>
        dsimp only at h
        cases hc : env.closeFile f with
        | some e => rw [hc] at h; simp at h
        | none =>
          rw [hc] at h
          have h2 : b2 = loaded := Except.ok.inj h
          subst h2
          intro n v1 v2 h1 h2
          rw [hv] at h1 h2
          exact hD n v1 v2 h1 h2

theorem layerOp_registered (env : Env) (path : String)
    (op : book → Log → Option Error × book × Log) (hop : LayerOp env path op)
    (bk : book) (log : Log) :
    (∀ v n, registered (op bk log).2.1 v n = registered bk v n)
    ∨ ∃ loaded, (LoadBook env path log).1 = Except.ok loaded
        ∧ ∀ v n, registered (op bk log).2.1 v n
            = (registered loaded v n || registered bk v n) := by
  cases hop with
  | Book => exact Book_registered env path bk log
  | Overlay => exact Overlay_registered env path bk log
  | Underlay => exact Underlay_registered env path bk log

/-- C15 (counterexample): registering the name `req` with `Runner` first as an
HTTP URL and then as a gRPC address leaves `req` a key of both the HTTP and the
gRPC runner map, so the maps of this book, reachable from a new book, are not
disjoint by name. -/
theorem Runner_twice_registers_two_variants :
    registered
        (Runner demoEnv "req" "grpc://localhost:50051" []
          (Runner demoEnv "req" "https://example.com" [] newBook []).2.1
          (Runner demoEnv "req" "https://example.com" [] newBook []).2.2).2.1
        RunnerVariant.HTTP "req" = true
    ∧ registered
        (Runner demoEnv "req" "grpc://localhost:50051" []
          (Runner demoEnv "req" "https://example.com" [] newBook []).2.1
          (Runner demoEnv "req" "https://example.com" [] newBook []).2.2).2.1
        RunnerVariant.GRPC "req" = true
    ∧ ¬ DisjointByName
        (Runner demoEnv "req" "grpc://localhost:50051" []
          (Runner demoEnv "req" "https://example.com" [] newBook []).2.1
          (Runner demoEnv "req" "https://example.com" [] newBook []).2.2).2.1 := by
  refine ⟨by decide, by decide, ?_⟩
  intro h
  have h2 := h "req" RunnerVariant.HTTP RunnerVariant.GRPC (by decide) (by decide)
  exact absurd h2 (by decide)

/-- C15 (amended): when the runbook decoder hands out books without resolved
runners, every book reachable from `newBook()` by `parseRunner`, `Runner`, the
typed runner options, `Book`, `Overlay` and `Underlay`, where no operation puts a
name under a second variant (a name held under one variant is not registered
under another, and a layer brings no name the destination holds under another
variant), has resolved runner maps that are pairwise disjoint by name. -/
theorem reachable_disjointByName (env : Env) (oenv : OptionEnv)
    (hEnv : DecodesUnresolved env) (bk : book) (h : Reachable env oenv bk) :
    DisjointByName bk := by
  induction h with
  | new =>
    intro n v1 v2 h1 _
    have : registered newBook v1 n = false := by cases v1 <;> rfl
    rw [this] at h1
    exact absurd h1 (by simp)
  | runner bk log k op _ hop hN ih =>
    exact disjoint_of_registersOnly bk _ k ih (runnerOp_registersOnly env oenv k op hop bk log)
      hN
  | layer bk log path op _ hop hC ih =>
    rcases layerOp_registered env path op hop bk log with hsame | ⟨loaded, hL, hr⟩
    · intro n v1 v2 h1 h2
      rw [hsame] at h1 h2
      exact ih n v1 v2 h1 h2
    · exact disjoint_merge bk loaded _ ih (LoadBook_disjoint env hEnv path log loaded hL)
        (hC loaded hL) hr

/-- Witness for C15 (amended): in `demoEnv` the decoder hands out books without
resolved runners, and the book obtained from a new book by registering `req` once
with `Runner` is reachable, hence its maps are disjoint by name. -/
theorem reachable_disjointByName_witness :
    DisjointByName (Runner demoEnv "req" "https://example.com" [] newBook []).2.1 :=
  reachable_disjointByName demoEnv demoOptionEnv
    (fun _ b hb var k => by
      have h2 : demoLayer = b := Except.ok.inj hb
      rw [← h2]
      cases var <;> rfl)
    _
    (Reachable.runner newBook [] "req" (Runner demoEnv "req" "https://example.com" [])
      Reachable.new (RunnerOp.Runner "req" "https://example.com" [])
      (fun v1 _ h1 _ => by
        have : registered newBook v1 "req" = false := by cases v1 <;> rfl
        rw [this] at h1
        exact absurd h1 (by simp)))

/-! ## Step identity -/

theorem tagChain_eq (d k r : String) (b1 b2 b3 b4 b5 b6 b7 b8 b9 b10 b11 : Bool) :
    (if b1 = true then
        ({ Typ := IDType.IDTypeStep, Desc := d, StepKey := k, StepRunnerKey := r,
           StepRunnerType := some RunnerType.RunnerTypeHTTP } : ID)
      else if b2 = true then
        ({ Typ := IDType.IDTypeStep, Desc := d, StepKey := k, StepRunnerKey := r,
           StepRunnerType := some RunnerType.RunnerTypeDB } : ID)
      else if b3 = true then
        ({ Typ := IDType.IDTypeStep, Desc := d, StepKey := k, StepRunnerKey := r,
           StepRunnerType := some RunnerType.RunnerTypeGRPC } : ID)
      else if b4 = true then
        ({ Typ := IDType.IDTypeStep, Desc := d, StepKey := k, StepRunnerKey := r,
           StepRunnerType := some RunnerType.RunnerTypeCDP } : ID)
      else if b5 = true then
        ({ Typ := IDType.IDTypeStep, Desc := d, StepKey := k, StepRunnerKey := r,
           StepRunnerType := some RunnerType.RunnerTypeSSH } : ID)
      else if b6 = true then
        ({ Typ := IDType.IDTypeStep, Desc := d, StepKey := k, StepRunnerKey := r,
           StepRunnerType := some RunnerType.RunnerTypeExec } : ID)
      else if b7 = true then
        ({ Typ := IDType.IDTypeStep, Desc := d, StepKey := k, StepRunnerKey := r,
           StepRunnerType := some RunnerType.RunnerTypeShell } : ID)
      else if b8 = true then
        ({ Typ := IDType.IDTypeStep, Desc := d, StepKey := k, StepRunnerKey := r,
           StepRunnerType := some RunnerType.RunnerTypeInclude } : ID)
      else if b9 = true then
        ({ Typ := IDType.IDTypeStep, Desc := d, StepKey := k, StepRunnerKey := r,
           StepRunnerType := some RunnerType.RunnerTypeDump } : ID)
      else if b10 = true then
        ({ Typ := IDType.IDTypeStep, Desc := d, StepKey := k, StepRunnerKey := r,
           StepRunnerType := some RunnerType.RunnerTypeBind } : ID)
      else if b11 = true then
        ({ Typ := IDType.IDTypeStep, Desc := d, StepKey := k, StepRunnerKey := r,
           StepRunnerType := some RunnerType.RunnerTypeTest } : ID)
      else
        { Typ := IDType.IDTypeStep, Desc := d, StepKey := k, StepRunnerKey := r,
          StepRunnerType := none })
      = { Typ := IDType.IDTypeStep, Desc := d, StepKey := k, StepRunnerKey := r,
          StepRunnerType :=
            (List.find? (fun p => p.2)
              [(RunnerType.RunnerTypeHTTP, b1),
               (RunnerType.RunnerTypeDB, b2),
               (RunnerType.RunnerTypeGRPC, b3),
               (RunnerType.RunnerTypeCDP, b4),
               (RunnerType.RunnerTypeSSH, b5),
               (RunnerType.RunnerTypeExec, b6),
               (RunnerType.RunnerTypeShell, b7),
               (RunnerType.RunnerTypeInclude, b8),
               (RunnerType.RunnerTypeDump, b9),
               (RunnerType.RunnerTypeBind, b10),
               (RunnerType.RunnerTypeTest, b11)]).map Prod.fst } := by
  cases b1 with
  | true => rfl
  | false =>
    cases b2 with
    | true => rfl
    | false =>
      cases b3 with
      | true => rfl
      | false =>
        cases b4 with
        | true => rfl
        | false =>
          cases b5 with
          | true => rfl
          | false =>
            cases b6 with
            | true => rfl
            | false =>
              cases b7 with
              | true => rfl
              | false =>
                cases b8 with
                | true => rfl
                | false =>
                  cases b9 with
                  | true => rfl
                  | false =>
                    cases b10 with
                    | true => rfl
                    | false =>
                      cases b11 with
                      | true => rfl
                      | false =>
                        rfl

theorem generateID_eq (s : step) :
    generateID s
      = { Typ := IDType.IDTypeStep, Desc := s.desc, StepKey := s.key,
          StepRunnerKey := s.runnerKey,
          StepRunnerType := ((completePairs s).find? (fun p => p.2)).map Prod.fst } :=
  tagChain_eq s.desc s.key s.runnerKey _ _ _ _ _ _ _ _ _ _ _

/-- C16: `generateID` returns an ID of type step whose `StepKey`, `StepRunnerKey`
and `Desc` are the key, runner key and description of the step, and whose
runner-type tag is the tag of the first pair, in the order HTTP, DB, gRPC, CDP,
SSH, Exec, Shell, Include, Dump, Bind, Test, of which both the handle and the
payload are present; a tag is only set when its pair is complete, and no complete
pair leaves the tag unset. Two steps that agree on key, runner key, description
and on which pairs are complete get equal IDs. -/
theorem generateID_spec (s s2 : step) :
    (generateID s).Typ = IDType.IDTypeStep
    ∧ (generateID s).StepKey = s.key
    ∧ (generateID s).StepRunnerKey = s.runnerKey
    ∧ (generateID s).Desc = s.desc
    ∧ (generateID s).StepRunnerType
        = ((completePairs s).find? (fun p => p.2)).map Prod.fst
    ∧ (∀ t, (generateID s).StepRunnerType = some t → (t, true) ∈ completePairs s)
    ∧ ((∀ p ∈ completePairs s, p.2 = false) → (generateID s).StepRunnerType = none)
    ∧ (s.key = s2.key → s.runnerKey = s2.runnerKey → s.desc = s2.desc
        → completePairs s = completePairs s2 → generateID s = generateID s2) := by
  rw [generateID_eq s, generateID_eq s2]
  refine ⟨rfl, rfl, rfl, rfl, rfl, ?_, ?_, ?_⟩
  · intro t ht
    dsimp only at ht
    cases hf : (completePairs s).find? (fun p => p.2) with
    | none => rw [hf] at ht; simp at ht
    | some p =>
      rw [hf] at ht
      have hp2 : p.2 = true := by simpa using List.find?_some hf
      have hmem := List.mem_of_find?_eq_some hf
      have hp1 : p.1 = t := by simpa using ht
      obtain ⟨a, b⟩ := p
      dsimp only at hp1 hp2
      rw [← hp1, ← hp2]
      exact hmem
  · intro hall
    dsimp only
    have : (completePairs s).find? (fun p => p.2) = none := by
      rw [List.find?_eq_none]
      intro p hp
      rw [hall p hp]
      simp
    rw [this]
    rfl
  · intro h1 h2 h3 h4
    rw [h1, h2, h3, h4]

/-! ## The capture bus -/

theorem foldl_invoke (cs : capturers) (inv : Invocation) (tr : CaptureLog) :
    cs.foldl (fun tr c => tr ++ [(c, inv)]) tr = tr ++ cs.map (fun c => (c, inv)) := by
  induction cs generalizing tr with
  | nil => simp
  | cons c cs ih => rw [List.foldl_cons, ih, List.map_cons, List.append_assoc]; rfl

theorem emit_eq (cs : capturers) (inv : Invocation) (tr : CaptureLog) :
    emit cs inv tr = tr ++ cs.map (fun c => (c, inv)) := by
  cases inv <;> exact foldl_invoke _ _ _

theorem registerAll_capturers (obs : List Handle) (bk : book) :
    (registerAll obs bk).capturers = bk.capturers ++ obs := by
  unfold registerAll
  induction obs generalizing bk with
  | nil => simp
  | cons c obs ih =>
    rw [List.foldl_cons, ih]
    simp [Capture]

theorem count_invocations (cs : capturers) (inv : Invocation) (c : Handle) :
    ((cs.map (fun c => (c, inv))).filter (fun e => decide (e.1 = c))).length = cs.count c := by
  induction cs with
  | nil => rfl
  | cons a cs ih =>
    rw [List.map_cons, List.count_cons]
    by_cases h : a = c
    · rw [List.filter_cons_of_pos (by simpa using h), List.length_cons, ih]
      simp [h]
    · rw [List.filter_cons_of_neg (by simpa using h), ih]
      simp [h]

/-- C17: the observers registered with `Capture`, one after the other, are the
capturers of the book in registration order; one emit call of any method of the
bus adds to the calls received exactly one call per registered observer, in
registration order, of the corresponding observer method with the arguments given
(so an observer registered once receives exactly one call); with no observer
registered an emit call adds nothing. -/
theorem emit_fans_out (obs : List Handle) (bk : book) (inv : Invocation) (tr : CaptureLog) :
    (registerAll obs bk).capturers = bk.capturers ++ obs
    ∧ emit (registerAll obs newBook).capturers inv tr = tr ++ obs.map (fun c => (c, inv))
    ∧ (∀ c, (((emit (registerAll obs newBook).capturers inv tr).drop tr.length).filter
          (fun e => decide (e.1 = c))).length = obs.count c)
    ∧ (∀ c, obs.Nodup → c ∈ obs →
        (((emit (registerAll obs newBook).capturers inv tr).drop tr.length).filter
          (fun e => decide (e.1 = c))).length = 1)
    ∧ emit [] inv tr = tr := by
  have hc : (registerAll obs newBook).capturers = obs := by
    rw [registerAll_capturers]; rfl
  have hd : (emit (registerAll obs newBook).capturers inv tr).drop tr.length
      = obs.map (fun c => (c, inv)) := by
    rw [hc, emit_eq, List.drop_left]
  refine ⟨registerAll_capturers obs bk, ?_, ?_, ?_, ?_⟩
  · rw [hc, emit_eq]
  · intro c
    rw [hd, count_invocations]
  · intro c hnd hmem
    rw [hd, count_invocations, List.count_eq_one_of_mem hnd hmem]
  · rw [emit_eq]; simp

/-! ## The shell runner -/

theorem Trim_blank (s : String) (h : ∀ ch ∈ s.data, ch = ' ' ∨ ch = '\n') :
    Trim s " \n" = "" := by
  have h1 : s.data.dropWhile (fun ch => " \n".data.contains ch) = [] := by
    rw [List.dropWhile_eq_nil_iff]
    intro ch hch
    rcases h ch hch with rfl | rfl <;> decide
  unfold Trim
  rw [h1]
  rfl

theorem shellStdinEvents_invoke (cs : capturers) (inv : Invocation) (tr : CaptureLog)
    (h : inv.isShellStdin = false) :
    shellStdinEvents (tr ++ cs.map (fun c => (c, inv))) = shellStdinEvents tr := by
  unfold shellStdinEvents
  rw [List.filter_append]
  have h2 : (cs.map (fun c => (c, inv))).filter (fun e => e.2.isShellStdin) = [] := by
    rw [List.filter_eq_nil_iff]
    intro e he
    rw [List.mem_map] at he
    obtain ⟨c, _, rfl⟩ := he
    simp [h]
  rw [h2, List.append_nil]

theorem shellStdinEvents_command (cs : capturers) (x : String) (tr : CaptureLog) :
    shellStdinEvents (captureShellCommand cs x tr) = shellStdinEvents tr :=
  (congrArg shellStdinEvents (foldl_invoke cs (.CaptureShellCommand x) tr)).trans
    (shellStdinEvents_invoke cs _ tr rfl)

theorem shellStdinEvents_stdout (cs : capturers) (x : String) (tr : CaptureLog) :
    shellStdinEvents (captureShellStdout cs x tr) = shellStdinEvents tr :=
  (congrArg shellStdinEvents (foldl_invoke cs (.CaptureShellStdout x) tr)).trans
    (shellStdinEvents_invoke cs _ tr rfl)

theorem shellStdinEvents_stderr (cs : capturers) (x : String) (tr : CaptureLog) :
    shellStdinEvents (captureShellStderr cs x tr) = shellStdinEvents tr :=
  (congrArg shellStdinEvents (foldl_invoke cs (.CaptureShellStderr x) tr)).trans
    (shellStdinEvents_invoke cs _ tr rfl)

theorem runOnce_blank (senv : ShellEnv) (cs : capturers) (rnr : shellRunner)
    (c : shellCommand) (w : ShellWorld) (h : Trim c.stdin " \n" = "") :
    (runOnce senv cs rnr c w).1 = none
    ∧ (runOnce senv cs rnr c w).2.2.ran
        = w.ran ++ [{ Path := rnr.shell, Args := [rnr.shell, "-c", c.command],
                      Stdin := none, Process := none }]
    ∧ (runOnce senv cs rnr c w).2.2.written = w.written
    ∧ shellStdinEvents (runOnce senv cs rnr c w).2.2.captured
        = shellStdinEvents w.captured := by
  unfold runOnce
  dsimp only
  rw [if_neg (not_not.mpr h), if_neg (not_not.mpr h)]
  refine ⟨rfl, rfl, rfl, ?_⟩
  rw [shellStdinEvents_stderr, shellStdinEvents_stdout, shellStdinEvents_command]

theorem runKept_blank (senv : ShellEnv) (cs : capturers) (events : List ShellEvent)
    (rnr : shellRunner) (c : shellCommand) (w : ShellWorld)
    (h : Trim c.stdin " \n" = "") :
    (runKept senv cs events rnr c w).2.2.ran = w.ran
    ∧ (runKept senv cs events rnr c w).2.2.written
        = w.written ++ [(rnr.stdin, TrimRight c.command "\n" ++ "\n")]
    ∧ shellStdinEvents (runKept senv cs events rnr c w).2.2.captured
        = shellStdinEvents w.captured := by
  unfold runKept
  dsimp only
  rw [if_neg (not_not.mpr h)]
  cases senv.write rnr.stdin (TrimRight c.command "\n" ++ "\n") with
  | some err => exact ⟨rfl, rfl, shellStdinEvents_command _ _ _⟩
  | none =>
    refine ⟨rfl, rfl, ?_⟩
    dsimp only
    rw [shellStdinEvents_stderr, shellStdinEvents_stdout, shellStdinEvents_command]

/-- C18 (counterexample): a stdin content made of one tab, which is a whitespace
character, is forwarded on both paths: the one-shot path runs the command with the
tab as standard input and the observer `1` receives the shell-stdin capture event;
the persistent-session path writes the tab to the process and emits the event as
well. -/
theorem tab_stdin_is_forwarded :
    "\t".data.all Char.isWhitespace = true
    ∧ (runOnce demoShellEnv [1] (demoShellRunner "/bin/sh" false)
        { command := "cat", stdin := "\t" } emptyShellWorld).2.2.ran.map (fun cmd => cmd.Stdin)
        = [some "\t"]
    ∧ shellStdinSeen (runOnce demoShellEnv [1] (demoShellRunner "/bin/sh" false)
        { command := "cat", stdin := "\t" } emptyShellWorld).2.2.captured = [(1, "\t")]
    ∧ (Run demoShellEnv [1] [] (demoShellRunner "/bin/sh" true)
        { command := "cat", stdin := "\t" } emptyShellWorld).2.2.written
        = [(some 10, "cat\n"), (some 10, "\t\n")]
    ∧ shellStdinSeen (Run demoShellEnv [1] [] (demoShellRunner "/bin/sh" true)
        { command := "cat", stdin := "\t" } emptyShellWorld).2.2.captured = [(1, "\t")] := by
  refine ⟨by decide, by decide, by decide, by decide, by decide⟩

/-- C18 (amended): for every shell command whose stdin content is empty or consists
only of spaces and newlines, the one-shot path runs the command without a standard
input, writes nothing to a kept process and emits no shell-stdin capture event; and
`Run`, on either path, hands no standard input to a command it runs, writes at most
the command line (never the stdin content) to the kept process and emits no
shell-stdin capture event. -/
theorem blank_stdin_not_forwarded (senv : ShellEnv) (cs : capturers)
    (events : List ShellEvent) (rnr : shellRunner) (c : shellCommand) (w : ShellWorld)
    (hblank : ∀ ch ∈ c.stdin.data, ch = ' ' ∨ ch = '\n') :
    ((runOnce senv cs rnr c w).2.2.ran
        = w.ran ++ [{ Path := rnr.shell, Args := [rnr.shell, "-c", c.command],
                      Stdin := none, Process := none }]
      ∧ (runOnce senv cs rnr c w).2.2.written = w.written
      ∧ shellStdinEvents (runOnce senv cs rnr c w).2.2.captured
          = shellStdinEvents w.captured)
    ∧ (((Run senv cs events rnr c w).2.2.ran = w.ran
          ∨ (Run senv cs events rnr c w).2.2.ran
              = w.ran ++ [{ Path := rnr.shell, Args := [rnr.shell, "-c", c.command],
                            Stdin := none, Process := none }])
      ∧ ((Run senv cs events rnr c w).2.2.written = w.written
          ∨ ∃ stdin, (Run senv cs events rnr c w).2.2.written
              = w.written ++ [(stdin, TrimRight c.command "\n" ++ "\n")])
      ∧ shellStdinEvents (Run senv cs events rnr c w).2.2.captured
          = shellStdinEvents w.captured) := by
  have h := Trim_blank c.stdin hblank
  have h1 := runOnce_blank senv cs rnr c w h
  refine ⟨⟨h1.2.1, h1.2.2.1, h1.2.2.2⟩, ?_⟩
  unfold Run
  cases hk : rnr.keepProcess with
  | false => exact ⟨Or.inr h1.2.1, Or.inl h1.2.2.1, h1.2.2.2⟩
  | true =>
    rw [if_neg (by simp)]
    cases hc : rnr.cmd with
    | some cmd =>
      have h2 := runKept_blank senv cs events rnr c w h
      exact ⟨Or.inl h2.1, Or.inr ⟨_, h2.2.1⟩, h2.2.2⟩
    | none =>
      dsimp only
      generalize startProcess senv rnr = r
      obtain ⟨e, rnr2⟩ := r
      cases e with
      | some err => exact ⟨Or.inl rfl, Or.inl rfl, rfl⟩
      | none =>
        have h2 := runKept_blank senv cs events rnr2 c w h
        exact ⟨Or.inl h2.1, Or.inr ⟨_, h2.2.1⟩, h2.2.2⟩

/-- Witness for C18 (amended): the stdin content of a space, a newline and a space
is blank, and neither path forwards it in the example world. -/
theorem blank_stdin_not_forwarded_witness :
    (∀ ch ∈ " \n ".data, ch = ' ' ∨ ch = '\n')
    ∧ (runOnce demoShellEnv [1] (demoShellRunner "/bin/sh" false)
        { command := "cat", stdin := " \n " } emptyShellWorld).2.2.ran
        = [{ Path := "/bin/sh", Args := ["/bin/sh", "-c", "cat"], Stdin := none,
             Process := none }]
    ∧ shellStdinEvents (Run demoShellEnv [1] [] (demoShellRunner "/bin/sh" true)
        { command := "cat", stdin := " \n " } emptyShellWorld).2.2.captured = [] :=
  ⟨by decide,
    (blank_stdin_not_forwarded demoShellEnv [1] [] (demoShellRunner "/bin/sh" false)
      { command := "cat", stdin := " \n " } emptyShellWorld (by decide)).1.1,
    (blank_stdin_not_forwarded demoShellEnv [1] [] (demoShellRunner "/bin/sh" true)
      { command := "cat", stdin := " \n " } emptyShellWorld (by decide)).2.2.2⟩

theorem terminateProcess_clears (senv : ShellEnv) (rnr : shellRunner) (cmd : execCmd)
    (p : Handle) (hc : rnr.cmd = some cmd) (hp : cmd.Process = some p)
    (hk : senv.kill p = none) : (terminateProcess senv rnr).2.cmd = none := by
  unfold terminateProcess
  rw [hc]
  dsimp only
  rw [hp]
  dsimp only
  rw [hk]

theorem runOnce_cmd_of_not_started (senv : ShellEnv) (cs : capturers) (rnr : shellRunner)
    (c : shellCommand) (w : ShellWorld) (h : ∀ cmd, (senv.run cmd).Process = none) :
    (runOnce senv cs rnr c w).2.1.cmd ≠ none := by
  unfold runOnce terminateProcess
  dsimp only
  rw [h]
  exact Option.some_ne_none _

/-- C19: after a one-shot invocation whose shell could not be started the process
handle of the runner is not nil: `terminateProcess` returns at the test
`rnr.cmd.Process == nil` before it resets `rnr.cmd`, so the runner keeps the
command `runOnce` built (with `Process` nil) and `runOnce` still returns no
error. -/
theorem runOnce_keeps_cmd_when_not_started :
    (demoShellEnv.run { Path := "/no/such/shell", Args := ["/no/such/shell", "-c", "echo hi"],
                        Stdin := none, Process := none }).Process = none
    ∧ (demoShellRunner "/no/such/shell" false).keepProcess = false
    ∧ (runOnce demoShellEnv [] (demoShellRunner "/no/such/shell" false)
        { command := "echo hi", stdin := "" } emptyShellWorld).1 = none
    ∧ (runOnce demoShellEnv [] (demoShellRunner "/no/such/shell" false)
        { command := "echo hi", stdin := "" } emptyShellWorld).2.1.cmd
        = some { Path := "/no/such/shell", Args := ["/no/such/shell", "-c", "echo hi"],
                 Stdin := none, Process := none } := by
  refine ⟨by decide, rfl, rfl, rfl⟩

theorem foldl_append_string (l : List String) (acc : String) :
    l.foldl (fun r s => r ++ s) acc = acc ++ l.foldl (fun r s => r ++ s) "" := by
  induction l generalizing acc with
  | nil => simp
  | cons a l ih =>
    rw [List.foldl_cons, ih, List.foldl_cons, ih ("" ++ a), String.empty_append,
      String.append_assoc]

theorem join_cons (a : String) (l : List String) :
    String.join (a :: l) = a ++ String.join l := by
  unfold String.join
  rw [List.foldl_cons, foldl_append_string, String.empty_append]

theorem stdoutBeforeEnd_nil : stdoutBeforeEnd [] = "" := rfl

theorem stderrBeforeEnd_nil : stderrBeforeEnd [] = "" := rfl

theorem collect_eq (events : List ShellEvent) (stdout stderr : String) :
    collect events stdout stderr
      = (stdout ++ stdoutBeforeEnd events, stderr ++ stderrBeforeEnd events) := by
  induction events generalizing stdout stderr with
  | nil => simp [collect, stdoutBeforeEnd_nil, stderrBeforeEnd_nil]
  | cons ev rest ih =>
    cases ev with
    | stdoutLine line =>
      have h1 : stdoutBeforeEnd (ShellEvent.stdoutLine line :: rest)
          = (line ++ "\n") ++ stdoutBeforeEnd rest := by
        unfold stdoutBeforeEnd
        rw [List.takeWhile_cons_of_pos rfl]
        show String.join ((line ++ "\n") :: _) = _
        rw [join_cons]
      have h2 : stderrBeforeEnd (ShellEvent.stdoutLine line :: rest)
          = stderrBeforeEnd rest := by
        unfold stderrBeforeEnd
        rw [List.takeWhile_cons_of_pos rfl, List.filterMap_cons_none rfl]
      rw [collect, ih, h1, h2, String.append_assoc]
    | stderrLine line =>
      have h1 : stderrBeforeEnd (ShellEvent.stderrLine line :: rest)
          = (line ++ "\n") ++ stderrBeforeEnd rest := by
        unfold stderrBeforeEnd
        rw [List.takeWhile_cons_of_pos rfl]
        show String.join ((line ++ "\n") :: _) = _
        rw [join_cons]
      have h2 : stdoutBeforeEnd (ShellEvent.stderrLine line :: rest)
          = stdoutBeforeEnd rest := by
        unfold stdoutBeforeEnd
        rw [List.takeWhile_cons_of_pos rfl, List.filterMap_cons_none rfl]
      rw [collect, ih, h1, h2, String.append_assoc]
    | stdoutClosed =>
      have h1 : stdoutBeforeEnd (ShellEvent.stdoutClosed :: rest) = "" := rfl
      have h2 : stderrBeforeEnd (ShellEvent.stdoutClosed :: rest) = "" := rfl
      rw [collect, h1, h2, String.append_empty, String.append_empty]
    | stderrClosed =>
      have h1 : stdoutBeforeEnd (ShellEvent.stderrClosed :: rest) = "" := rfl
      have h2 : stderrBeforeEnd (ShellEvent.stderrClosed :: rest) = "" := rfl
      rw [collect, h1, h2, String.append_empty, String.append_empty]
    | timeout =>
      have h1 : stdoutBeforeEnd (ShellEvent.timeout :: rest) = "" := rfl
      have h2 : stderrBeforeEnd (ShellEvent.timeout :: rest) = "" := rfl
      rw [collect, h1, h2, String.append_empty, String.append_empty]
    | done =>
      have h1 : stdoutBeforeEnd (ShellEvent.done :: rest) = "" := rfl
      have h2 : stderrBeforeEnd (ShellEvent.done :: rest) = "" := rfl
      rw [collect, h1, h2, String.append_empty, String.append_empty]

theorem takeWhile_isLine_stop (pre post : List ShellEvent) (t : ShellEvent)
    (hpre : ∀ e ∈ pre, e.isLine = true) (ht : t.isLine = false) :
    (pre ++ t :: post).takeWhile ShellEvent.isLine = pre := by
  induction pre with
  | nil => rw [List.nil_append, List.takeWhile_cons_of_neg (by simp [ht])]
  | cons a pre ih =>
    rw [List.cons_append, List.takeWhile_cons_of_pos (hpre a (List.mem_cons_self _ _)),
      ih (fun e he => hpre e (List.mem_cons_of_mem _ he))]

theorem takeWhile_isLine_all (pre : List ShellEvent) (hpre : ∀ e ∈ pre, e.isLine = true) :
    pre.takeWhile ShellEvent.isLine = pre := by
  induction pre with
  | nil => rfl
  | cons a pre ih =>
    rw [List.takeWhile_cons_of_pos (hpre a (List.mem_cons_self _ _)),
      ih (fun e he => hpre e (List.mem_cons_of_mem _ he))]

theorem captured_out (cs : capturers) (o e : String) (tr : CaptureLog) :
    captureShellStderr cs e (captureShellStdout cs o tr)
      = (tr ++ cs.map (fun c => (c, Invocation.CaptureShellStdout o)))
          ++ cs.map (fun c => (c, Invocation.CaptureShellStderr e)) :=
  (foldl_invoke cs (.CaptureShellStderr e) _).trans
    (congrArg (fun t => t ++ cs.map (fun c => (c, Invocation.CaptureShellStderr e)))
      (foldl_invoke cs (.CaptureShellStdout o) tr))

theorem runKept_result (senv : ShellEnv) (cs : capturers) (events : List ShellEvent)
    (rnr : shellRunner) (c : shellCommand) (w : ShellWorld) :
    ((runKept senv cs events rnr c w).1 = none →
        (runKept senv cs events rnr c w).2.2.recorded
          = w.recorded ++ [collect events "" ""]
        ∧ ∃ tr, (runKept senv cs events rnr c w).2.2.captured
            = (tr ++ cs.map (fun c => (c, Invocation.CaptureShellStdout
                  (collect events "" "").1)))
                ++ cs.map (fun c => (c, Invocation.CaptureShellStderr
                  (collect events "" "").2)))
    ∧ ((runKept senv cs events rnr c w).1 ≠ none →
        (runKept senv cs events rnr c w).2.2.recorded = w.recorded)
    ∧ ((∀ h s, senv.write h s = none) → (runKept senv cs events rnr c w).1 = none) := by
  unfold runKept
  dsimp only
  cases h1 : senv.write rnr.stdin (TrimRight c.command "\n" ++ "\n") with
  | some err =>
    refine ⟨fun h => (by cases h), fun _ => rfl, fun h => ?_⟩
    rw [h] at h1
    cases h1
  | none =>
    dsimp only
    by_cases hb : Trim c.stdin " \n" ≠ ""
    · rw [if_pos hb]
      cases h2 : senv.write rnr.stdin (c.stdin ++ "\n") with
      | some err =>
        refine ⟨fun h => (by cases h), fun _ => rfl, fun h => ?_⟩
        rw [h] at h2
        cases h2
      | none =>
        dsimp only
        exact ⟨fun _ => ⟨rfl, ⟨_, captured_out cs _ _ _⟩⟩, fun h => absurd rfl h, fun _ => rfl⟩
    · rw [if_neg hb]
      dsimp only
      exact ⟨fun _ => ⟨rfl, ⟨_, captured_out cs _ _ _⟩⟩, fun h => absurd rfl h, fun _ => rfl⟩

/-- C20: in persistent-session mode (`keepProcess` true) the collection loop of
`Run` over a sequence of outcomes gathers as stdout the stdout lines received
before the first terminating outcome (close of a channel, silence timeout,
cancellation), in arrival order, each followed by one newline, and as stderr the
stderr lines likewise; outcomes after the first terminating one play no part; when
`Run` returns no error it has recorded exactly this output and handed it to the
observers as the last two capture events; `Run` returns an error only without
recording anything, and it returns no error whenever the process could be started
(when there was none) and the writes to it succeed, so that the loop, once reached,
always ends with the output gathered so far and no error. -/
theorem Run_collects (senv : ShellEnv) (cs : capturers) (events : List ShellEvent)
    (rnr : shellRunner) (c : shellCommand) (w : ShellWorld)
    (hk : rnr.keepProcess = true) :
    collect events "" "" = (stdoutBeforeEnd events, stderrBeforeEnd events)
    ∧ (∀ pre t post, events = pre ++ t :: post → (∀ e ∈ pre, e.isLine = true) →
        t.isLine = false → collect events "" "" = collect pre "" "")
    ∧ ((Run senv cs events rnr c w).1 = none →
        (Run senv cs events rnr c w).2.2.recorded
          = w.recorded ++ [(stdoutBeforeEnd events, stderrBeforeEnd events)]
        ∧ ∃ tr, (Run senv cs events rnr c w).2.2.captured
            = (tr ++ cs.map (fun c => (c, Invocation.CaptureShellStdout
                  (stdoutBeforeEnd events))))
                ++ cs.map (fun c => (c, Invocation.CaptureShellStderr
                  (stderrBeforeEnd events))))
    ∧ ((Run senv cs events rnr c w).1 ≠ none →
        (Run senv cs events rnr c w).2.2.recorded = w.recorded)
    ∧ ((rnr.cmd = none → (startProcess senv rnr).1 = none) →
        (∀ h s, senv.write h s = none) → (Run senv cs events rnr c w).1 = none) := by
  have hcol : collect events "" "" = (stdoutBeforeEnd events, stderrBeforeEnd events) := by
    rw [collect_eq, String.empty_append, String.empty_append]
  refine ⟨hcol, ?_, ?_⟩
  · intro pre t post he hpre ht
    rw [collect_eq, collect_eq]
    unfold stdoutBeforeEnd stderrBeforeEnd
    rw [he, takeWhile_isLine_stop pre post t hpre ht, takeWhile_isLine_all pre hpre]
  · unfold Run
    rw [if_neg (by simp [hk])]
    cases hc : rnr.cmd with
    | some cmd =>
      have h2 := runKept_result senv cs events rnr c w
      rw [hcol] at h2
      exact ⟨h2.1, h2.2.1, fun _ hw => h2.2.2 hw⟩
    | none =>
      dsimp only
      generalize hs : startProcess senv rnr = r
      obtain ⟨e, rnr2⟩ := r
      cases e with
      | some err =>
        refine ⟨fun h => (by cases h), fun _ => rfl, fun h _ => ?_⟩
        have h3 := h rfl
        cases h3
      | none =>
        have h2 := runKept_result senv cs events rnr2 c w
        rw [hcol] at h2
        exact ⟨h2.1, h2.2.1, fun _ hw => h2.2.2 hw⟩

/-- Witness for C20: a kept `/bin/sh` session in the example world receives two
stdout lines and one stderr line before the context is cancelled, and a further
line afterwards; `Run` returns no error and records the three lines received
before the cancellation. -/
theorem Run_collects_witness :
    (demoShellRunner "/bin/sh" true).keepProcess = true
    ∧ (Run demoShellEnv [1]
        [ShellEvent.stdoutLine "a", ShellEvent.stderrLine "b", ShellEvent.stdoutLine "c",
          ShellEvent.done, ShellEvent.stdoutLine "z"]
        (demoShellRunner "/bin/sh" true) { command := "cat", stdin := "" }
        emptyShellWorld).1 = none
    ∧ (Run demoShellEnv [1]
        [ShellEvent.stdoutLine "a", ShellEvent.stderrLine "b", ShellEvent.stdoutLine "c",
          ShellEvent.done, ShellEvent.stdoutLine "z"]
        (demoShellRunner "/bin/sh" true) { command := "cat", stdin := "" }
        emptyShellWorld).2.2.recorded = [("a\nc\n", "b\n")] :=
  ⟨rfl,
    (Run_collects demoShellEnv [1]
      [ShellEvent.stdoutLine "a", ShellEvent.stderrLine "b", ShellEvent.stdoutLine "c",
        ShellEvent.done, ShellEvent.stdoutLine "z"]
      (demoShellRunner "/bin/sh" true) { command := "cat", stdin := "" }
      emptyShellWorld rfl).2.2.2.2 (fun _ => by decide) (fun _ _ => rfl),
    by decide⟩

/-! ## Scheme prefixes of bare-string declarations -/

theorem HasPrefix_take (s p : String) (n : Nat) (h : HasPrefix s p = true)
    (hn : n ≤ p.data.length) : s.data.take n = p.data.take n := by
  unfold HasPrefix at h
  rw [List.isPrefixOf_iff_prefix] at h
  obtain ⟨t, ht⟩ := h
  rw [← ht, List.take_append_of_le_length hn]

theorem HasPrefix_excl (s p q : String) (n : Nat) (hp : n ≤ p.data.length)
    (hq : n ≤ q.data.length) (hne : p.data.take n ≠ q.data.take n)
    (h : HasPrefix s p = true) : HasPrefix s q = false := by
  cases hq2 : HasPrefix s q with
  | false => rfl
  | true =>
    exact absurd ((HasPrefix_take s p n h hp).symm.trans (HasPrefix_take s q n hq2 hq)) hne

theorem TrimPrefix_pos (s p : String) (h : HasPrefix s p = true) :
    TrimPrefix s p = remainder s p := by
  unfold TrimPrefix remainder
  rw [if_pos h]

theorem TrimPrefix_neg (s p : String) (h : HasPrefix s p = false) :
    TrimPrefix s p = s := by
  unfold TrimPrefix
  rw [if_neg (by simp [h])]

/-- The address or remote target handed to the constructor for the scheme prefixes
`grpc://`, `ssh://`, `chrome://` and `cdp://`: the remainder after the matched
prefix, except that after `cdp://` a further `chrome://` is removed as well. -/
theorem parseRunner_string_remainder (env : Env) (k vv : String) (bk : book) (log : Log) :
    (HasPrefix vv "grpc://" = true →
        (parseRunner env k (Value.str vv) bk log).2.2
          = log ++ [Call.newGrpcRunner k (remainder vv "grpc://")])
    ∧ (HasPrefix vv "ssh://" = true →
        (parseRunner env k (Value.str vv) bk log).2.2
          = log ++ [Call.newSSHRunner k (remainder vv "ssh://")])
    ∧ (HasPrefix vv "chrome://" = true →
        (parseRunner env k (Value.str vv) bk log).2.2
          = log ++ [Call.newCDPRunner k (remainder vv "chrome://")])
    ∧ (HasPrefix vv "cdp://" = true →
        HasPrefix (remainder vv "cdp://") "chrome://" = false →
        (parseRunner env k (Value.str vv) bk log).2.2
          = log ++ [Call.newCDPRunner k (remainder vv "cdp://")])
    ∧ (HasPrefix vv "cdp://" = true →
        HasPrefix (remainder vv "cdp://") "chrome://" = true →
        (parseRunner env k (Value.str vv) bk log).2.2
          = log ++ [Call.newCDPRunner k
              (remainder (remainder vv "cdp://") "chrome://")]) := by
  simp only [parseRunner]
  unfold parseRunnerString
  refine ⟨?_, ?_, ?_, ?_, ?_⟩
  · intro h
    have h1 := HasPrefix_excl vv "grpc://" "https://" 1 (by decide) (by decide) (by decide) h
    have h2 := HasPrefix_excl vv "grpc://" "http://" 1 (by decide) (by decide) (by decide) h
    simp only [h1, h2, h, Bool.or_false, Bool.false_eq_true, if_false, if_true]
    rw [TrimPrefix_pos vv _ h]
    cases env.newGrpcRunner k (remainder vv "grpc://") <;> rfl
  · intro h
    have h1 := HasPrefix_excl vv "ssh://" "https://" 1 (by decide) (by decide) (by decide) h
    have h2 := HasPrefix_excl vv "ssh://" "http://" 1 (by decide) (by decide) (by decide) h
    have h3 := HasPrefix_excl vv "ssh://" "grpc://" 1 (by decide) (by decide) (by decide) h
    have h4 := HasPrefix_excl vv "ssh://" "cdp://" 1 (by decide) (by decide) (by decide) h
    have h5 := HasPrefix_excl vv "ssh://" "chrome://" 1 (by decide) (by decide) (by decide) h
    simp only [h1, h2, h3, h4, h5, h, Bool.or_false, Bool.false_eq_true, if_false, if_true]
    rw [TrimPrefix_pos vv _ h]
    cases env.newSSHRunner k (remainder vv "ssh://") <;> rfl
  · intro h
    have h1 := HasPrefix_excl vv "chrome://" "https://" 1 (by decide) (by decide) (by decide) h
    have h2 := HasPrefix_excl vv "chrome://" "http://" 1 (by decide) (by decide) (by decide) h
    have h3 := HasPrefix_excl vv "chrome://" "grpc://" 1 (by decide) (by decide) (by decide) h
    have h4 := HasPrefix_excl vv "chrome://" "cdp://" 2 (by decide) (by decide) (by decide) h
    simp only [h1, h2, h3, h4, h, Bool.or_false, Bool.false_or, Bool.false_eq_true, if_false,
      if_true]
    rw [TrimPrefix_neg vv "cdp://" h4, TrimPrefix_pos vv _ h]
    cases env.newCDPRunner k (remainder vv "chrome://") <;> rfl
  · intro h hc
    have h1 := HasPrefix_excl vv "cdp://" "https://" 1 (by decide) (by decide) (by decide) h
    have h2 := HasPrefix_excl vv "cdp://" "http://" 1 (by decide) (by decide) (by decide) h
    have h3 := HasPrefix_excl vv "cdp://" "grpc://" 1 (by decide) (by decide) (by decide) h
    simp only [h1, h2, h3, h, Bool.or_false, Bool.true_or, Bool.false_eq_true, if_false,
      if_true]
    rw [TrimPrefix_pos vv _ h, TrimPrefix_neg _ "chrome://" hc]
    cases env.newCDPRunner k (remainder vv "cdp://") <;> rfl
  · intro h hc
    have h1 := HasPrefix_excl vv "cdp://" "https://" 1 (by decide) (by decide) (by decide) h
    have h2 := HasPrefix_excl vv "cdp://" "http://" 1 (by decide) (by decide) (by decide) h
    have h3 := HasPrefix_excl vv "cdp://" "grpc://" 1 (by decide) (by decide) (by decide) h
    simp only [h1, h2, h3, h, Bool.or_false, Bool.true_or, Bool.false_eq_true, if_false,
      if_true]
    rw [TrimPrefix_pos vv _ h, TrimPrefix_pos _ "chrome://" hc]
    cases env.newCDPRunner k (remainder (remainder vv "cdp://") "chrome://") <;> rfl

/-- C21: for the bare-string declaration `cdp://chrome://x` the matched scheme
prefix is `cdp://` and the remainder is `chrome://x`, yet the remote target handed
to the Browser-Control constructor is `x`: the nested `TrimPrefix` removes
`chrome://` as well. -/
theorem parseRunner_cdp_chrome_strips_both :
    HasPrefix "cdp://chrome://x" "cdp://" = true
    ∧ remainder "cdp://chrome://x" "cdp://" = "chrome://x"
    ∧ (parseRunner demoEnv "b" (Value.str "cdp://chrome://x") newBook []).2.2
        = [Call.newCDPRunner "b" "x"]
    ∧ (parseRunner demoEnv "b" (Value.str "cdp://chrome://x") newBook []).2.2
        ≠ [Call.newCDPRunner "b" (remainder "cdp://chrome://x" "cdp://")] := by
  refine ⟨by decide, by decide, by decide, by decide⟩

/-! ## TLS material of gRPC runners -/

theorem grpcTLSItem_mem (env : Env) (root : String) (bs : Bytes) (path : String) :
    grpcTLSItem env root (some bs) path = (.ok bs, []) := rfl

theorem grpcTLSItem_reads (env : Env) (root path : String) :
    (grpcTLSItem env root none path).2
      = [Call.readFile (if HasPrefix path "/" then path else env.join root path)] := by
  unfold grpcTLSItem
  dsimp only
  split <;> rfl

theorem grpcOptionTLSItem_mem (env : Env) (bs : Bytes) (path : String) :
    grpcOptionTLSItem env (some bs) path = (.ok (some bs), []) := rfl

theorem grpcOptionTLSItem_no_path (env : Env) :
    grpcOptionTLSItem env none "" = (.ok none, []) := rfl

theorem grpcOptionTLSItem_reads (env : Env) (mem : Option Bytes) (path : String) :
    (grpcOptionTLSItem env mem path).2 ≠ [] → mem = none ∧ path ≠ "" := by
  unfold grpcOptionTLSItem
  cases mem with
  | some bs => intro h; exact absurd rfl h
  | none =>
    dsimp only
    by_cases hp : path ≠ ""
    · intro _; exact ⟨rfl, hp⟩
    · rw [if_neg hp]; intro h; exact absurd rfl h

/-- A structured gRPC declaration with an address, no in-memory CA certificate and
no CA certificate path: the detector reads the file at the operator root joined
with the empty path, and when that read fails it returns the read error and
registers nothing. -/
theorem parseGRPC_reads_without_material (env : Env) (name : String) (b : Bytes)
    (bk : book) (log : Log) (c : grpcRunnerConfig) (root : String) (r : grpcRunner)
    (hu : env.unmarshalGRPC b = some c) (ha : c.Addr ≠ "")
    (hroot : generateOperatorRoot env bk = .ok root)
    (hn : env.newGrpcRunner name c.Addr = .ok r)
    (hm : c.cacert = none) (hp : c.CACert = "") :
    Call.readFile (env.join root "") ∈ (parseGRPCRunnerWithDetailed env name b bk log).2.2
    ∧ (∀ err, env.readFile (env.join root "") = .error err →
        (parseGRPCRunnerWithDetailed env name b bk log).1 = (false, some err)
        ∧ (parseGRPCRunnerWithDetailed env name b bk log).2.1 = bk) := by
  have hi : grpcTLSItem env root c.cacert c.CACert
      = (env.readFile (env.join root ""), [Call.readFile (env.join root "")]) := by
    rw [hm, hp]; rfl
  unfold parseGRPCRunnerWithDetailed
  dsimp only
  rw [hu]
  dsimp only
  rw [if_neg ha, hroot]
  dsimp only
  rw [hn]
  dsimp only
  rw [hi]
  cases hr : env.readFile (env.join root "") with
  | error e =>
    dsimp only
    refine ⟨by simp, fun err he => ?_⟩
    cases he
    exact ⟨rfl, rfl⟩
  | ok bs =>
    dsimp only
    refine ⟨?_, fun err he => by cases he⟩
    generalize grpcTLSItem env root c.cert c.Cert = i2
    obtain ⟨r2, c2⟩ := i2
    cases r2 with
    | error e => simp
    | ok cert =>
      dsimp only
      generalize grpcTLSItem env root c.key c.Key = i3
      obtain ⟨r3, c3⟩ := i3
      cases r3 with
      | error e => simp
      | ok key => simp

/-- C22: the structured declaration `addr: localhost:50051`, which gives an address
and no TLS material at all, makes `parseRunner` read a file, the operator root
`/work` itself (the root joined with the empty CA certificate path); the read of the
directory fails, so `parseRunner` returns the read error and the name is not
registered as a gRPC runner. The option `GrpcRunner` with the same configuration
reads no file and registers the runner. -/
theorem parseRunner_grpc_addr_only_reads_root :
    (grpcEnv.unmarshalGRPC "addr: localhost:50051\n").map
        (fun c => (c.Addr, c.cacert, c.cert, c.key, c.CACert, c.Cert, c.Key))
      = some ("localhost:50051", none, none, none, "", "", "")
    ∧ isOk (grpcEnv.newGrpcRunner "greq" "localhost:50051") = true
    ∧ readsOf (parseRunner grpcEnv "greq" (Value.map [("addr", Value.str "localhost:50051")])
        newBook []).2.2 = ["/work"]
    ∧ (parseRunner grpcEnv "greq" (Value.map [("addr", Value.str "localhost:50051")])
        newBook []).1 = some "read /work: is a directory"
    ∧ registered (parseRunner grpcEnv "greq"
        (Value.map [("addr", Value.str "localhost:50051")]) newBook []).2.1
        RunnerVariant.GRPC "greq" = false
    ∧ readsOf (GrpcRunner grpcEnv "greq" 7 [fun c => .ok c] newBook []).2.2 = []
    ∧ registered (GrpcRunner grpcEnv "greq" 7 [fun c => .ok c] newBook []).2.1
        RunnerVariant.GRPC "greq" = true := by
  refine ⟨rfl, by decide, by decide, by decide, by decide, by decide, by decide⟩

end Runn
